import Mathlib

/-! # LowLatencyInput: the touch reader loop

A shallow embedding of `app/src/main/cpp/input/input_reader_loop.cpp`
(`inputReaderLoop`) and of the region update of
`app/src/main/cpp/input/input_reader.cpp`, followed by the properties proved
about them.

Conventions of the embedding

* C++ `int` and `long long` values are unbounded `Int`; signed overflow is
  undefined behaviour in the source and is outside the model.  `/` on them is
  `Int.tdiv` (truncation toward zero).
* The calls into the Java side (`callSendUi...JNI`, `sendTouchEventToJava`)
  are recorded, in call order, as a list of `Emit`.
* The globals another thread may write (`g_screenWidthPx`, ...,
  `g_clickableRegions`) and the reading of `steady_clock` are an input `Env`
  of every handled record.
-/

namespace LowLatencyInput

/-! ## Constants -/

/-- Delay before a long press is reported (`LONG_PRESS_START_DELAY_MS`, line 32). -/
def LONG_PRESS_START_DELAY_MS : Int := 150

/-- Number of slots of `localTouches` (`MAX_SLOTS`, line 35). -/
def MAX_SLOTS : Nat := 10

/-- Modelled from the spec: the record type of an absolute-axis event; the
value is the one of `linux/input-event-codes.h`, a system header. -/
def EV_ABS : Nat := 3

/-- Modelled from the spec: the record type of a synchronisation event
(`linux/input-event-codes.h`). -/
def EV_SYN : Nat := 0

/-- Modelled from the spec: the code of the report-boundary marker
(`linux/input-event-codes.h`). -/
def SYN_REPORT : Nat := 0

/-- Modelled from the spec: the code of a slot-select event
(`linux/input-event-codes.h`). -/
def ABS_MT_SLOT : Nat := 47

/-- Modelled from the spec: the code of a tracking-id event
(`linux/input-event-codes.h`). -/
def ABS_MT_TRACKING_ID : Nat := 57

/-- Modelled from the spec: the code of a position-X event
(`linux/input-event-codes.h`). -/
def ABS_MT_POSITION_X : Nat := 53

/-- Modelled from the spec: the code of a position-Y event
(`linux/input-event-codes.h`). -/
def ABS_MT_POSITION_Y : Nat := 54

/-! ## Data model (`input_reader.h`) -/

/-- Rectangle of the screen with an identifier (`struct ClickableRegion`). -/
structure ClickableRegion where
  identifier : String := ""
  left : Int := 0
  top : Int := 0
  width : Int := 0
  height : Int := 0
deriving DecidableEq, Repr

/-- State of one slot (`struct TouchPoint`), with the defaults of the header. -/
structure TouchPoint where
  id : Int := -1
  x : Int := 0
  y : Int := 0
  isDown : Bool := false
  maybeUiTap : Bool := false
  uiTapHandled : Bool := false
  downTimestampMs : Int := 0
  downRegionIdentifier : String := ""
  downX : Int := 0
  downY : Int := 0
  isCheckingForLongPressStart : Bool := false
  longPressStartSent : Bool := false
deriving DecidableEq, Repr

/-- One record of the device (`struct input_event`): the time stamp of the
device, type, code and value. -/
structure InputEvent where
  tv_sec : Int := 0
  tv_usec : Int := 0
  type : Nat
  code : Nat
  value : Int
deriving DecidableEq, Repr

/-- What a handled record reads from outside the thread: the screen geometry
globals, the region list (read under `g_regionMutex`) and the reading of
`std::chrono::steady_clock` in milliseconds. -/
structure Env where
  g_screenWidthPx : Int := 0
  g_screenHeightPx : Int := 0
  g_screenTopOffsetPx : Int := 0
  g_screenLeftOffsetPx : Int := 0
  g_clickableRegions : List ClickableRegion := []
  nowMs : Int := 0
deriving DecidableEq, Repr

/-- A call into the Java side.  The `slot` of the three UI calls is the index
of the `TouchPoint` being handled when the call is made (the `[Slot=%d]` of
the log line next to the call); it is not transmitted.

* `tapDown` is `callSendUiEventPacketJNI(env, identifier, x, y)`;
* `pressStart` is `callSendUiPressDownPacketJNI(env, identifier, x, y, downTimestampMs)`;
* `pressEnd` is `callSendUiLongPressPacketJNI(env, identifier, x, y)`;
* `raw` is `sendTouchEventToJava(env, data)`. -/
inductive Emit where
  | tapDown (slot : Nat) (identifier : String) (x y : Int)
  | pressStart (slot : Nat) (identifier : String) (x y : Int) (downTimestampMs : Int)
  | pressEnd (slot : Nat) (identifier : String) (x y : Int)
  | raw (data : String)
deriving DecidableEq, Repr

/-- The locals of `inputReaderLoop` that live across loop passes (lines
117-128).  `leftoverBuf` holds the first `leftoverCount` bytes of the C
array, so `leftoverCount` is its length. -/
structure LoopState where
  localTouches : List TouchPoint := List.replicate MAX_SLOTS {}
  currentSlot : Int := 0
  touchDataUpdated : Bool := false
  leftoverBuf : List Nat := []
deriving DecidableEq, Repr

/-- State at the entry of the `while` loop (lines 116-128). -/
def LoopState.init : LoopState := {}

/-! ## The record handler of the main parse loop (lines 319-436) -/

/-- The `for (auto & region : g_clickableRegions)` loop of lines 402-417:
the first region whose test succeeds ends the loop (`break`). -/
def regionLoop (adjustedX adjustedY : Int) : List ClickableRegion → Option ClickableRegion
  | [] => none
  | region :: rest =>
    if adjustedX ≥ region.left ∧
        adjustedX < (region.left + region.width) ∧
        adjustedY ≥ region.top ∧
        adjustedY < (region.top + region.height) then
      some region
    else regionLoop adjustedX adjustedY rest

/-- Body of the slot loop at a report boundary (lines 389-426) for slot `i`:
the new slot, the calls made, and the updated `dataToSend` and
`activePoints`. -/
def reportSlot (nativeMaxX nativeMaxY : Int) (env : Env) (i : Nat) (tp : TouchPoint)
    (dataToSend : String) (activePoints : Nat) :
    TouchPoint × List Emit × String × Nat :=
  if tp.id ≠ -1 then
    let rotatedX := if nativeMaxY > 0
      then (tp.y * env.g_screenWidthPx).tdiv nativeMaxY else tp.y
    let rotatedY := if nativeMaxX > 0
      then ((nativeMaxX - tp.x) * env.g_screenHeightPx).tdiv nativeMaxX
      else (nativeMaxX - tp.x)
    let adjustedX := rotatedX - env.g_screenLeftOffsetPx
    let adjustedY := rotatedY - env.g_screenTopOffsetPx
    let r : TouchPoint × List Emit :=
      if tp.isDown && !tp.maybeUiTap then
        let tp1 := { tp with downX := adjustedX, downY := adjustedY }
        match regionLoop adjustedX adjustedY env.g_clickableRegions with
        | some region =>
          ({ tp1 with
              maybeUiTap := true
              downRegionIdentifier := region.identifier
              isCheckingForLongPressStart := true
              longPressStartSent := false },
            [Emit.tapDown i region.identifier adjustedX adjustedY])
        | none => (tp1, [])
      else (tp, [])
    if !r.1.uiTapHandled then
      (r.1, r.2,
        dataToSend ++ ("|" ++ toString r.1.id ++ "," ++ toString adjustedX
          ++ "," ++ toString adjustedY),
        activePoints + 1)
    else (r.1, r.2, dataToSend, activePoints)
  else (tp, [], dataToSend, activePoints)

/-- The loop `for (int i = 0; i < MAX_SLOTS; i++)` of lines 388-427, from
index `i` on, over the remaining slots. -/
def reportLoop (nativeMaxX nativeMaxY : Int) (env : Env) :
    Nat → List TouchPoint → String → Nat → List TouchPoint × List Emit × String × Nat
  | _, [], dataToSend, activePoints => ([], [], dataToSend, activePoints)
  | i, tp :: rest, dataToSend, activePoints =>
    let r := reportSlot nativeMaxX nativeMaxY env i tp dataToSend activePoints
    let q := reportLoop nativeMaxX nativeMaxY env (i + 1) rest r.2.2.1 r.2.2.2
    (r.1 :: q.1, r.2.1 ++ q.2.1, q.2.2.1, q.2.2.2)

/-- Handling of one record in the main parse loop (lines 319-436): the new
state and the calls made, in order. -/
def handleEvent (nativeMaxX nativeMaxY : Int) (env : Env) (s : LoopState) (ev : InputEvent) :
    LoopState × List Emit :=
  if ev.type = EV_ABS then
    if ev.code = ABS_MT_SLOT then
      let currentSlot := ev.value
      let currentSlot :=
        if currentSlot < 0 ∨ currentSlot ≥ MAX_SLOTS then 0 else currentSlot
      ({ s with currentSlot := currentSlot }, [])
    else if ev.code = ABS_MT_TRACKING_ID then
      let tp := s.localTouches.getD s.currentSlot.toNat {}
      if ev.value = -1 then
        let r : TouchPoint × List Emit :=
          if tp.isDown && tp.maybeUiTap then
            let rotatedX := if nativeMaxY > 0
              then (tp.y * env.g_screenWidthPx).tdiv nativeMaxY else tp.y
            let rotatedY := if nativeMaxX > 0
              then ((nativeMaxX - tp.x) * env.g_screenHeightPx).tdiv nativeMaxX
              else (nativeMaxX - tp.x)
            let adjustedX := rotatedX - env.g_screenLeftOffsetPx
            let adjustedY := rotatedY - env.g_screenTopOffsetPx
            ({ tp with uiTapHandled := true },
              if tp.longPressStartSent then
                [Emit.pressEnd s.currentSlot.toNat tp.downRegionIdentifier adjustedX adjustedY]
              else [])
          else (tp, [])
        let tp2 : TouchPoint :=
          { r.1 with
              id := -1
              isDown := false
              maybeUiTap := false
              uiTapHandled := false
              downRegionIdentifier := ""
              isCheckingForLongPressStart := false
              longPressStartSent := false }
        ({ s with
            localTouches := s.localTouches.set s.currentSlot.toNat tp2
            touchDataUpdated := true }, r.2)
      else
        let tp2 : TouchPoint :=
          { tp with
              id := ev.value
              isDown := true
              uiTapHandled := false
              isCheckingForLongPressStart := false
              longPressStartSent := false
              downTimestampMs := env.nowMs
              downRegionIdentifier := "" }
        ({ s with
            localTouches := s.localTouches.set s.currentSlot.toNat tp2
            touchDataUpdated := true }, [])
    else if ev.code = ABS_MT_POSITION_X then
      let tp := s.localTouches.getD s.currentSlot.toNat {}
      ({ s with
          localTouches := s.localTouches.set s.currentSlot.toNat { tp with x := ev.value }
          touchDataUpdated := true }, [])
    else if ev.code = ABS_MT_POSITION_Y then
      let tp := s.localTouches.getD s.currentSlot.toNat {}
      ({ s with
          localTouches := s.localTouches.set s.currentSlot.toNat { tp with y := ev.value }
          touchDataUpdated := true }, [])
    else (s, [])
  else if ev.type = EV_SYN ∧ ev.code = SYN_REPORT then
    if s.touchDataUpdated then
      let currentTimestampMs := ev.tv_sec * 1000 + ev.tv_usec.tdiv 1000
      let currentTimestampMs :=
        if currentTimestampMs = 0 then env.nowMs else currentTimestampMs
      let r := reportLoop nativeMaxX nativeMaxY env 0 s.localTouches "T" 0
      let out :=
        if r.2.2.2 > 0 then
          r.2.1 ++ [Emit.raw (r.2.2.1 ++ (";" ++ toString currentTimestampMs))]
        else r.2.1
      ({ s with localTouches := r.1, touchDataUpdated := false }, out)
    else (s, [])
  else (s, [])

/-! ## The record handler of the leftover path (lines 191-309)

The source repeats the handler for the record completed from `leftoverBuf`;
the copy is embedded separately. -/

/-- The region loop of lines 275-290 (leftover path). -/
def regionLoopLeftover (adjustedX adjustedY : Int) :
    List ClickableRegion → Option ClickableRegion
  | [] => none
  | region :: rest =>
    if adjustedX ≥ region.left ∧
        adjustedX < (region.left + region.width) ∧
        adjustedY ≥ region.top ∧
        adjustedY < (region.top + region.height) then
      some region
    else regionLoopLeftover adjustedX adjustedY rest

/-- Body of the slot loop at a report boundary, leftover path (lines 262-299). -/
def reportSlotLeftover (nativeMaxX nativeMaxY : Int) (env : Env) (i : Nat) (tp : TouchPoint)
    (dataToSend : String) (activePoints : Nat) :
    TouchPoint × List Emit × String × Nat :=
  if tp.id ≠ -1 then
    let rotatedX := if nativeMaxY > 0
      then (tp.y * env.g_screenWidthPx).tdiv nativeMaxY else tp.y
    let rotatedY := if nativeMaxX > 0
      then ((nativeMaxX - tp.x) * env.g_screenHeightPx).tdiv nativeMaxX
      else (nativeMaxX - tp.x)
    let adjustedX := rotatedX - env.g_screenLeftOffsetPx
    let adjustedY := rotatedY - env.g_screenTopOffsetPx
    let r : TouchPoint × List Emit :=
      if tp.isDown && !tp.maybeUiTap then
        let tp1 := { tp with downX := adjustedX, downY := adjustedY }
        match regionLoopLeftover adjustedX adjustedY env.g_clickableRegions with
        | some region =>
          ({ tp1 with
              maybeUiTap := true
              downRegionIdentifier := region.identifier
              isCheckingForLongPressStart := true
              longPressStartSent := false },
            [Emit.tapDown i region.identifier adjustedX adjustedY])
        | none => (tp1, [])
      else (tp, [])
    if !r.1.uiTapHandled then
      (r.1, r.2,
        dataToSend ++ ("|" ++ toString r.1.id ++ "," ++ toString adjustedX
          ++ "," ++ toString adjustedY),
        activePoints + 1)
    else (r.1, r.2, dataToSend, activePoints)
  else (tp, [], dataToSend, activePoints)

/-- The slot loop of lines 261-300 (leftover path), from index `i` on. -/
def reportLoopLeftover (nativeMaxX nativeMaxY : Int) (env : Env) :
    Nat → List TouchPoint → String → Nat → List TouchPoint × List Emit × String × Nat
  | _, [], dataToSend, activePoints => ([], [], dataToSend, activePoints)
  | i, tp :: rest, dataToSend, activePoints =>
    let r := reportSlotLeftover nativeMaxX nativeMaxY env i tp dataToSend activePoints
    let q := reportLoopLeftover nativeMaxX nativeMaxY env (i + 1) rest r.2.2.1 r.2.2.2
    (r.1 :: q.1, r.2.1 ++ q.2.1, q.2.2.1, q.2.2.2)

/-- Handling of the record completed from `leftoverBuf` (lines 191-309). -/
def handleLeftoverEvent (nativeMaxX nativeMaxY : Int) (env : Env) (s : LoopState)
    (ev : InputEvent) : LoopState × List Emit :=
  if ev.type = EV_ABS then
    if ev.code = ABS_MT_SLOT then
      let currentSlot := ev.value
      let currentSlot :=
        if currentSlot < 0 ∨ currentSlot ≥ MAX_SLOTS then 0 else currentSlot
      ({ s with currentSlot := currentSlot }, [])
    else if ev.code = ABS_MT_TRACKING_ID then
      let tp := s.localTouches.getD s.currentSlot.toNat {}
      if ev.value = -1 then
        let r : TouchPoint × List Emit :=
          if tp.isDown && tp.maybeUiTap then
            let rotatedX := if nativeMaxY > 0
              then (tp.y * env.g_screenWidthPx).tdiv nativeMaxY else tp.y
            let rotatedY := if nativeMaxX > 0
              then ((nativeMaxX - tp.x) * env.g_screenHeightPx).tdiv nativeMaxX
              else (nativeMaxX - tp.x)
            let adjustedX := rotatedX - env.g_screenLeftOffsetPx
            let adjustedY := rotatedY - env.g_screenTopOffsetPx
            ({ tp with uiTapHandled := true },
              if tp.longPressStartSent then
                [Emit.pressEnd s.currentSlot.toNat tp.downRegionIdentifier adjustedX adjustedY]
              else [])
          else (tp, [])
        let tp2 : TouchPoint :=
          { r.1 with
              id := -1
              isDown := false
              maybeUiTap := false
              uiTapHandled := false
              downRegionIdentifier := ""
              isCheckingForLongPressStart := false
              longPressStartSent := false }
        ({ s with
            localTouches := s.localTouches.set s.currentSlot.toNat tp2
            touchDataUpdated := true }, r.2)
      else
        let tp2 : TouchPoint :=
          { tp with
              id := ev.value
              isDown := true
              uiTapHandled := false
              isCheckingForLongPressStart := false
              longPressStartSent := false
              downTimestampMs := env.nowMs
              downRegionIdentifier := "" }
        ({ s with
            localTouches := s.localTouches.set s.currentSlot.toNat tp2
            touchDataUpdated := true }, [])
    else if ev.code = ABS_MT_POSITION_X then
      let tp := s.localTouches.getD s.currentSlot.toNat {}
      ({ s with
          localTouches := s.localTouches.set s.currentSlot.toNat { tp with x := ev.value }
          touchDataUpdated := true }, [])
    else if ev.code = ABS_MT_POSITION_Y then
      let tp := s.localTouches.getD s.currentSlot.toNat {}
      ({ s with
          localTouches := s.localTouches.set s.currentSlot.toNat { tp with y := ev.value }
          touchDataUpdated := true }, [])
    else (s, [])
  else if ev.type = EV_SYN ∧ ev.code = SYN_REPORT then
    if s.touchDataUpdated then
      let currentTimestampMs := ev.tv_sec * 1000 + ev.tv_usec.tdiv 1000
      let currentTimestampMs :=
        if currentTimestampMs = 0 then env.nowMs else currentTimestampMs
      let r := reportLoopLeftover nativeMaxX nativeMaxY env 0 s.localTouches "T" 0
      let out :=
        if r.2.2.2 > 0 then
          r.2.1 ++ [Emit.raw (r.2.2.1 ++ (";" ++ toString currentTimestampMs))]
        else r.2.1
      ({ s with localTouches := r.1, touchDataUpdated := false }, out)
    else (s, [])
  else (s, [])

/-! ## The long-press start check (lines 448-464) -/

/-- Body of the loop of lines 451-464 for slot `i`. -/
def longPressSlot (checkTimeMs : Int) (i : Nat) (tp : TouchPoint) : TouchPoint × List Emit :=
  if tp.isDown && tp.maybeUiTap && tp.isCheckingForLongPressStart
      && !tp.longPressStartSent then
    let duration := checkTimeMs - tp.downTimestampMs
    if duration ≥ LONG_PRESS_START_DELAY_MS then
      ({ tp with longPressStartSent := true, isCheckingForLongPressStart := false },
        [Emit.pressStart i tp.downRegionIdentifier tp.downX tp.downY tp.downTimestampMs])
    else (tp, [])
  else (tp, [])

/-- The loop `for (int i = 0; i < MAX_SLOTS; ++i)` of lines 451-464, from
index `i` on, over the remaining slots. -/
def longPressLoop (checkTimeMs : Int) : Nat → List TouchPoint → List TouchPoint × List Emit
  | _, [] => ([], [])
  | i, tp :: rest =>
    let r := longPressSlot checkTimeMs i tp
    let q := longPressLoop checkTimeMs (i + 1) rest
    (r.1 :: q.1, r.2 ++ q.2)

/-- The check of lines 448-464 on the whole state. -/
def longPressCheck (checkTimeMs : Int) (s : LoopState) : LoopState × List Emit :=
  let r := longPressLoop checkTimeMs 0 s.localTouches
  ({ s with localTouches := r.1 }, r.2)

/-! ## One pass of the `while` loop (lines 138-474) -/

/-- Modelled from the spec: the error class "interrupted" (`EINTR` of the
system header `errno.h`). -/
def EINTR : Int := 4

/-- Modelled from the spec: the error class "would block" (`EAGAIN` of the
system header `errno.h`). -/
def EAGAIN : Int := 11

/-- Modelled from the spec: `EWOULDBLOCK` of `errno.h`, the same value as
`EAGAIN` on Linux. -/
def EWOULDBLOCK : Int := 11

/-- Modelled from the spec: readiness bit "readable" of `sys/poll.h`. -/
def POLLIN : Nat := 1

/-- Modelled from the spec: readiness bit "error" of `sys/poll.h`. -/
def POLLERR : Nat := 8

/-- Modelled from the spec: readiness bit "hang up" of `sys/poll.h`. -/
def POLLHUP : Nat := 16

/-- Modelled from the spec: readiness bit "invalid descriptor" of `sys/poll.h`. -/
def POLLNVAL : Nat := 32

/-- What depends on the target ABI: `sizeof(struct input_event)`
(`EVENT_SIZE`, line 41), the reading of a record from its bytes (the
`memcpy` into a `struct input_event`) and the modulus of `size_t`. -/
structure Platform where
  EVENT_SIZE : Nat
  decode : List Nat → InputEvent
  sizeModulus : Nat

/-- What the operating system and the other threads answer during one pass:
the result of `poll` with `errno` and `revents`, the result of `read`
(`Except.error errno` for a negative return, else the bytes stored in
`readBuffer`, whose number is `bytesRead`), the `Env` seen by the `k`-th
record handled in the pass, and the clock reading of line 449. -/
structure PassInput where
  pollRet : Int
  pollErrno : Int := 0
  revents : Nat := 0
  read : Except Int (List Nat) := Except.ok []
  env : Nat → Env := fun _ => {}
  checkTimeMs : Int := 0

/-- How a pass ends: `again` is a `continue` before the read was processed,
`stop` is a `break`, `completed` is the end of the loop body. -/
inductive PassEnd where
  | again
  | stop
  | completed
deriving DecidableEq, Repr

/-- Completion of the record kept in `leftoverBuf` (lines 182-311): the new
state, the calls made, `bufferOffset`, and the number of records handled. -/
def completeLeftover (P : Platform) (nativeMaxX nativeMaxY : Int) (env : Nat → Env)
    (readBuffer : List Nat) (s : LoopState) : LoopState × List Emit × Nat × Nat :=
  if s.leftoverBuf.length > 0 then
    let copyLen := min readBuffer.length
      ((P.EVENT_SIZE + P.sizeModulus - s.leftoverBuf.length) % P.sizeModulus)
    let leftoverBuf := s.leftoverBuf ++ readBuffer.take copyLen
    if leftoverBuf.length = P.EVENT_SIZE then
      let ev := P.decode leftoverBuf
      let r := handleLeftoverEvent nativeMaxX nativeMaxY (env 0)
        { s with leftoverBuf := [] } ev
      (r.1, r.2, copyLen, 1)
    else ({ s with leftoverBuf := leftoverBuf }, [], copyLen, 0)
  else (s, [], 0, 0)

/-- The loop `while (bufferOffset + EVENT_SIZE <= bytesRead)` of lines
314-437, with at most `fuel` iterations; `k` numbers the records of the
pass.  Returns the new state, the calls made and the final `bufferOffset`. -/
def parseLoop (P : Platform) (nativeMaxX nativeMaxY : Int) (env : Nat → Env)
    (readBuffer : List Nat) : Nat → Nat → Nat → LoopState → LoopState × List Emit × Nat
  | 0, bufferOffset, _, s => (s, [], bufferOffset)
  | fuel + 1, bufferOffset, k, s =>
    if bufferOffset + P.EVENT_SIZE ≤ readBuffer.length then
      let ev := P.decode ((readBuffer.drop bufferOffset).take P.EVENT_SIZE)
      let r := handleEvent nativeMaxX nativeMaxY (env k) s ev
      let q := parseLoop P nativeMaxX nativeMaxY env readBuffer fuel
        (bufferOffset + P.EVENT_SIZE) (k + 1) r.1
      (q.1, r.2 ++ q.2.1, q.2.2)
    else (s, [], bufferOffset)

/-- Lines 178-464 for a read of `readBuffer.length > 0` bytes: leftover
completion, parse loop, saving of the trailing bytes, long-press check.  The
parse loop makes at most `readBuffer.length` iterations when
`EVENT_SIZE > 0`, which is the fuel given. -/
def processRead (P : Platform) (nativeMaxX nativeMaxY : Int) (env : Nat → Env)
    (readBuffer : List Nat) (checkTimeMs : Int) (s : LoopState) : LoopState × List Emit :=
  let a := completeLeftover P nativeMaxX nativeMaxY env readBuffer s
  let b := parseLoop P nativeMaxX nativeMaxY env readBuffer readBuffer.length
    a.2.2.1 a.2.2.2 a.1
  let remainingBytes := readBuffer.length - b.2.2
  let s2 : LoopState :=
    if remainingBytes > 0 then
      { b.1 with leftoverBuf := (readBuffer.drop b.2.2).take remainingBytes }
    else { b.1 with leftoverBuf := [] }
  let c := longPressCheck checkTimeMs s2
  (c.1, a.2.1 ++ b.2.1 ++ c.2)

/-- One pass of the body of `while (g_isRunning...)` (lines 139-474). -/
def loopPass (P : Platform) (nativeMaxX nativeMaxY : Int) (inp : PassInput) (s : LoopState) :
    LoopState × List Emit × PassEnd :=
  if inp.pollRet < 0 then
    if inp.pollErrno = EINTR then (s, [], PassEnd.again)
    else (s, [], PassEnd.stop)
  else if inp.pollRet = 0 then (s, [], PassEnd.again)
  else if inp.revents &&& (POLLERR ||| POLLHUP ||| POLLNVAL) ≠ 0 then (s, [], PassEnd.stop)
  else if inp.revents &&& POLLIN = 0 then (s, [], PassEnd.again)
  else
    match inp.read with
    | Except.error errno =>
      if errno = EAGAIN ∨ errno = EWOULDBLOCK then (s, [], PassEnd.again)
      else (s, [], PassEnd.stop)
    | Except.ok readBuffer =>
      if readBuffer.length = 0 then (s, [], PassEnd.stop)
      else
        let r := processRead P nativeMaxX nativeMaxY inp.env readBuffer inp.checkTimeMs s
        (r.1, r.2, PassEnd.completed)

/-- The loop `while (g_isRunning.load(...))` of lines 138-474 over the
answers of the successive passes, each with the value of `g_isRunning` read
at its head: the final state and all calls, in order. -/
def runLoop (P : Platform) (nativeMaxX nativeMaxY : Int) :
    List (Bool × PassInput) → LoopState → LoopState × List Emit
  | [], s => (s, [])
  | (g_isRunning, inp) :: rest, s =>
    if g_isRunning then
      let r := loopPass P nativeMaxX nativeMaxY inp s
      match r.2.2 with
      | PassEnd.stop => (r.1, r.2.1)
      | _ =>
        let q := runLoop P nativeMaxX nativeMaxY rest r.1
        (q.1, r.2.1 ++ q.2)
    else (s, [])

/-! ## Runs of the loop as sequences of actions -/

/-- What the loop does to the slots, one at a time: it handles a record (in
the main parse loop, or completed from `leftoverBuf`) under the `Env`
current at that moment, or it runs the long-press check at a clock reading. -/
inductive Action where
  | record (viaLeftover : Bool) (env : Env) (ev : InputEvent)
  | check (checkTimeMs : Int)
deriving DecidableEq, Repr

/-- Effect of one action on the state, with the calls it makes. -/
def stepAction (nativeMaxX nativeMaxY : Int) (s : LoopState) : Action → LoopState × List Emit
  | Action.record false env ev => handleEvent nativeMaxX nativeMaxY env s ev
  | Action.record true env ev => handleLeftoverEvent nativeMaxX nativeMaxY env s ev
  | Action.check checkTimeMs => longPressCheck checkTimeMs s

/-- One entry of the log of a run: the action, the slot index that was
current when it was handled, and the calls it made. -/
structure Step where
  slot : Nat
  action : Action
  emits : List Emit
deriving DecidableEq, Repr

/-- State after a sequence of actions. -/
def exec (nativeMaxX nativeMaxY : Int) : LoopState → List Action → LoopState
  | s, [] => s
  | s, a :: rest => exec nativeMaxX nativeMaxY (stepAction nativeMaxX nativeMaxY s a).1 rest

/-- Log of a sequence of actions run from state `s`. -/
def runSteps (nativeMaxX nativeMaxY : Int) : LoopState → List Action → List Step
  | _, [] => []
  | s, a :: rest =>
    { slot := s.currentSlot.toNat, action := a,
      emits := (stepAction nativeMaxX nativeMaxY s a).2 } ::
      runSteps nativeMaxX nativeMaxY (stepAction nativeMaxX nativeMaxY s a).1 rest

/-- All calls of a log, in order. -/
def emitsOf (steps : List Step) : List Emit :=
  steps.flatMap (fun st => st.emits)

/-- The step is a tracking-id record handled while slot `k` was current. -/
def Step.isTrackingOn (k : Nat) (st : Step) : Bool :=
  match st.action with
  | Action.record _ _ ev =>
    decide (ev.type = EV_ABS) && decide (ev.code = ABS_MT_TRACKING_ID) && decide (st.slot = k)
  | Action.check _ => false

/-- The step is a tracking-id record with a value other than -1 handled
while slot `k` was current: the start of a lifecycle of slot `k`. -/
def Step.isDownOn (k : Nat) (st : Step) : Bool :=
  match st.action with
  | Action.record _ _ ev =>
    decide (ev.type = EV_ABS) && decide (ev.code = ABS_MT_TRACKING_ID) && decide (st.slot = k)
      && decide (ev.value ≠ -1)
  | Action.check _ => false

/-- The step is a tracking-id record with value -1 handled while slot `k`
was current: the end of a lifecycle of slot `k`. -/
def Step.isReleaseOn (k : Nat) (st : Step) : Bool :=
  match st.action with
  | Action.record _ _ ev =>
    decide (ev.type = EV_ABS) && decide (ev.code = ABS_MT_TRACKING_ID) && decide (st.slot = k)
      && decide (ev.value = -1)
  | Action.check _ => false

/-- The call is a `tapDown` of slot `k`. -/
def Emit.isTapDownOf (k : Nat) : Emit → Bool
  | Emit.tapDown slot _ _ _ => decide (slot = k)
  | _ => false

/-- The call is a `pressStart` of slot `k`. -/
def Emit.isPressStartOf (k : Nat) : Emit → Bool
  | Emit.pressStart slot _ _ _ _ => decide (slot = k)
  | _ => false

/-- The call is a `pressEnd` of slot `k`. -/
def Emit.isPressEndOf (k : Nat) : Emit → Bool
  | Emit.pressEnd slot _ _ _ => decide (slot = k)
  | _ => false

/-- The slot index a UI call is attributed to; `none` for a raw packet. -/
def Emit.slot? : Emit → Option Nat
  | Emit.tapDown slot _ _ _ => some slot
  | Emit.pressStart slot _ _ _ _ => some slot
  | Emit.pressEnd slot _ _ _ => some slot
  | Emit.raw _ => none

/-- The call is a UI call of slot `k`. -/
def Emit.ofSlot (k : Nat) (e : Emit) : Bool := decide (e.slot? = some k)

/-- A loop over the slots from index `i` on that applies `f` to every slot
and collects the calls, as both slot loops of the source do. -/
def slotLoop (f : Nat → TouchPoint → TouchPoint × List Emit) :
    Nat → List TouchPoint → List TouchPoint × List Emit
  | _, [] => ([], [])
  | i, tp :: rest =>
    ((f i tp).1 :: (slotLoop f (i + 1) rest).1, (f i tp).2 ++ (slotLoop f (i + 1) rest).2)

/-- Effect of one action on the slot of index `k` alone, when `cur` is the
current slot index and `upd` the value of `touchDataUpdated`: the new slot
and the UI calls made for slot `k`.  It is the view of `stepAction` from one
slot (`stepAction_slot`). -/
def slotStep (nativeMaxX nativeMaxY : Int) (k cur : Nat) (upd : Bool) (a : Action)
    (tp : TouchPoint) : TouchPoint × List Emit :=
  match a with
  | Action.check checkTimeMs => longPressSlot checkTimeMs k tp
  | Action.record _ env ev =>
    if ev.type = EV_ABS then
      if ev.code = ABS_MT_SLOT then (tp, [])
      else if ev.code = ABS_MT_TRACKING_ID then
        if cur = k then
          if ev.value = -1 then
            ({ tp with
                id := -1
                isDown := false
                maybeUiTap := false
                uiTapHandled := false
                downRegionIdentifier := ""
                isCheckingForLongPressStart := false
                longPressStartSent := false },
              if tp.isDown && tp.maybeUiTap && tp.longPressStartSent then
                [Emit.pressEnd k tp.downRegionIdentifier
                  ((if nativeMaxY > 0 then (tp.y * env.g_screenWidthPx).tdiv nativeMaxY
                    else tp.y) - env.g_screenLeftOffsetPx)
                  ((if nativeMaxX > 0
                    then ((nativeMaxX - tp.x) * env.g_screenHeightPx).tdiv nativeMaxX
                    else (nativeMaxX - tp.x)) - env.g_screenTopOffsetPx)]
              else [])
          else
            ({ tp with
                id := ev.value
                isDown := true
                uiTapHandled := false
                isCheckingForLongPressStart := false
                longPressStartSent := false
                downTimestampMs := env.nowMs
                downRegionIdentifier := "" }, [])
        else (tp, [])
      else if ev.code = ABS_MT_POSITION_X then
        if cur = k then ({ tp with x := ev.value }, []) else (tp, [])
      else if ev.code = ABS_MT_POSITION_Y then
        if cur = k then ({ tp with y := ev.value }, []) else (tp, [])
      else (tp, [])
    else if ev.type = EV_SYN ∧ ev.code = SYN_REPORT then
      if upd then
        ((reportSlot nativeMaxX nativeMaxY env k tp "" 0).1,
          (reportSlot nativeMaxX nativeMaxY env k tp "" 0).2.1)
      else (tp, [])
    else (tp, [])

/-- What a step that is not a tracking-id record on slot `k` may do to that
slot, from `tp` to `r.1` with the calls `r.2`: it keeps `isDown` and
`downTimestampMs`, and either makes no call and keeps the latch flags, or
matches a region (one `tapDown`), or fires the long-press check (one
`pressStart`, at least 150 ms after `downTimestampMs`). -/
def SlotOther (k : Nat) (a : Action) (tp : TouchPoint) (r : TouchPoint × List Emit) : Prop :=
  r.1.isDown = tp.isDown ∧
  r.1.downTimestampMs = tp.downTimestampMs ∧
  ((r.2 = [] ∧ r.1.maybeUiTap = tp.maybeUiTap ∧
      r.1.longPressStartSent = tp.longPressStartSent) ∨
    (∃ (ident : String) (x y : Int), r.2 = [Emit.tapDown k ident x y] ∧
      tp.maybeUiTap = false ∧ r.1.maybeUiTap = true ∧ r.1.longPressStartSent = false) ∨
    (∃ t : Int, a = Action.check t ∧
      r.2 = [Emit.pressStart k tp.downRegionIdentifier tp.downX tp.downY
        tp.downTimestampMs] ∧
      tp.isDown = true ∧ tp.maybeUiTap = true ∧ tp.longPressStartSent = false ∧
      r.1.maybeUiTap = true ∧ r.1.longPressStartSent = true ∧
      t - tp.downTimestampMs ≥ LONG_PRESS_START_DELAY_MS))

/-- One when slot `k` is a tap candidate (`maybeUiTap`), else zero. -/
def tapLatch (k : Nat) (s : LoopState) : Nat :=
  match s.localTouches[k]? with
  | some tp => if tp.maybeUiTap then 1 else 0
  | none => 0

/-- One when slot `k` is a tap candidate whose long press was reported
(`maybeUiTap` and `longPressStartSent`), else zero. -/
def pressLatch (k : Nat) (s : LoopState) : Nat :=
  match s.localTouches[k]? with
  | some tp => if tp.maybeUiTap && tp.longPressStartSent then 1 else 0
  | none => 0

/-- What the log `hist` of a run tells about the slot `tp` of index `k`
reached by it: when the slot is down, the log ends with a lifecycle of the
slot, started by a tracking-id record `d` whose clock reading is the
`downTimestampMs` of the slot and continued by steps `seg` that are no
tracking-id record on the slot; and when `longPressStartSent` is set, a
`pressStart` of the slot was sent in `seg`. -/
def SlotHistory (k : Nat) (hist : List Step) (tp : TouchPoint) : Prop :=
  tp.isDown = true →
    ∃ (pre : List Step) (d : Step) (seg : List Step) (b : Bool) (env : Env) (ev : InputEvent),
      hist = pre ++ d :: seg ∧ d.action = Action.record b env ev ∧ d.isDownOn k = true ∧
      (∀ st ∈ seg, st.isTrackingOn k = false) ∧ env.nowMs = tp.downTimestampMs ∧
      (tp.longPressStartSent = true → ∃ e ∈ emitsOf seg, e.isPressStartOf k = true)

/-! ## The region update (`input_reader.cpp`, lines 121-173) -/

/-- Modelled from the spec: a decoded JSON value of the library
`nlohmann::json` (the "JSON decoding ... library call" of the specification,
not part of the repository).  Numbers are the integer numbers; an object is
the list of its keys with their values, each key once. -/
inductive Json where
  | null
  | bool (b : Bool)
  | num (n : Int)
  | str (s : String)
  | arr (items : List Json)
  | obj (fields : List (String × Json))

/-- The two exception classes of the library that the function catches:
`parse_error` (line 166) and, through `std::exception` (line 169),
`type_error`. -/
inductive JsonError where
  | parse_error
  | type_error
deriving DecidableEq, Repr

/-- Conversion of a stored integer to C++ `int` (`static_cast<int>`). -/
def toInt32 (n : Int) : Int :=
  (n + 2147483648) % 4294967296 - 2147483648

/-- Modelled from the spec: `item.value(key, default)` of the library for a
string default: the value under `key` when the key is present (a
`type_error` if that value is no string), the default when it is absent, and
a `type_error` when `item` is no object. -/
def Json.valueString (item : Json) (key : String) (dflt : String) : Except JsonError String :=
  match item with
  | Json.obj fields =>
    match fields.lookup key with
    | none => Except.ok dflt
    | some (Json.str s) => Except.ok s
    | some _ => Except.error JsonError.type_error
  | _ => Except.error JsonError.type_error

/-- Modelled from the spec: `item.value(key, default)` of the library for an
`int` default: the value under `key` converted to `int` when the key is
present (a number, or a boolean read as 0 or 1; a `type_error` otherwise),
the default when it is absent, and a `type_error` when `item` is no object. -/
def Json.valueInt (item : Json) (key : String) (dflt : Int) : Except JsonError Int :=
  match item with
  | Json.obj fields =>
    match fields.lookup key with
    | none => Except.ok dflt
    | some (Json.num n) => Except.ok (toInt32 n)
    | some (Json.bool b) => Except.ok (if b then 1 else 0)
    | some _ => Except.error JsonError.type_error
  | _ => Except.error JsonError.type_error

/-- The loop `for (auto &item : parsed)` of lines 147-159 over the remaining
items, `tmpRegions` being the vector built so far; an exception of the
library ends it. -/
def regionsLoop : List Json → List ClickableRegion → Except JsonError (List ClickableRegion)
  | [], tmpRegions => Except.ok tmpRegions
  | item :: rest, tmpRegions =>
    match item with
    | Json.obj _ =>
      match item.valueString "identifier" "" with
      | Except.error e => Except.error e
      | Except.ok identifier =>
      match item.valueInt "leftPx" 0 with
      | Except.error e => Except.error e
      | Except.ok left =>
      match item.valueInt "topPx" 0 with
      | Except.error e => Except.error e
      | Except.ok top =>
      match item.valueInt "widthPx" 0 with
      | Except.error e => Except.error e
      | Except.ok width =>
      match item.valueInt "heightPx" 0 with
      | Except.error e => Except.error e
      | Except.ok height =>
        let r : ClickableRegion :=
          { identifier := identifier, left := left, top := top, width := width,
            height := height }
        if r.identifier ≠ "" ∧ r.width > 0 ∧ r.height > 0 then
          regionsLoop rest (tmpRegions ++ [r])
        else regionsLoop rest tmpRegions
    | _ => regionsLoop rest tmpRegions

/-- The function
`Java_com_luoxiaohei_lowlatencyinput_service_GyroscopeService_nativeUpdateClickableRegions`
(lines 121-173) as the new value of `g_clickableRegions`.  `parse` is
`nlohmann::json::parse`; `jsonData` is `none` when `GetStringUTFChars`
returns null. -/
def nativeUpdateClickableRegions (parse : String → Except JsonError Json)
    (jsonData : Option String) (g_clickableRegions : List ClickableRegion) :
    List ClickableRegion :=
  match jsonData with
  | none => g_clickableRegions
  | some jsonStr =>
    match parse jsonStr with
    | Except.error _ => g_clickableRegions
    | Except.ok parsed =>
      match parsed with
      | Json.arr items =>
        match regionsLoop items [] with
        | Except.ok tmpRegions => tmpRegions
        | Except.error _ => g_clickableRegions
      | _ => g_clickableRegions

/-- The string field `key` of an entry, the empty string when absent. -/
def entryString (fields : List (String × Json)) (key : String) : String :=
  match fields.lookup key with
  | some (Json.str s) => s
  | _ => ""

/-- The integer field `key` of an entry, 0 when absent. -/
def entryInt (fields : List (String × Json)) (key : String) : Int :=
  match fields.lookup key with
  | some (Json.num n) => n
  | _ => 0

/-- The region an entry of an update stands for, as the specification words
it: an object entry with a non-empty identifier and `widthPx > 0` and
`heightPx > 0` gives the region of its five fields (absent fields being the
empty string and 0); any other entry gives none. -/
def entryRegion : Json → Option ClickableRegion
  | Json.obj fields =>
    if entryString fields "identifier" ≠ "" ∧ entryInt fields "widthPx" > 0 ∧
        entryInt fields "heightPx" > 0 then
      some { identifier := entryString fields "identifier", left := entryInt fields "leftPx",
             top := entryInt fields "topPx", width := entryInt fields "widthPx",
             height := entryInt fields "heightPx" }
    else none
  | _ => none

/-- An integer field that is absent or holds an integer in the range of `int`. -/
def intFieldTyped (fields : List (String × Json)) (key : String) : Prop :=
  ∀ v, fields.lookup key = some v →
    ∃ n : Int, v = Json.num n ∧ -2147483648 ≤ n ∧ n < 2147483648

/-- A well-typed entry of an update: when it is an object, its `identifier`
is absent or a string and its four pixel fields are absent or integers in
the range of `int`. -/
def wellTypedEntry : Json → Prop
  | Json.obj fields =>
    (∀ v, fields.lookup "identifier" = some v → ∃ s, v = Json.str s) ∧
    intFieldTyped fields "leftPx" ∧ intFieldTyped fields "topPx" ∧
    intFieldTyped fields "widthPx" ∧ intFieldTyped fields "heightPx"
  | _ => True

/-- Entries of the sample update: a valid entry, an entry of width 0, an
entry that is no object, an entry without identifier, a second valid entry. -/
def demoItems : List Json :=
  [ Json.obj [("identifier", Json.str "btn1"), ("leftPx", Json.num 100),
      ("topPx", Json.num 200), ("widthPx", Json.num 50), ("heightPx", Json.num 50)],
    Json.obj [("identifier", Json.str "flat"), ("widthPx", Json.num 0),
      ("heightPx", Json.num 10)],
    Json.str "noise",
    Json.obj [("widthPx", Json.num 5), ("heightPx", Json.num 5)],
    Json.obj [("identifier", Json.str "btn2"), ("widthPx", Json.num 7),
      ("heightPx", Json.num 9)] ]

/-! ## The mapping and the hit test as the specification words them -/

/-- `CoordinateMapper` of the specification: `screenX = y * screenWidth / maxY`,
`screenY = (maxX - x) * screenHeight / maxX`, then the left and top offsets
are subtracted; the product is formed first and the division truncates
toward zero. -/
def coordinateMapper (x y maxX maxY width height topOffset leftOffset : Int) : Int × Int :=
  ((y * width).tdiv maxY - leftOffset, ((maxX - x) * height).tdiv maxX - topOffset)

/-- The screen point of a slot under the calibration and the globals `env`,
by `coordinateMapper`. -/
def screenPoint (nativeMaxX nativeMaxY : Int) (env : Env) (tp : TouchPoint) : Int × Int :=
  coordinateMapper tp.x tp.y nativeMaxX nativeMaxY env.g_screenWidthPx env.g_screenHeightPx
    env.g_screenTopOffsetPx env.g_screenLeftOffsetPx

/-- Region containment of the specification, with half-open intervals:
`left ≤ px < left + width` and `top ≤ py < top + height`. -/
def ClickableRegion.contains (r : ClickableRegion) (px py : Int) : Prop :=
  r.left ≤ px ∧ px < r.left + r.width ∧ r.top ≤ py ∧ py < r.top + r.height

instance (r : ClickableRegion) (px py : Int) : Decidable (r.contains px py) := by
  unfold ClickableRegion.contains
  infer_instance

/-- Division of C++ on `int`, undefined for a zero divisor: `none` then. -/
def cDiv (a b : Int) : Option Int :=
  if b = 0 then none else some (a.tdiv b)

/-- The mapping of lines 391-397 (the same at lines 332-338, 205-211 and
264-270) with the divisions it evaluates made explicit: `none` if one of them
has a zero divisor. -/
def adjustedChecked (nativeMaxX nativeMaxY : Int) (env : Env) (tp : TouchPoint) :
    Option (Int × Int) :=
  (if nativeMaxY > 0 then cDiv (tp.y * env.g_screenWidthPx) nativeMaxY else some tp.y).bind
    fun rotatedX =>
  (if nativeMaxX > 0 then cDiv ((nativeMaxX - tp.x) * env.g_screenHeightPx) nativeMaxX
    else some (nativeMaxX - tp.x)).bind
    fun rotatedY =>
  some (rotatedX - env.g_screenLeftOffsetPx, rotatedY - env.g_screenTopOffsetPx)

/-- The part of the state the record handlers and the long-press check read
and write: everything but `leftoverBuf`. -/
def LoopState.slots (s : LoopState) : List TouchPoint × Int × Bool :=
  (s.localTouches, s.currentSlot, s.touchDataUpdated)

/-! ## A sample run -/

/-- Region of the sample run. -/
def demoRegion : ClickableRegion :=
  { identifier := "btn1", left := 100, top := 200, width := 50, height := 50 }

/-- Globals of the sample run at clock reading `t`: a 1000 x 1000 screen
without offsets and the single region `demoRegion`. -/
def demoEnv (t : Int) : Env :=
  { g_screenWidthPx := 1000, g_screenHeightPx := 1000, g_clickableRegions := [demoRegion],
    nowMs := t }

/-- A record of the main parse loop handled at clock reading `t`. -/
def demoRecord (t : Int) (type code : Nat) (value : Int) : Action :=
  Action.record false (demoEnv t) { tv_sec := 5, type := type, code := code, value := value }

/-- Sample run with calibration maxima 1000: a touch with tracking id 7 begins
on slot 0 at raw (790, 110), screen (110, 210), inside `demoRegion`; it is
held over checks at 10, 160 and 170 ms and released at 170 ms. -/
def demoActs : List Action :=
  [ demoRecord 0 EV_ABS ABS_MT_TRACKING_ID 7,
    demoRecord 0 EV_ABS ABS_MT_POSITION_X 790,
    demoRecord 0 EV_ABS ABS_MT_POSITION_Y 110,
    demoRecord 0 EV_SYN SYN_REPORT 0,
    Action.check 10,
    Action.check 160,
    Action.check 170,
    demoRecord 170 EV_ABS ABS_MT_TRACKING_ID (-1),
    demoRecord 170 EV_SYN SYN_REPORT 0 ]

/-- Log of the sample run. -/
def demoSteps : List Step := runSteps 1000 1000 LoopState.init demoActs

/-- First step of the sample run: the start of the lifecycle of slot 0. -/
def demoDown : Step :=
  { slot := 0, action := demoRecord 0 EV_ABS ABS_MT_TRACKING_ID 7, emits := [] }

/-- Steps of the sample run after the first and before the release. -/
def demoSeg : List Step := (demoSteps.drop 1).take 6

/-- Step of the sample run that releases slot 0. -/
def demoRelease : Step :=
  { slot := 0, action := demoRecord 170 EV_ABS ABS_MT_TRACKING_ID (-1),
    emits := [Emit.pressEnd 0 "btn1" 110 210] }

/-- Step of the sample run that reports the long press: the check at 160 ms. -/
def demoFire : Step :=
  { slot := 0, action := Action.check 160, emits := [Emit.pressStart 0 "btn1" 110 210 0] }

/-- State of the sample run after the first five steps: slot 0 is down
since clock reading 0, matched `demoRegion`, and waits for its long press. -/
def demoHeld : LoopState := exec 1000 1000 LoopState.init (demoActs.take 5)

/-! ## Rejected region updates -/

/-- An object entry with a wrongly typed field: an `identifier` that is
present and no string, or a pixel field that is present and neither a number
nor a boolean. -/
def wronglyTyped (fields : List (String × Json)) : Prop :=
  (∃ v, fields.lookup "identifier" = some v ∧ ∀ s, v ≠ Json.str s) ∨
  (∃ key ∈ ["leftPx", "topPx", "widthPx", "heightPx"], ∃ v, fields.lookup key = some v ∧
    (∀ n, v ≠ Json.num n) ∧ (∀ b, v ≠ Json.bool b))

/-- The payload `jsonStr` is rejected: it fails to decode, or it decodes to a
value that is no array, or it decodes to an array one of whose object entries
has a wrongly typed field, or the reading of its entries raises an error. -/
def PayloadRejected (parse : String → Except JsonError Json) (jsonStr : String) : Prop :=
  (∃ e, parse jsonStr = Except.error e) ∨
  (∃ j, parse jsonStr = Except.ok j ∧ ∀ items, j ≠ Json.arr items) ∨
  (∃ pre fields post, parse jsonStr = Except.ok (Json.arr (pre ++ Json.obj fields :: post)) ∧
    wronglyTyped fields) ∨
  (∃ items e, parse jsonStr = Except.ok (Json.arr items) ∧
    regionsLoop items [] = Except.error e)

/-- Entries of a sample update that is rejected: a valid entry, then an
entry whose `widthPx` is a string. -/
def demoBadItems : List Json :=
  [ Json.obj [("identifier", Json.str "btn1"), ("leftPx", Json.num 100),
      ("topPx", Json.num 200), ("widthPx", Json.num 50), ("heightPx", Json.num 50)],
    Json.obj [("identifier", Json.str "btn3"), ("widthPx", Json.str "wide"),
      ("heightPx", Json.num 9)] ]

/-! ## Bounds of the slot array -/

/-- The current slot index is an index of the array of `MAX_SLOTS` slots. -/
def SlotBounds (s : LoopState) : Prop :=
  0 ≤ s.currentSlot ∧ s.currentSlot < 10 ∧ s.localTouches.length = 10

/-- A slot-select record with value `v`. -/
def slotSelect (v : Int) : InputEvent :=
  { type := EV_ABS, code := ABS_MT_SLOT, value := v }

/-! ## A second contact on a slot that was not released -/

/-- Actions after `demoHeld`: the tracking id of slot 0 changes from 7 to 8
at 300 ms without a release in between, the new contact is reported at the
same place inside `demoRegion`, and a check runs at 500 ms. -/
def demoRedown : List Action :=
  [ demoRecord 300 EV_ABS ABS_MT_TRACKING_ID 8,
    demoRecord 300 EV_ABS ABS_MT_POSITION_X 790,
    demoRecord 300 EV_ABS ABS_MT_POSITION_Y 110,
    demoRecord 300 EV_SYN SYN_REPORT 0,
    Action.check 500 ]

/-! ## Consistency of the flags of a slot -/

/-- Consistency of the flags of one slot: `isDown` holds exactly when the
tracking id is not -1; `uiTapHandled` is false; a free slot has its candidate
and latch flags false and an empty region identifier; a tap candidate is
down; `longPressStartSent` implies `maybeUiTap`; and
`isCheckingForLongPressStart` implies `maybeUiTap` and excludes
`longPressStartSent`. -/
def FlagInv (tp : TouchPoint) : Prop :=
  (tp.isDown = true ↔ tp.id ≠ -1) ∧
  tp.uiTapHandled = false ∧
  (tp.id = -1 → tp.maybeUiTap = false ∧ tp.isCheckingForLongPressStart = false ∧
    tp.longPressStartSent = false ∧ tp.downRegionIdentifier = "") ∧
  (tp.maybeUiTap = true → tp.isDown = true) ∧
  (tp.longPressStartSent = true → tp.maybeUiTap = true) ∧
  (tp.isCheckingForLongPressStart = true →
    tp.maybeUiTap = true ∧ tp.longPressStartSent = false)

/-! ## The mapped point and the raw packet -/

/-- The point `(adjustedX, adjustedY)` of lines 391-397 (and 332-338, 205-211,
264-270) for a slot: each axis is scaled when its calibration maximum is
positive and taken unscaled otherwise, then the offsets are subtracted. -/
def mappedPoint (nativeMaxX nativeMaxY : Int) (env : Env) (tp : TouchPoint) : Int × Int :=
  ((if nativeMaxY > 0 then (tp.y * env.g_screenWidthPx).tdiv nativeMaxY else tp.y)
      - env.g_screenLeftOffsetPx,
   (if nativeMaxX > 0 then ((nativeMaxX - tp.x) * env.g_screenHeightPx).tdiv nativeMaxX
      else (nativeMaxX - tp.x)) - env.g_screenTopOffsetPx)

/-- The group `"|id,x,y"` of a slot in the raw packet as the specification
words it: a slot that is live (tracking id not -1) and not handled gives its
tracking id and mapped point in decimal, any other slot gives nothing. -/
def packetGroup (nativeMaxX nativeMaxY : Int) (env : Env) (tp : TouchPoint) : String :=
  if tp.id ≠ -1 ∧ tp.uiTapHandled = false then
    "|" ++ toString tp.id ++ "," ++ toString (mappedPoint nativeMaxX nativeMaxY env tp).1
      ++ "," ++ toString (mappedPoint nativeMaxX nativeMaxY env tp).2
  else ""

/-- The groups of the slots, in ascending slot order. -/
def packetGroups (nativeMaxX nativeMaxY : Int) (env : Env) : List TouchPoint → String
  | [] => ""
  | tp :: rest =>
    packetGroup nativeMaxX nativeMaxY env tp ++ packetGroups nativeMaxX nativeMaxY env rest

/-- The raw passthrough packet of the specification: `"T"`, the groups, then
`";"` and the time stamp in decimal. -/
def rawPacket (nativeMaxX nativeMaxY : Int) (env : Env) (touches : List TouchPoint)
    (timestampMs : Int) : String :=
  "T" ++ packetGroups nativeMaxX nativeMaxY env touches ++ ";" ++ toString timestampMs

/-- The time stamp of a report boundary (lines 377-382): the time of the
record in milliseconds, or the clock reading when that is 0. -/
def reportTimestampMs (env : Env) (ev : InputEvent) : Int :=
  if ev.tv_sec * 1000 + ev.tv_usec.tdiv 1000 = 0 then env.nowMs
  else ev.tv_sec * 1000 + ev.tv_usec.tdiv 1000

/-- The slot is live and not handled: it has a group in the raw packet. -/
def TouchPoint.inPacket (tp : TouchPoint) : Bool :=
  decide (tp.id ≠ -1) && !tp.uiTapHandled

/-! ## Report boundaries -/

/-- The action handles a report-boundary record (`EV_SYN` / `SYN_REPORT`). -/
def Action.isReport : Action → Bool
  | Action.record _ _ ev => decide (ev.type = EV_SYN) && decide (ev.code = SYN_REPORT)
  | Action.check _ => false

/-- The action handles a tracking-id or position record. -/
def Action.isTouchData : Action → Bool
  | Action.record _ _ ev =>
    decide (ev.type = EV_ABS) &&
      (decide (ev.code = ABS_MT_TRACKING_ID) || decide (ev.code = ABS_MT_POSITION_X)
        || decide (ev.code = ABS_MT_POSITION_Y))
  | Action.check _ => false

/-- In the words of the specification: "a tracking-id or position event was
processed since the previous report boundary", for the run `acts`: some
tracking-id or position record of the run has no report-boundary record
after it. -/
def changedSince : List Action → Bool
  | [] => false
  | a :: rest =>
    if rest.any Action.isReport then changedSince rest
    else (a.isTouchData || changedSince rest)

/-- The call is a raw packet. -/
def Emit.isRaw : Emit → Bool
  | Emit.raw _ => true
  | _ => false

/-- A report-boundary record of the sample run, with device time 5 s. -/
def demoReport : InputEvent := { tv_sec := 5, type := EV_SYN, code := SYN_REPORT, value := 0 }

/-- The groups of all live slots, in ascending slot order: every slot whose
tracking id is not -1 gives `"|id,x,y"`, whatever its other flags. -/
def liveGroups (nativeMaxX nativeMaxY : Int) (env : Env) : List TouchPoint → String
  | [] => ""
  | tp :: rest =>
    (if tp.id ≠ -1 then
      "|" ++ toString tp.id ++ "," ++ toString (mappedPoint nativeMaxX nativeMaxY env tp).1
        ++ "," ++ toString (mappedPoint nativeMaxX nativeMaxY env tp).2
    else "") ++ liveGroups nativeMaxX nativeMaxY env rest

/-- Slot 0 of the sample state `demoHeld`. -/
def demoHeldSlot : TouchPoint :=
  { id := 7, x := 790, y := 110, isDown := true, maybeUiTap := true, downTimestampMs := 0,
    downRegionIdentifier := "btn1", downX := 110, downY := 210,
    isCheckingForLongPressStart := true }

/-! ## Permission repair, device open and session control

`input_reader_permissions.cpp`, lines 51-71 of `input_reader_loop.cpp`, and
`nativeStartInputReaderService` / `nativeStopInputReaderService` of
`input_reader.cpp`. -/

/-- Modelled from the spec: the error class "permission denied" (`EACCES` of
the system header `errno.h`). -/
def EACCES : Int := 13

/-- Modelled from the spec: the error class "operation not permitted"
(`EPERM` of the system header `errno.h`). -/
def EPERM : Int := 1

/-- Modelled from the spec: the macro `WIFEXITED` of the system header
`sys/wait.h` on a wait status: the low seven bits are zero. -/
def WIFEXITED (status : Int) : Bool := decide (status % 128 = 0)

/-- Modelled from the spec: the macro `WEXITSTATUS` of the system header
`sys/wait.h` on a wait status: bits 8 to 15. -/
def WEXITSTATUS (status : Int) : Int := (status / 256) % 256

/-- What the two calls of `system` in `tryFixPermissions` return. -/
structure RepairInput where
  retSetenforce : Int
  retChmod : Int
deriving DecidableEq, Repr

/-- The function `tryFixPermissions` (`input_reader_permissions.cpp`, lines
13-65).  The result `retSetenforce` of `su -c setenforce 0` is only logged,
whatever it is (lines 16-35); the result of `su -c chmod 666 <path>` decides
(lines 36-60). -/
def tryFixPermissions (r : RepairInput) : Bool :=
  if r.retChmod = -1 then false
  else if WIFEXITED r.retChmod then
    if WEXITSTATUS r.retChmod ≠ 0 then false else true
  else false

/-- What the operating system answers when the reading thread opens the
device: the result of the first `open` with its `errno`, the results of the
repair commands, and the result of the second `open`. -/
structure OpenInput where
  fd1 : Int
  errno1 : Int := 0
  repair : RepairInput := { retSetenforce := 0, retChmod := 0 }
  fd2 : Int := -1
deriving DecidableEq, Repr

/-- Lines 51-66 of `inputReaderLoop`: the descriptor `fd` after the open with
permission repair, and the number of calls of `open` made. -/
def openDevice (o : OpenInput) : Int × Nat :=
  if o.fd1 < 0 then
    if o.errno1 = EACCES ∨ o.errno1 = EPERM then
      if tryFixPermissions o.repair then (o.fd2, 2)
      else (o.fd1, 1)
    else (o.fd1, 1)
  else (o.fd1, 1)

/-- What the reading thread is given besides the passes of its loop: the
answers to its opens, whether `AttachCurrentThread` succeeds, and the answers
of the two calibration `ioctl` calls (`none` for a failed call, else the
`maximum` of the axis). -/
structure ThreadInput where
  openInput : OpenInput
  attached : Bool := true
  absinfo_x : Option Int := none
  absinfo_y : Option Int := none

/-- The function `inputReaderLoop` (lines 40-495) from entry to return: the
value of `g_isRunning` it leaves, given the value it finds, and the session
(final loop state and all calls) when one starts.  The function returns
before the loop when `fd < 0` (line 67) or when the thread cannot attach to
the JVM (line 78); the calibration maxima stay 0 when their `ioctl` fails.
The only use of `g_isRunning` in the function is the load at the head of the
loop (line 138), whose successive values are in `passes`: the function stores
nothing to it. -/
def inputReaderLoop (P : Platform) (t : ThreadInput) (passes : List (Bool × PassInput))
    (g_isRunning : Bool) : Bool × Option (LoopState × List Emit) :=
  if (openDevice t.openInput).1 < 0 then (g_isRunning, none)
  else if !t.attached then (g_isRunning, none)
  else
    let nativeMaxX : Int := match t.absinfo_x with
      | some maximum => maximum
      | none => 0
    let nativeMaxY : Int := match t.absinfo_y with
      | some maximum => maximum
      | none => 0
    (g_isRunning, some (runLoop P nativeMaxX nativeMaxY passes LoopState.init))

/-- What the JNI calls of `initializeJniReferences` answer: whether
`FindClass`, `NewGlobalRef` and the three `GetMethodID` return non-null. -/
structure JniInput where
  findClass : Bool := true
  newGlobalRef : Bool := true
  sendUiEventMethod : Bool := true
  sendUiLongPressMethod : Bool := true
  sendUiPressDownMethod : Bool := true
deriving DecidableEq, Repr

/-- The result of `initializeJniReferences` (`input_reader_jni_utils.cpp`,
lines 23-110). -/
def initializeJniReferences (j : JniInput) : Bool :=
  if !j.findClass then false
  else if !j.newGlobalRef then false
  else if !j.sendUiEventMethod then false
  else if !j.sendUiLongPressMethod then false
  else if !j.sendUiPressDownMethod then false
  else true

/-- What `nativeStartInputReaderService` is answered: the JNI calls, the
result of `access(path, R_OK)` with its `errno`, the repair commands, and
whether the constructor of `std::thread` returns (it throws
`std::system_error` otherwise). -/
structure StartInput where
  jni : JniInput := {}
  accessRet : Int := 0
  accessErrno : Int := 0
  repair : RepairInput := { retSetenforce := 0, retChmod := 0 }
  threadCreated : Bool := true
deriving DecidableEq, Repr

/-- How `nativeStartInputReaderService` ends: it returns at "already
running" (line 61), it returns after having created and detached the reading
thread, or it throws (the `catch` of lines 89-94 rethrows). -/
inductive StartResult where
  | alreadyRunning
  | spawned
  | threw
deriving DecidableEq, Repr

/-- The function `nativeStartInputReaderService` (`input_reader.cpp`, lines
46-96): the new value of `g_isRunning` and how the call ends.  Every `throw`
inside the `try` reaches the `catch`, which stores `false`. -/
def nativeStartInputReaderService (inp : StartInput) (g_isRunning : Bool) :
    Bool × StartResult :=
  let createThread : Bool × StartResult :=
    if inp.threadCreated then (true, StartResult.spawned) else (false, StartResult.threw)
  if !initializeJniReferences inp.jni then (false, StartResult.threw)
  else if g_isRunning then (g_isRunning, StartResult.alreadyRunning)
  else if inp.accessRet ≠ 0 then
    if inp.accessErrno = EACCES ∨ inp.accessErrno = EPERM then
      if !tryFixPermissions inp.repair then (false, StartResult.threw)
      else createThread
    else (false, StartResult.threw)
  else createThread

/-- The function `nativeStopInputReaderService` (`input_reader.cpp`, lines
101-116): the new value of `g_isRunning`. -/
def nativeStopInputReaderService (g_isRunning : Bool) : Bool :=
  if !g_isRunning then g_isRunning
  else false

/-- Answers of a start that finds the device readable and succeeds. -/
def demoStart : StartInput := {}

/-- Answers of a start that finds the device not readable (`EACCES`) and
whose `chmod` command exits with code 1. -/
def demoStartDenied : StartInput :=
  { accessRet := -1, accessErrno := EACCES, repair := { retSetenforce := 0, retChmod := 256 } }

/-- Answers of a start whose `FindClass` returns null. -/
def demoStartNoJni : StartInput := { jni := { findClass := false } }

/-- Answers to the opens of a reading thread: the first `open` fails with
`EACCES`, the `chmod` command exits with code 1, and a second `open` would
return descriptor 5. -/
def demoOpenDenied : OpenInput :=
  { fd1 := -1, errno1 := EACCES, repair := { retSetenforce := 0, retChmod := 256 }, fd2 := 5 }

/-- A pass whose `poll` reports readable data and whose `read` fails with
`errno`. -/
def failedRead (errno : Int) : PassInput :=
  { pollRet := 1, revents := POLLIN, read := Except.error errno }

/-- A pass whose `poll` fails with `errno`. -/
def failedPoll (errno : Int) : PassInput :=
  { pollRet := -1, pollErrno := errno }

/-- A platform with records of 24 bytes (the `struct input_event` of a
64-bit ABI) read in little-endian order: `tv_sec` and `tv_usec` of 8 bytes
(taken as small non-negative numbers here), `type` and `code` of 2 bytes, and
`value` of 4 bytes, signed. -/
def demoPlatform : Platform :=
  { EVENT_SIZE := 24
    decode := fun b =>
      { tv_sec := ((b.getD 0 0 + 256 * b.getD 1 0 : Nat) : Int)
        tv_usec := ((b.getD 8 0 + 256 * b.getD 9 0 + 65536 * b.getD 10 0 : Nat) : Int)
        type := b.getD 16 0 + 256 * b.getD 17 0
        code := b.getD 18 0 + 256 * b.getD 19 0
        value := toInt32 ((b.getD 20 0 + 256 * b.getD 21 0 + 65536 * b.getD 22 0
          + 16777216 * b.getD 23 0 : Nat) : Int) }
    sizeModulus := 2 ^ 64 }

/-! ## The region mutex in the trace of the reading thread -/

/-- What the reading thread does that another thread can observe: it
acquires `g_regionMutex`, it releases it, or it makes a call into the Java
side. -/
inductive TraceEvent where
  | acquire
  | release
  | call (e : Emit)
deriving DecidableEq, Repr

/-- The trace of the handling of one record (lines 319-436; lines 191-309
have the same structure).  The only `std::lock_guard` on `g_regionMutex` of
the handler is the block of lines 386-428 (259-301), entered at a report
boundary handled with `touchDataUpdated` set: it encloses the whole slot
loop, with the region test and the `callSendUiEventPacketJNI` of line 414,
and ends before the raw packet is sent (lines 430-433).  The other branches
take no lock. -/
def handleEventTrace (nativeMaxX nativeMaxY : Int) (env : Env) (s : LoopState)
    (ev : InputEvent) : List TraceEvent :=
  if ev.type = EV_ABS then
    (handleEvent nativeMaxX nativeMaxY env s ev).2.map TraceEvent.call
  else if ev.type = EV_SYN ∧ ev.code = SYN_REPORT then
    if s.touchDataUpdated then
      let currentTimestampMs := ev.tv_sec * 1000 + ev.tv_usec.tdiv 1000
      let currentTimestampMs :=
        if currentTimestampMs = 0 then env.nowMs else currentTimestampMs
      let r := reportLoop nativeMaxX nativeMaxY env 0 s.localTouches "T" 0
      [TraceEvent.acquire] ++ r.2.1.map TraceEvent.call ++ [TraceEvent.release] ++
        (if r.2.2.2 > 0 then
          [TraceEvent.call (Emit.raw (r.2.2.1 ++ (";" ++ toString currentTimestampMs)))]
        else [])
    else []
  else []

/-- The trace of one action: a record handled by either copy of the handler,
or the long-press check (lines 448-464), which takes no lock. -/
def stepTrace (nativeMaxX nativeMaxY : Int) (s : LoopState) : Action → List TraceEvent
  | Action.record _ env ev => handleEventTrace nativeMaxX nativeMaxY env s ev
  | Action.check checkTimeMs => (longPressCheck checkTimeMs s).2.map TraceEvent.call

/-- The trace of a sequence of actions run from state `s`. -/
def traceOf (nativeMaxX nativeMaxY : Int) : LoopState → List Action → List TraceEvent
  | _, [] => []
  | s, a :: rest =>
    stepTrace nativeMaxX nativeMaxY s a ++
      traceOf nativeMaxX nativeMaxY (stepAction nativeMaxX nativeMaxY s a).1 rest

/-- The calls of a trace, the lock events erased. -/
def callsOf : List TraceEvent → List Emit
  | [] => []
  | TraceEvent.call e :: rest => e :: callsOf rest
  | _ :: rest => callsOf rest

/-- The calls of a trace made between an acquire of the mutex and the next
release; `held` tells whether the mutex is held at the start of the trace. -/
def heldCalls : Bool → List TraceEvent → List Emit
  | _, [] => []
  | _, TraceEvent.acquire :: rest => heldCalls true rest
  | _, TraceEvent.release :: rest => heldCalls false rest
  | held, TraceEvent.call e :: rest =>
    if held then e :: heldCalls held rest else heldCalls held rest

/-- Whether the mutex is held at the end of a trace. -/
def heldAfter : Bool → List TraceEvent → Bool
  | held, [] => held
  | _, TraceEvent.acquire :: rest => heldAfter true rest
  | _, TraceEvent.release :: rest => heldAfter false rest
  | held, TraceEvent.call _ :: rest => heldAfter held rest

/-- The call is a `tapDown`. -/
def Emit.isTapDown : Emit → Bool
  | Emit.tapDown _ _ _ _ => true
  | _ => false

/-! ## The records parsed from the reads -/

/-- The byte bookkeeping of the leftover completion alone (lines 182-190 and
310), as in `completeLeftover`: the record completed from `leftoverBuf` if
there is one, the content of `leftoverBuf` after the copy (emptied when the
record is complete), and `bufferOffset`. -/
def leftoverRecord (P : Platform) (leftoverBuf readBuffer : List Nat) :
    Option InputEvent × List Nat × Nat :=
  if leftoverBuf.length > 0 then
    let copyLen := min readBuffer.length
      ((P.EVENT_SIZE + P.sizeModulus - leftoverBuf.length) % P.sizeModulus)
    let leftoverBuf := leftoverBuf ++ readBuffer.take copyLen
    if leftoverBuf.length = P.EVENT_SIZE then (some (P.decode leftoverBuf), [], copyLen)
    else (none, leftoverBuf, copyLen)
  else (none, leftoverBuf, 0)

/-- The records read by the loop `while (bufferOffset + EVENT_SIZE <= bytesRead)`
(lines 314-317), as in `parseLoop`, with at most `fuel` iterations: the
records and the final `bufferOffset`. -/
def parseRecords (P : Platform) (readBuffer : List Nat) : Nat → Nat → List InputEvent × Nat
  | 0, bufferOffset => ([], bufferOffset)
  | fuel + 1, bufferOffset =>
    if bufferOffset + P.EVENT_SIZE ≤ readBuffer.length then
      let ev := P.decode ((readBuffer.drop bufferOffset).take P.EVENT_SIZE)
      let q := parseRecords P readBuffer fuel (bufferOffset + P.EVENT_SIZE)
      (ev :: q.1, q.2)
    else ([], bufferOffset)

/-- The records handled when a read of `readBuffer` is processed with
`leftoverBuf` kept from before (lines 178-446, as in `processRead`): the
records in the order they are handled, and the new `leftoverBuf`. -/
def readRecords (P : Platform) (leftoverBuf readBuffer : List Nat) :
    List InputEvent × List Nat :=
  let a := leftoverRecord P leftoverBuf readBuffer
  let b := parseRecords P readBuffer readBuffer.length a.2.2
  let remainingBytes := readBuffer.length - b.2
  (a.1.toList ++ b.1,
    if remainingBytes > 0 then (readBuffer.drop b.2).take remainingBytes else [])

/-- The records handled over successive reads, from the leftover bytes
`leftoverBuf`, and the leftover bytes at the end. -/
def readsRecords (P : Platform) : List (List Nat) → List Nat → List InputEvent × List Nat
  | [], leftoverBuf => ([], leftoverBuf)
  | readBuffer :: rest, leftoverBuf =>
    ((readRecords P leftoverBuf readBuffer).1
        ++ (readsRecords P rest (readRecords P leftoverBuf readBuffer).2).1,
      (readsRecords P rest (readRecords P leftoverBuf readBuffer).2).2)

/-- The actions "handle the record" for a list of records, the `k`-th record
of a pass being handled under `env k`. -/
def recordActions (env : Nat → Env) : Nat → List InputEvent → List Action
  | _, [] => []
  | k, ev :: rest => Action.record false (env k) ev :: recordActions env (k + 1) rest

/-- A byte stream cut at the multiples of the record size, with at most
`fuel` pieces: the records of the successive pieces of `EVENT_SIZE` bytes. -/
def cutRecords (P : Platform) : Nat → List Nat → List InputEvent
  | 0, _ => []
  | fuel + 1, stream =>
    if P.EVENT_SIZE ≤ stream.length then
      P.decode (stream.take P.EVENT_SIZE) :: cutRecords P fuel (stream.drop P.EVENT_SIZE)
    else []

/-- The bytes of a stream after its last complete piece of `EVENT_SIZE`
bytes, with at most `fuel` pieces. -/
def cutRest (P : Platform) : Nat → List Nat → List Nat
  | 0, stream => stream
  | fuel + 1, stream =>
    if P.EVENT_SIZE ≤ stream.length then cutRest P fuel (stream.drop P.EVENT_SIZE)
    else stream

/-- In the words of the specification: "the sequence obtained by cutting the
stream at multiples of the record size". -/
def cutStream (P : Platform) (stream : List Nat) : List InputEvent :=
  cutRecords P stream.length stream

/-- The incomplete piece at the end of a stream. -/
def restOf (P : Platform) (stream : List Nat) : List Nat :=
  cutRest P stream.length stream

/-- Every read that follows a non-empty leftover supplies enough bytes to
complete the record. -/
def ReadsComplete (P : Platform) : List (List Nat) → List Nat → Prop
  | [], _ => True
  | readBuffer :: rest, leftoverBuf =>
    (leftoverBuf = [] ∨ P.EVENT_SIZE ≤ leftoverBuf.length + readBuffer.length) ∧
      ReadsComplete P rest (readRecords P leftoverBuf readBuffer).2

/-- A pass whose `poll` reports readable data and whose `read` returns the
bytes `readBuffer`. -/
def dataPass (readBuffer : List Nat) : PassInput :=
  { pollRet := 1, revents := POLLIN, read := Except.ok readBuffer }

/-- The 24 bytes of a record of `demoPlatform` with device time 5 s, for a
type, a code and a non-negative value below 65536. -/
def demoRecordBytes (type code value : Nat) : List Nat :=
  [5, 0, 0, 0, 0, 0, 0, 0, 0, 0, 0, 0, 0, 0, 0, 0,
    type % 256, type / 256, code % 256, code / 256, value % 256, value / 256, 0, 0]

/-- A stream of two records: tracking id 7, then a report boundary. -/
def demoStream : List Nat :=
  demoRecordBytes EV_ABS ABS_MT_TRACKING_ID 7 ++ demoRecordBytes EV_SYN SYN_REPORT 0

/-! ## What a slot that waits for its long press remembers -/

/-- What the log `hist` of a run tells about the slot `tp` of index `k`
reached by it, when the slot waits for its long press
(`isCheckingForLongPressStart`): the log ends with a lifecycle of the slot,
started by a tracking-id record `d` whose clock reading is the
`downTimestampMs` of the slot and continued by steps `seg` that are no
tracking-id record on the slot, and in `seg` a `tapDown` of the slot was sent
with the `downRegionIdentifier`, `downX` and `downY` the slot holds. -/
def MatchHistory (k : Nat) (hist : List Step) (tp : TouchPoint) : Prop :=
  tp.isCheckingForLongPressStart = true →
    ∃ (pre : List Step) (d : Step) (seg : List Step) (b : Bool) (env : Env) (ev : InputEvent),
      hist = pre ++ d :: seg ∧ d.action = Action.record b env ev ∧ d.isDownOn k = true ∧
      (∀ st ∈ seg, st.isTrackingOn k = false) ∧ env.nowMs = tp.downTimestampMs ∧
      Emit.tapDown k tp.downRegionIdentifier tp.downX tp.downY ∈ emitsOf seg

/-! ## The two copies of the record handler agree -/

theorem regionLoopLeftover_eq (px py : Int) (regions : List ClickableRegion) :
    regionLoopLeftover px py regions = regionLoop px py regions := by
  induction regions with
  | nil => rfl
  | cons r rest ih => simp only [regionLoopLeftover, regionLoop, ih]

theorem reportSlotLeftover_eq (mx my : Int) (env : Env) (i : Nat) (tp : TouchPoint)
    (d : String) (n : Nat) :
    reportSlotLeftover mx my env i tp d n = reportSlot mx my env i tp d n := by
  simp only [reportSlotLeftover, reportSlot, regionLoopLeftover_eq]

theorem reportLoopLeftover_eq (mx my : Int) (env : Env) (i : Nat) (l : List TouchPoint)
    (d : String) (n : Nat) :
    reportLoopLeftover mx my env i l d n = reportLoop mx my env i l d n := by
  induction l generalizing i d n with
  | nil => rfl
  | cons tp rest ih => simp only [reportLoopLeftover, reportLoop, reportSlotLeftover_eq, ih]

theorem handleLeftoverEvent_eq (mx my : Int) (env : Env) (s : LoopState) (ev : InputEvent) :
    handleLeftoverEvent mx my env s ev = handleEvent mx my env s ev := by
  simp only [handleLeftoverEvent, handleEvent, reportLoopLeftover_eq]

theorem stepAction_record (mx my : Int) (s : LoopState) (b : Bool) (env : Env)
    (ev : InputEvent) :
    stepAction mx my s (Action.record b env ev) = handleEvent mx my env s ev := by
  cases b
  · rfl
  · exact handleLeftoverEvent_eq mx my env s ev

/-! ## The slot loops, seen from one slot -/

theorem slotLoop_getElem? (f : Nat → TouchPoint → TouchPoint × List Emit) (i : Nat)
    (l : List TouchPoint) (k : Nat) :
    (slotLoop f i l).1[k]? = (l[k]?).map (fun tp => (f (i + k) tp).1) := by
  induction l generalizing i k with
  | nil => simp [slotLoop]
  | cons tp rest ih =>
    cases k with
    | zero => simp [slotLoop]
    | succ k =>
      simp only [slotLoop, List.getElem?_cons_succ, ih]
      have : i + 1 + k = i + (k + 1) := by omega
      rw [this]

theorem slotLoop_filter (f : Nat → TouchPoint → TouchPoint × List Emit)
    (hf : ∀ i tp, ∀ e ∈ (f i tp).2, e.slot? = some i) (i : Nat) (l : List TouchPoint)
    (k : Nat) :
    (slotLoop f i l).2.filter (Emit.ofSlot (i + k)) =
      match l[k]? with
      | some tp => (f (i + k) tp).2
      | none => [] := by
  induction l generalizing i k with
  | nil => simp [slotLoop]
  | cons tp rest ih =>
    have hsmall : ∀ j, i < j → (f i tp).2.filter (Emit.ofSlot j) = [] := by
      intro j hj
      rw [List.filter_eq_nil_iff]
      intro e he
      have := hf i tp e he
      simp [Emit.ofSlot, this]
      omega
    have hlarge : ∀ (r : List TouchPoint) (j : Nat),
        (slotLoop f (j + 1) r).2.filter (Emit.ofSlot j) = [] := by
      intro r
      induction r with
      | nil => intro j; simp [slotLoop]
      | cons t r ihr =>
        intro j
        simp only [slotLoop, List.filter_append]
        have h1 : (f (j + 1) t).2.filter (Emit.ofSlot j) = [] := by
          rw [List.filter_eq_nil_iff]
          intro e he
          have := hf (j + 1) t e he
          simp [Emit.ofSlot, this]
        have h2 : (slotLoop f (j + 1 + 1) r).2.filter (Emit.ofSlot j) = [] := by
          rw [List.filter_eq_nil_iff]
          intro e he
          have hsub : ∀ (r : List TouchPoint) (m : Nat), ∀ e ∈ (slotLoop f m r).2,
              ∃ n, m ≤ n ∧ e.slot? = some n := by
            intro r
            induction r with
            | nil => intro m e he; simp [slotLoop] at he
            | cons t r ihr2 =>
              intro m e he
              simp only [slotLoop, List.mem_append] at he
              rcases he with he | he
              · exact ⟨m, le_refl _, hf m t e he⟩
              · obtain ⟨n, hn, hen⟩ := ihr2 (m + 1) e he
                exact ⟨n, by omega, hen⟩
          obtain ⟨n, hn, hen⟩ := hsub r (j + 1 + 1) e he
          simp [Emit.ofSlot, hen]
          omega
        rw [h1, h2]
        rfl
    cases k with
    | zero =>
      simp only [slotLoop, List.filter_append, Nat.add_zero, List.getElem?_cons_zero]
      rw [hlarge rest i]
      have : (f i tp).2.filter (Emit.ofSlot i) = (f i tp).2 := by
        rw [List.filter_eq_self]
        intro e he
        simp [Emit.ofSlot, hf i tp e he]
      rw [this, List.append_nil]
    | succ k =>
      simp only [slotLoop, List.filter_append, List.getElem?_cons_succ]
      rw [hsmall (i + (k + 1)) (by omega)]
      have h := ih (i + 1) k
      have e1 : i + 1 + k = i + (k + 1) := by omega
      rw [e1] at h
      rw [h]
      rfl

theorem longPressLoop_eq_slotLoop (t : Int) (i : Nat) (l : List TouchPoint) :
    longPressLoop t i l = slotLoop (longPressSlot t) i l := by
  induction l generalizing i with
  | nil => rfl
  | cons tp rest ih => simp only [longPressLoop, slotLoop, ih]

theorem reportSlot_indep (mx my : Int) (env : Env) (i : Nat) (tp : TouchPoint) (d : String)
    (n : Nat) :
    (reportSlot mx my env i tp d n).1 = (reportSlot mx my env i tp "" 0).1 ∧
    (reportSlot mx my env i tp d n).2.1 = (reportSlot mx my env i tp "" 0).2.1 := by
  unfold reportSlot
  dsimp only
  split_ifs <;> exact ⟨rfl, rfl⟩

theorem reportLoop_eq_slotLoop (mx my : Int) (env : Env) (i : Nat) (l : List TouchPoint)
    (d : String) (n : Nat) :
    (reportLoop mx my env i l d n).1 =
      (slotLoop (fun j tp => ((reportSlot mx my env j tp "" 0).1,
        (reportSlot mx my env j tp "" 0).2.1)) i l).1 ∧
    (reportLoop mx my env i l d n).2.1 =
      (slotLoop (fun j tp => ((reportSlot mx my env j tp "" 0).1,
        (reportSlot mx my env j tp "" 0).2.1)) i l).2 := by
  induction l generalizing i d n with
  | nil => exact ⟨rfl, rfl⟩
  | cons tp rest ih =>
    simp only [reportLoop, slotLoop]
    obtain ⟨h1, h2⟩ := ih (i + 1) (reportSlot mx my env i tp d n).2.2.1
      (reportSlot mx my env i tp d n).2.2.2
    obtain ⟨h3, h4⟩ := reportSlot_indep mx my env i tp d n
    rw [h1, h2, h3, h4]
    exact ⟨rfl, rfl⟩

theorem longPressSlot_tag (t : Int) (i : Nat) (tp : TouchPoint) :
    ∀ e ∈ (longPressSlot t i tp).2, e.slot? = some i := by
  intro e he
  unfold longPressSlot at he
  dsimp only at he
  split_ifs at he <;> simp at he
  subst he
  rfl

theorem reportSlot_tag (mx my : Int) (env : Env) (i : Nat) (tp : TouchPoint) (d : String)
    (n : Nat) :
    ∀ e ∈ (reportSlot mx my env i tp d n).2.1, e.slot? = some i := by
  intro e he
  unfold reportSlot at he
  dsimp only at he
  split_ifs at he
  all_goals first
    | (simp at he; done)
    | (split at he <;> simp at he
       subst he
       rfl)

/-! ## One action, seen from one slot -/

theorem longPressCheck_slot (t : Int) (s : LoopState) (k : Nat) :
    (longPressCheck t s).1.localTouches[k]? =
      (s.localTouches[k]?).map (fun tp => (longPressSlot t k tp).1) ∧
    (longPressCheck t s).2.filter (Emit.ofSlot k) =
      match s.localTouches[k]? with
      | some tp => (longPressSlot t k tp).2
      | none => [] := by
  have h1 := slotLoop_getElem? (longPressSlot t) 0 s.localTouches k
  have h2 := slotLoop_filter (longPressSlot t) (longPressSlot_tag t) 0 s.localTouches k
  simp only [Nat.zero_add] at h1 h2
  simp only [longPressCheck, longPressLoop_eq_slotLoop]
  exact ⟨h1, h2⟩

theorem reportLoop_slot (mx my : Int) (env : Env) (l : List TouchPoint) (d : String)
    (n : Nat) (k : Nat) :
    (reportLoop mx my env 0 l d n).1[k]? =
      (l[k]?).map (fun tp => (reportSlot mx my env k tp "" 0).1) ∧
    (reportLoop mx my env 0 l d n).2.1.filter (Emit.ofSlot k) =
      match l[k]? with
      | some tp => (reportSlot mx my env k tp "" 0).2.1
      | none => [] := by
  obtain ⟨e1, e2⟩ := reportLoop_eq_slotLoop mx my env 0 l d n
  have h1 := slotLoop_getElem? (fun j tp => ((reportSlot mx my env j tp "" 0).1,
        (reportSlot mx my env j tp "" 0).2.1)) 0 l k
  have h2 := slotLoop_filter (fun j tp => ((reportSlot mx my env j tp "" 0).1,
        (reportSlot mx my env j tp "" 0).2.1))
        (fun i tp => reportSlot_tag mx my env i tp "" 0) 0 l k
  simp only [Nat.zero_add] at h1 h2
  rw [e1, e2]
  exact ⟨h1, h2⟩

theorem stepAction_slot (mx my : Int) (s : LoopState) (a : Action) (k : Nat)
    (tp : TouchPoint) (h : s.localTouches[k]? = some tp) :
    (stepAction mx my s a).1.localTouches[k]? =
      some (slotStep mx my k s.currentSlot.toNat s.touchDataUpdated a tp).1 ∧
    (stepAction mx my s a).2.filter (Emit.ofSlot k) =
      (slotStep mx my k s.currentSlot.toNat s.touchDataUpdated a tp).2 := by
  have hk : k < s.localTouches.length := by
    rcases List.getElem?_eq_some_iff.mp h with ⟨hk, _⟩
    exact hk
  cases a with
  | check t =>
    obtain ⟨h1, h2⟩ := longPressCheck_slot t s k
    simp only [stepAction, slotStep]
    rw [h1, h2, h]
    exact ⟨rfl, rfl⟩
  | record b env ev =>
    rw [stepAction_record]
    obtain ⟨hr1, hr2⟩ := reportLoop_slot mx my env s.localTouches "T" 0 k
    rw [h] at hr1 hr2
    simp only [Option.map_some'] at hr1 hr2
    have hget : s.localTouches.getD k {} = tp := by
      rw [List.getD_eq_getElem?_getD, h]; rfl
    unfold handleEvent slotStep
    dsimp only
    by_cases habs : ev.type = EV_ABS
    · simp only [habs, if_true]
      have hne1 : ¬ (ABS_MT_TRACKING_ID = ABS_MT_SLOT) := by decide
      have hne2 : ¬ (ABS_MT_POSITION_X = ABS_MT_SLOT) := by decide
      have hne3 : ¬ (ABS_MT_POSITION_X = ABS_MT_TRACKING_ID) := by decide
      have hne4 : ¬ (ABS_MT_POSITION_Y = ABS_MT_SLOT) := by decide
      have hne5 : ¬ (ABS_MT_POSITION_Y = ABS_MT_TRACKING_ID) := by decide
      have hne6 : ¬ (ABS_MT_POSITION_Y = ABS_MT_POSITION_X) := by decide
      by_cases hslot : ev.code = ABS_MT_SLOT
      · simp only [hslot, if_true]
        exact ⟨h, rfl⟩
      by_cases htr : ev.code = ABS_MT_TRACKING_ID
      · simp only [htr, hne1, if_true, if_false]
        by_cases hcur : s.currentSlot.toNat = k
        · subst hcur
          simp only [hget, if_true]
          by_cases hv : ev.value = -1
          · simp only [hv, if_true, List.getElem?_set, hk]
            by_cases hd : tp.isDown = true <;> by_cases hm : tp.maybeUiTap = true <;>
              by_cases hs : tp.longPressStartSent = true <;>
              simp [hd, hm, hs, Emit.ofSlot, Emit.slot?]
          · simp [hv, List.getElem?_set, hk]
        · simp only [hcur, if_false]
          by_cases hv : ev.value = -1
          · simp only [hv, if_true, List.getElem?_set, hcur, if_false]
            refine ⟨h, ?_⟩
            split_ifs <;> simp [Emit.ofSlot, Emit.slot?, hcur]
          · simp [hv, List.getElem?_set, hcur, h]
      by_cases hx : ev.code = ABS_MT_POSITION_X
      · simp only [hx, hne2, hne3, if_true, if_false]
        by_cases hcur : s.currentSlot.toNat = k
        · subst hcur
          simp only [hget, if_true, List.getElem?_set, hk]
          exact ⟨trivial, rfl⟩
        · simp only [hcur, if_false, List.getElem?_set]
          exact ⟨h, rfl⟩
      by_cases hy : ev.code = ABS_MT_POSITION_Y
      · simp only [hy, hne4, hne5, hne6, if_true, if_false]
        by_cases hcur : s.currentSlot.toNat = k
        · subst hcur
          simp only [hget, if_true, List.getElem?_set, hk]
          exact ⟨trivial, rfl⟩
        · simp only [hcur, if_false, List.getElem?_set]
          exact ⟨h, rfl⟩
      simp only [hslot, htr, hx, hy, if_false]
      exact ⟨h, rfl⟩
    · simp only [habs, if_false]
      by_cases hsyn : ev.type = EV_SYN ∧ ev.code = SYN_REPORT
      · simp only [hsyn, and_self, if_true]
        by_cases hupd : s.touchDataUpdated = true
        · simp only [hupd, if_true]
          refine ⟨hr1, ?_⟩
          split_ifs <;> first
            | exact hr2
            | (rw [List.filter_append, hr2]
               simp [Emit.ofSlot, Emit.slot?])
        · simp only [hupd]
          simp [h]
      · simp only [hsyn, if_false]
        simp [h]

theorem stepAction_slot_none (mx my : Int) (s : LoopState) (a : Action) (k : Nat)
    (h : s.localTouches[k]? = none) :
    (stepAction mx my s a).1.localTouches[k]? = none ∧
    (stepAction mx my s a).2.filter (Emit.ofSlot k) = [] := by
  cases a with
  | check t =>
    obtain ⟨h1, h2⟩ := longPressCheck_slot t s k
    simp only [stepAction]
    rw [h1, h2, h]
    exact ⟨rfl, rfl⟩
  | record b env ev =>
    rw [stepAction_record]
    obtain ⟨hr1, hr2⟩ := reportLoop_slot mx my env s.localTouches "T" 0 k
    rw [h] at hr1 hr2
    simp only [Option.map_none'] at hr1 hr2
    have hget : s.localTouches.getD k {} = {} := by
      rw [List.getD_eq_getElem?_getD, h]; rfl
    unfold handleEvent
    dsimp only
    by_cases habs : ev.type = EV_ABS
    · simp only [habs, if_true]
      have hset : ∀ (j : Nat) (t : TouchPoint), (s.localTouches.set j t)[k]? = none := by
        intro j t
        rw [List.getElem?_eq_none_iff] at h ⊢
        simpa using h
      by_cases hcur : s.currentSlot.toNat = k
      · subst hcur
        simp only [hget]
        split_ifs <;> first
          | exact ⟨h, rfl⟩
          | exact ⟨hset _ _, rfl⟩
          | (exfalso; simp_all)
      · split_ifs <;> first
          | exact ⟨h, rfl⟩
          | exact ⟨hset _ _, rfl⟩
          | (refine ⟨hset _ _, ?_⟩
             simp [Emit.ofSlot, Emit.slot?, hcur])
    · simp only [habs, if_false]
      by_cases hsyn : ev.type = EV_SYN ∧ ev.code = SYN_REPORT
      · simp only [hsyn, and_self, if_true]
        by_cases hupd : s.touchDataUpdated = true
        · simp only [hupd, if_true]
          refine ⟨hr1, ?_⟩
          split_ifs <;> first
            | exact hr2
            | (rw [List.filter_append, hr2]
               simp [Emit.ofSlot, Emit.slot?])
        · simp only [hupd]
          simp [h]
      · simp only [hsyn, if_false]
        simp [h]

/-- What the body of the report loop does to a slot: nothing, or it refreshes
`downX, downY` only, or it matches a region. -/
theorem reportSlot_cases (mx my : Int) (env : Env) (i : Nat) (tp : TouchPoint) (d : String)
    (n : Nat) :
    ((reportSlot mx my env i tp d n).1 = tp ∧ (reportSlot mx my env i tp d n).2.1 = []) ∨
    (∃ ax ay : Int, (reportSlot mx my env i tp d n).1 = { tp with downX := ax, downY := ay } ∧
      (reportSlot mx my env i tp d n).2.1 = []) ∨
    (∃ (ax ay : Int) (region : ClickableRegion), tp.isDown = true ∧ tp.maybeUiTap = false ∧
      (reportSlot mx my env i tp d n).1 =
        { tp with
            downX := ax, downY := ay, maybeUiTap := true
            downRegionIdentifier := region.identifier
            isCheckingForLongPressStart := true
            longPressStartSent := false } ∧
      (reportSlot mx my env i tp d n).2.1 = [Emit.tapDown i region.identifier ax ay]) := by
  unfold reportSlot
  dsimp only
  generalize ((if my > 0 then (tp.y * env.g_screenWidthPx).tdiv my else tp.y)
    - env.g_screenLeftOffsetPx) = ax
  generalize ((if mx > 0 then ((mx - tp.x) * env.g_screenHeightPx).tdiv mx else (mx - tp.x))
    - env.g_screenTopOffsetPx) = ay
  by_cases hid : tp.id ≠ -1
  · rw [if_pos hid]
    by_cases hc : (tp.isDown && !tp.maybeUiTap) = true
    · rw [if_pos hc]
      have hc2 : tp.isDown = true ∧ tp.maybeUiTap = false := by
        simpa using hc
      cases hreg : regionLoop ax ay env.g_clickableRegions with
      | none =>
        refine Or.inr (Or.inl ⟨ax, ay, ?_, ?_⟩)
        · split_ifs <;> rfl
        · split_ifs <;> rfl
      | some region =>
        refine Or.inr (Or.inr ⟨ax, ay, region, hc2.1, hc2.2, ?_, ?_⟩)
        · split_ifs <;> rfl
        · split_ifs <;> rfl
    · rw [if_neg hc]
      refine Or.inl ⟨?_, ?_⟩
      · split_ifs <;> rfl
      · split_ifs <;> rfl
  · rw [if_neg hid]
    exact Or.inl ⟨rfl, rfl⟩

theorem slotStep_other (mx my : Int) (k cur : Nat) (upd : Bool) (a : Action)
    (tp : TouchPoint) (em : List Emit)
    (hnt : Step.isTrackingOn k { slot := cur, action := a, emits := em } = false) :
    SlotOther k a tp (slotStep mx my k cur upd a tp) := by
  have hsame : SlotOther k a tp (tp, []) := ⟨rfl, rfl, Or.inl ⟨rfl, rfl, rfl⟩⟩
  cases a with
  | check t =>
    show SlotOther k _ tp (longPressSlot t k tp)
    unfold longPressSlot
    dsimp only
    split_ifs with h1 h2
    · simp only [Bool.and_eq_true, Bool.not_eq_true'] at h1
      exact ⟨rfl, rfl,
        Or.inr (Or.inr ⟨t, rfl, rfl, h1.1.1.1, h1.1.1.2, h1.2, h1.1.1.2, rfl, h2⟩)⟩
    · exact hsame
    · exact hsame
  | record b env ev =>
    simp only [Step.isTrackingOn, Bool.and_eq_false_iff, decide_eq_false_iff_not] at hnt
    unfold slotStep
    dsimp only
    by_cases habs : ev.type = EV_ABS
    · rw [if_pos habs]
      split_ifs <;> first
        | exact hsame
        | exact ⟨rfl, rfl, Or.inl ⟨rfl, rfl, rfl⟩⟩
        | (exfalso; tauto)
    · rw [if_neg habs]
      split_ifs
      · rcases reportSlot_cases mx my env k tp "" 0 with ⟨h1, h2⟩ | ⟨ax, ay, h1, h2⟩ |
          ⟨ax, ay, region, hd, hm, h1, h2⟩
        · rw [h1, h2]; exact hsame
        · rw [h1, h2]; exact ⟨rfl, rfl, Or.inl ⟨rfl, rfl, rfl⟩⟩
        · rw [h1, h2]
          exact ⟨rfl, rfl, Or.inr (Or.inl ⟨_, _, _, rfl, hm, rfl, rfl⟩)⟩
      · exact hsame
      · exact hsame

theorem slotStep_release (mx my : Int) (k : Nat) (upd b : Bool) (env : Env) (ev : InputEvent)
    (tp : TouchPoint) (h1 : ev.type = EV_ABS) (h2 : ev.code = ABS_MT_TRACKING_ID)
    (h3 : ev.value = -1) :
    (slotStep mx my k k upd (Action.record b env ev) tp).1.isDown = false ∧
    (slotStep mx my k k upd (Action.record b env ev) tp).2 =
      if tp.isDown && tp.maybeUiTap && tp.longPressStartSent then
        [Emit.pressEnd k tp.downRegionIdentifier
          ((if my > 0 then (tp.y * env.g_screenWidthPx).tdiv my else tp.y)
            - env.g_screenLeftOffsetPx)
          ((if mx > 0 then ((mx - tp.x) * env.g_screenHeightPx).tdiv mx else (mx - tp.x))
            - env.g_screenTopOffsetPx)]
      else [] := by
  have hne : ¬ (ABS_MT_TRACKING_ID = ABS_MT_SLOT) := by decide
  simp [slotStep, h1, h2, h3, hne]

theorem slotStep_down (mx my : Int) (k : Nat) (upd b : Bool) (env : Env) (ev : InputEvent)
    (tp : TouchPoint) (h1 : ev.type = EV_ABS) (h2 : ev.code = ABS_MT_TRACKING_ID)
    (h3 : ev.value ≠ -1) :
    (slotStep mx my k k upd (Action.record b env ev) tp).1.isDown = true ∧
    (slotStep mx my k k upd (Action.record b env ev) tp).1.longPressStartSent = false ∧
    (slotStep mx my k k upd (Action.record b env ev) tp).1.downTimestampMs = env.nowMs ∧
    (slotStep mx my k k upd (Action.record b env ev) tp).2 = [] := by
  have hne : ¬ (ABS_MT_TRACKING_ID = ABS_MT_SLOT) := by decide
  simp [slotStep, h1, h2, h3, hne]

/-! ## Runs -/

theorem exec_append (mx my : Int) (s : LoopState) (as bs : List Action) :
    exec mx my s (as ++ bs) = exec mx my (exec mx my s as) bs := by
  induction as generalizing s with
  | nil => rfl
  | cons a as ih =>
    show exec mx my (stepAction mx my s a).1 (as ++ bs) = _
    rw [ih]
    rfl

theorem runSteps_append (mx my : Int) (s : LoopState) (as bs : List Action) :
    runSteps mx my s (as ++ bs) =
      runSteps mx my s as ++ runSteps mx my (exec mx my s as) bs := by
  induction as generalizing s with
  | nil => rfl
  | cons a as ih =>
    show _ :: runSteps mx my (stepAction mx my s a).1 (as ++ bs) = _
    rw [ih]
    rfl

/-- A log that splits in two comes from a sequence of actions that splits
in two. -/
theorem runSteps_split (mx my : Int) (s : LoopState) (acts : List Action)
    (xs ys : List Step) (h : runSteps mx my s acts = xs ++ ys) :
    ∃ as bs, acts = as ++ bs ∧ runSteps mx my s as = xs ∧
      runSteps mx my (exec mx my s as) bs = ys := by
  induction xs generalizing s acts with
  | nil => exact ⟨[], acts, rfl, rfl, h⟩
  | cons x xs ih =>
    cases acts with
    | nil => simp [runSteps] at h
    | cons a rest =>
      simp only [runSteps, List.cons_append, List.cons.injEq] at h
      obtain ⟨as, bs, e1, e2, e3⟩ := ih _ rest h.2
      refine ⟨a :: as, bs, by rw [e1]; rfl, ?_, ?_⟩
      · simp only [runSteps, e2, h.1]
      · simpa only [exec] using e3

/-- A log whose first entry is `x` comes from an action run first. -/
theorem runSteps_cons (mx my : Int) (s : LoopState) (acts : List Action)
    (x : Step) (ys : List Step) (h : runSteps mx my s acts = x :: ys) :
    ∃ a bs, acts = a :: bs ∧
      x = { slot := s.currentSlot.toNat, action := a, emits := (stepAction mx my s a).2 } ∧
      runSteps mx my (stepAction mx my s a).1 bs = ys := by
  cases acts with
  | nil => simp [runSteps] at h
  | cons a rest =>
    simp only [runSteps, List.cons.injEq] at h
    exact ⟨a, rest, rfl, h.1.symm, h.2⟩

theorem emitsOf_append (xs ys : List Step) : emitsOf (xs ++ ys) = emitsOf xs ++ emitsOf ys := by
  simp [emitsOf]

theorem emitsOf_cons (x : Step) (ys : List Step) : emitsOf (x :: ys) = x.emits ++ emitsOf ys := by
  simp [emitsOf]

/-! ## Passes of the loop are sequences of actions -/

theorem stepAction_leftoverBuf (mx my : Int) (s : LoopState) (buf : List Nat) (a : Action) :
    stepAction mx my { s with leftoverBuf := buf } a =
      ({ (stepAction mx my s a).1 with leftoverBuf := buf }, (stepAction mx my s a).2) := by
  cases a with
  | check t => rfl
  | record b env ev =>
    rw [stepAction_record, stepAction_record]
    unfold handleEvent
    dsimp only
    split_ifs <;> rfl

theorem stepAction_slots (mx my : Int) (s s2 : LoopState) (a : Action)
    (h : s.slots = s2.slots) :
    (stepAction mx my s a).2 = (stepAction mx my s2 a).2 ∧
    (stepAction mx my s a).1.slots = (stepAction mx my s2 a).1.slots := by
  have hs : s = { s2 with leftoverBuf := s.leftoverBuf } := by
    cases s
    cases s2
    simp only [LoopState.slots, Prod.mk.injEq] at h
    simp only [LoopState.mk.injEq]
    exact ⟨h.1, h.2.1, h.2.2, trivial⟩
  rw [hs, stepAction_leftoverBuf]
  exact ⟨rfl, rfl⟩

theorem run_slots (mx my : Int) (acts : List Action) (s s2 : LoopState)
    (h : s.slots = s2.slots) :
    emitsOf (runSteps mx my s acts) = emitsOf (runSteps mx my s2 acts) ∧
    (exec mx my s acts).slots = (exec mx my s2 acts).slots := by
  induction acts generalizing s s2 with
  | nil => exact ⟨rfl, h⟩
  | cons a rest ih =>
    obtain ⟨h1, h2⟩ := stepAction_slots mx my s s2 a h
    obtain ⟨g1, g2⟩ := ih _ _ h2
    simp only [runSteps, exec, emitsOf_cons]
    rw [h1, g1]
    exact ⟨rfl, g2⟩

/-- The parse loop does what the actions "handle the next record" do. -/
theorem parseLoop_actions (P : Platform) (mx my : Int) (env : Nat → Env) (buf : List Nat)
    (fuel off k : Nat) (s : LoopState) :
    ∃ acts, (parseLoop P mx my env buf fuel off k s).1 = exec mx my s acts ∧
      (parseLoop P mx my env buf fuel off k s).2.1 = emitsOf (runSteps mx my s acts) := by
  induction fuel generalizing off k s with
  | zero => exact ⟨[], rfl, rfl⟩
  | succ fuel ih =>
    unfold parseLoop
    split_ifs with h
    · obtain ⟨acts, h1, h2⟩ := ih (off + P.EVENT_SIZE) (k + 1)
        (handleEvent mx my (env k) s
          (P.decode ((buf.drop off).take P.EVENT_SIZE))).1
      refine ⟨Action.record false (env k)
        (P.decode ((buf.drop off).take P.EVENT_SIZE)) :: acts, ?_, ?_⟩
      · simp only [exec, stepAction]
        exact h1
      · simp only [runSteps, emitsOf_cons, stepAction]
        rw [← h2]
    · exact ⟨[], rfl, rfl⟩

/-- A read that is processed (lines 178-464) does to the slots, and sends,
what a sequence of actions does: the record completed from `leftoverBuf`,
the records of the parse loop, then the long-press check. -/
theorem processRead_actions (P : Platform) (mx my : Int) (env : Nat → Env) (buf : List Nat)
    (t : Int) (s : LoopState) :
    ∃ acts, (processRead P mx my env buf t s).1.slots = (exec mx my s acts).slots ∧
      (processRead P mx my env buf t s).2 = emitsOf (runSteps mx my s acts) := by
  have hfirst : ∃ acts1,
      (completeLeftover P mx my env buf s).1.slots = (exec mx my s acts1).slots ∧
      (completeLeftover P mx my env buf s).2.1 = emitsOf (runSteps mx my s acts1) := by
    unfold completeLeftover
    dsimp only
    split_ifs with h1 h2
    · refine ⟨[Action.record true (env 0) (P.decode (s.leftoverBuf ++ List.take
        (min buf.length ((P.EVENT_SIZE + P.sizeModulus - s.leftoverBuf.length)
          % P.sizeModulus)) buf))], ?_, ?_⟩
      · have := stepAction_leftoverBuf mx my s [] (Action.record true (env 0)
          (P.decode (s.leftoverBuf ++ List.take
            (min buf.length ((P.EVENT_SIZE + P.sizeModulus - s.leftoverBuf.length)
              % P.sizeModulus)) buf)))
        simp only [stepAction] at this
        simp only [exec, stepAction, this]
        rfl
      · have := stepAction_leftoverBuf mx my s [] (Action.record true (env 0)
          (P.decode (s.leftoverBuf ++ List.take
            (min buf.length ((P.EVENT_SIZE + P.sizeModulus - s.leftoverBuf.length)
              % P.sizeModulus)) buf)))
        simp only [stepAction] at this
        simp only [runSteps, emitsOf_cons, stepAction, this]
        simp [emitsOf]
    · exact ⟨[], rfl, rfl⟩
    · exact ⟨[], rfl, rfl⟩
  obtain ⟨acts1, a1, a2⟩ := hfirst
  obtain ⟨acts2, b1, b2⟩ := parseLoop_actions P mx my env buf buf.length
    (completeLeftover P mx my env buf s).2.2.1 (completeLeftover P mx my env buf s).2.2.2
    (completeLeftover P mx my env buf s).1
  obtain ⟨c1, c2⟩ := run_slots mx my acts2 _ _ a1
  refine ⟨acts1 ++ acts2 ++ [Action.check t], ?_, ?_⟩
  · rw [exec_append, exec_append]
    unfold processRead
    dsimp only
    rw [b1]
    have hk : ∀ (u : LoopState) (l : List Nat),
        (longPressCheck t { u with leftoverBuf := l }).1.slots =
          (longPressCheck t u).1.slots := fun _ _ => rfl
    have hslots := (stepAction_slots mx my _ _ (Action.check t) c2).2
    simp only [stepAction] at hslots
    split_ifs
    · rw [hk]
      exact hslots
    · rw [hk]
      exact hslots
  · rw [runSteps_append, runSteps_append, emitsOf_append, emitsOf_append]
    unfold processRead
    dsimp only
    rw [a2, b2, c1]
    have hk : ∀ (u : LoopState) (l : List Nat),
        (longPressCheck t { u with leftoverBuf := l }).2 = (longPressCheck t u).2 :=
      fun _ _ => rfl
    have hem := (stepAction_slots mx my _ _ (Action.check t) c2).1
    simp only [stepAction] at hem
    have hlast : ∀ u : LoopState, emitsOf (runSteps mx my u [Action.check t])
        = (longPressCheck t u).2 := by
      intro u
      simp [runSteps, emitsOf, stepAction]
    rw [hlast, exec_append, ← hem, b1]
    split_ifs <;> rw [hk]

/-- One pass of the loop does to the slots, and sends, what a sequence of
actions does (none when the pass ends at a `continue` or a `break` before the
read is processed). -/
theorem loopPass_actions (P : Platform) (mx my : Int) (inp : PassInput) (s : LoopState) :
    ∃ acts, (loopPass P mx my inp s).1.slots = (exec mx my s acts).slots ∧
      (loopPass P mx my inp s).2.1 = emitsOf (runSteps mx my s acts) := by
  unfold loopPass
  split_ifs <;> try exact ⟨[], rfl, rfl⟩
  split
  · split_ifs <;> exact ⟨[], rfl, rfl⟩
  · split_ifs
    · exact ⟨[], rfl, rfl⟩
    · exact processRead_actions P mx my inp.env _ inp.checkTimeMs s

/-- Every run of the loop sends what a sequence of actions sends: the
properties of all action sequences hold of all runs of the loop. -/
theorem runLoop_actions (P : Platform) (mx my : Int) (passes : List (Bool × PassInput))
    (s : LoopState) :
    ∃ acts, (runLoop P mx my passes s).1.slots = (exec mx my s acts).slots ∧
      (runLoop P mx my passes s).2 = emitsOf (runSteps mx my s acts) := by
  induction passes generalizing s with
  | nil => exact ⟨[], rfl, rfl⟩
  | cons p rest ih =>
    obtain ⟨running, inp⟩ := p
    unfold runLoop
    cases running with
    | false => exact ⟨[], rfl, rfl⟩
    | true =>
      simp only [if_true]
      obtain ⟨acts1, a1, a2⟩ := loopPass_actions P mx my inp s
      cases hend : (loopPass P mx my inp s).2.2 with
      | stop => exact ⟨acts1, a1, a2⟩
      | again =>
        obtain ⟨acts2, b1, b2⟩ := ih (loopPass P mx my inp s).1
        obtain ⟨c1, c2⟩ := run_slots mx my acts2 _ _ a1
        refine ⟨acts1 ++ acts2, ?_, ?_⟩
        · rw [exec_append, ← c2]; exact b1
        · rw [runSteps_append, emitsOf_append, ← c1, ← a2, ← b2]
      | completed =>
        obtain ⟨acts2, b1, b2⟩ := ih (loopPass P mx my inp s).1
        obtain ⟨c1, c2⟩ := run_slots mx my acts2 _ _ a1
        refine ⟨acts1 ++ acts2, ?_, ?_⟩
        · rw [exec_append, ← c2]; exact b1
        · rw [runSteps_append, emitsOf_append, ← c1, ← a2, ← b2]

/-! ## Counting the calls of one slot -/

theorem countP_ofSlot (k : Nat) (p : Emit → Bool) (hp : ∀ e, p e = true → e.slot? = some k)
    (l : List Emit) : l.countP p = (l.filter (Emit.ofSlot k)).countP p := by
  induction l with
  | nil => rfl
  | cons e l ih =>
    by_cases hk : Emit.ofSlot k e = true
    · rw [List.filter_cons_of_pos hk]
      by_cases hpe : p e = true
      · rw [List.countP_cons_of_pos _ _ hpe, List.countP_cons_of_pos _ _ hpe, ih]
      · rw [List.countP_cons_of_neg _ _ hpe, List.countP_cons_of_neg _ _ hpe, ih]
    · rw [List.filter_cons_of_neg hk]
      have hpe : ¬ p e = true := by
        intro h
        exact hk (by simp [Emit.ofSlot, hp e h])
      rw [List.countP_cons_of_neg _ _ hpe, ih]

theorem isTapDownOf_slot (k : Nat) (e : Emit) (h : e.isTapDownOf k = true) :
    e.slot? = some k := by
  cases e <;> simp_all [Emit.isTapDownOf, Emit.slot?]

theorem isPressStartOf_slot (k : Nat) (e : Emit) (h : e.isPressStartOf k = true) :
    e.slot? = some k := by
  cases e <;> simp_all [Emit.isPressStartOf, Emit.slot?]

theorem isPressEndOf_slot (k : Nat) (e : Emit) (h : e.isPressEndOf k = true) :
    e.slot? = some k := by
  cases e <;> simp_all [Emit.isPressEndOf, Emit.slot?]

theorem tapLatch_le (k : Nat) (s : LoopState) : tapLatch k s ≤ 1 := by
  unfold tapLatch
  split
  · split_ifs <;> omega
  · omega

theorem pressLatch_le (k : Nat) (s : LoopState) : pressLatch k s ≤ 1 := by
  unfold pressLatch
  split
  · split_ifs <;> omega
  · omega

/-- One step that is not a tracking-id record on slot `k`: every `tapDown`
and every `pressStart` of the slot raises the matching latch, and no
`pressEnd` of the slot is sent. -/
theorem step_counts (mx my : Int) (k : Nat) (s : LoopState) (a : Action)
    (hnt : Step.isTrackingOn k
      { slot := s.currentSlot.toNat, action := a, emits := (stepAction mx my s a).2 } = false) :
    (stepAction mx my s a).2.countP (Emit.isTapDownOf k) + tapLatch k s
      ≤ tapLatch k (stepAction mx my s a).1 ∧
    (stepAction mx my s a).2.countP (Emit.isPressStartOf k) + pressLatch k s
      ≤ pressLatch k (stepAction mx my s a).1 ∧
    (stepAction mx my s a).2.countP (Emit.isPressEndOf k) = 0 := by
  rw [countP_ofSlot k _ (isTapDownOf_slot k), countP_ofSlot k _ (isPressStartOf_slot k),
    countP_ofSlot k _ (isPressEndOf_slot k)]
  cases hk : s.localTouches[k]? with
  | none =>
    obtain ⟨h1, h2⟩ := stepAction_slot_none mx my s a k hk
    simp [h2, tapLatch, pressLatch, hk, h1]
  | some tp =>
    obtain ⟨h1, h2⟩ := stepAction_slot mx my s a k tp hk
    obtain ⟨_, _, hc⟩ := slotStep_other mx my k s.currentSlot.toNat s.touchDataUpdated a tp _ hnt
    rw [h2]
    simp only [tapLatch, pressLatch, hk, h1]
    rcases hc with ⟨e1, e2, e3⟩ | ⟨ident, x, y, e1, e2, e3, e4⟩ |
      ⟨t, _, e1, _, e2, e3, e4, e5, _⟩
    · rw [e1, e2, e3]; simp
    · rw [e1, e2, e3, e4]; simp [Emit.isTapDownOf, Emit.isPressStartOf, Emit.isPressEndOf]
    · rw [e1, e2, e3, e4, e5]; simp [Emit.isTapDownOf, Emit.isPressStartOf, Emit.isPressEndOf]

/-- A stretch of the log with no tracking-id record on slot `k`: the latches
bound the number of `tapDown` and of `pressStart` of the slot, and no
`pressEnd` of the slot is sent. -/
theorem seg_counts (mx my : Int) (k : Nat) (acts : List Action) (s : LoopState)
    (hseg : ∀ st ∈ runSteps mx my s acts, st.isTrackingOn k = false) :
    (emitsOf (runSteps mx my s acts)).countP (Emit.isTapDownOf k) + tapLatch k s
      ≤ tapLatch k (exec mx my s acts) ∧
    (emitsOf (runSteps mx my s acts)).countP (Emit.isPressStartOf k) + pressLatch k s
      ≤ pressLatch k (exec mx my s acts) ∧
    (emitsOf (runSteps mx my s acts)).countP (Emit.isPressEndOf k) = 0 := by
  induction acts generalizing s with
  | nil => simp [runSteps, emitsOf, exec]
  | cons a rest ih =>
    simp only [runSteps, List.mem_cons, forall_eq_or_imp] at hseg
    obtain ⟨h1, h2, h3⟩ := step_counts mx my k s a hseg.1
    obtain ⟨g1, g2, g3⟩ := ih (stepAction mx my s a).1 hseg.2
    simp only [runSteps, emitsOf_cons, List.countP_append, exec]
    refine ⟨by omega, by omega, by omega⟩

/-- A tracking-id record makes no call other than a `pressEnd` of the
current slot. -/
theorem tracking_emits (mx my : Int) (s : LoopState) (b : Bool) (env : Env) (ev : InputEvent)
    (h1 : ev.type = EV_ABS) (h2 : ev.code = ABS_MT_TRACKING_ID) :
    ∀ e ∈ (stepAction mx my s (Action.record b env ev)).2,
      ∃ ident x y, e = Emit.pressEnd s.currentSlot.toNat ident x y := by
  have hne : ¬ (ABS_MT_TRACKING_ID = ABS_MT_SLOT) := by decide
  intro e he
  rw [stepAction_record] at he
  unfold handleEvent at he
  simp only [h1, h2, hne, if_true, if_false] at he
  split_ifs at he
  all_goals first
    | (simp at he; done)
    | (simp at he; exact ⟨_, _, _, he⟩)

/-- A tracking-id record with a value other than -1 makes no call. -/
theorem down_emits (mx my : Int) (s : LoopState) (b : Bool) (env : Env) (ev : InputEvent)
    (h1 : ev.type = EV_ABS) (h2 : ev.code = ABS_MT_TRACKING_ID) (h3 : ev.value ≠ -1) :
    (stepAction mx my s (Action.record b env ev)).2 = [] := by
  have hne : ¬ (ABS_MT_TRACKING_ID = ABS_MT_SLOT) := by decide
  rw [stepAction_record]
  unfold handleEvent
  simp only [h1, h2, h3, hne, if_true, if_false]

/-- The parts of a lifecycle start. -/
theorem isDownOn_iff (k : Nat) (st : Step) :
    st.isDownOn k = true ↔ ∃ b env ev, st.action = Action.record b env ev ∧
      ev.type = EV_ABS ∧ ev.code = ABS_MT_TRACKING_ID ∧ st.slot = k ∧ ev.value ≠ -1 := by
  unfold Step.isDownOn
  cases st.action with
  | check t => simp
  | record b env ev => simp [and_assoc]

/-- The first step of a lifecycle of slot `k` followed by steps that are no
tracking-id record on the slot: the calls of the slot are bounded by the
latches. -/
theorem lifecycle_counts (mx my : Int) (k : Nat) (s : LoopState) (acts : List Action)
    (d : Step) (seg : List Step) (h : runSteps mx my s acts = d :: seg)
    (hd : d.isDownOn k = true) (hseg : ∀ st ∈ seg, st.isTrackingOn k = false) :
    (emitsOf (d :: seg)).countP (Emit.isTapDownOf k) ≤ 1 ∧
    (emitsOf (d :: seg)).countP (Emit.isPressStartOf k) ≤ 1 ∧
    (emitsOf (d :: seg)).countP (Emit.isPressEndOf k) = 0 := by
  obtain ⟨a, bs, hacts, hdeq, hrest⟩ := runSteps_cons mx my s acts d seg h
  obtain ⟨b, env, ev, ha, h1, h2, _, h4⟩ := (isDownOn_iff k d).mp hd
  have ha2 : a = Action.record b env ev := by
    rw [hdeq] at ha
    exact ha
  have hem : d.emits = [] := by
    rw [hdeq, ha2]
    exact down_emits mx my s b env ev h1 h2 h4
  rw [← hrest] at hseg
  obtain ⟨g1, g2, g3⟩ := seg_counts mx my k bs _ hseg
  rw [hrest] at g1 g2 g3
  have l1 := tapLatch_le k (exec mx my (stepAction mx my s a).1 bs)
  have l2 := pressLatch_le k (exec mx my (stepAction mx my s a).1 bs)
  simp only [emitsOf_cons, hem, List.nil_append]
  exact ⟨by omega, by omega, g3⟩

/-- The stretch `d :: seg` of a log, taken out of the log. -/
theorem runSteps_middle (mx my : Int) (s : LoopState) (acts : List Action)
    (pre mid post : List Step) (h : runSteps mx my s acts = pre ++ mid ++ post) :
    ∃ as bs, runSteps mx my s as = pre ∧ runSteps mx my (exec mx my s as) bs = mid := by
  obtain ⟨as1, bs1, _, e2, _⟩ := runSteps_split mx my s acts (pre ++ mid) post h
  obtain ⟨as2, bs2, _, e5, e6⟩ := runSteps_split mx my s as1 pre mid e2
  exact ⟨as2, bs2, e5, e6⟩

theorem isTrackingOn_iff (k : Nat) (st : Step) :
    st.isTrackingOn k = true ↔ ∃ b env ev, st.action = Action.record b env ev ∧
      ev.type = EV_ABS ∧ ev.code = ABS_MT_TRACKING_ID ∧ st.slot = k := by
  unfold Step.isTrackingOn
  cases st.action with
  | check t => simp
  | record b env ev => simp [and_assoc]

theorem isReleaseOn_iff (k : Nat) (st : Step) :
    st.isReleaseOn k = true ↔ ∃ b env ev, st.action = Action.record b env ev ∧
      ev.type = EV_ABS ∧ ev.code = ABS_MT_TRACKING_ID ∧ st.slot = k ∧ ev.value = -1 := by
  unfold Step.isReleaseOn
  cases st.action with
  | check t => simp
  | record b env ev => simp [and_assoc]

theorem runSteps_snoc (mx my : Int) (s : LoopState) (acts : List Action) (a : Action) :
    runSteps mx my s (acts ++ [a]) = runSteps mx my s acts ++
      [{ slot := (exec mx my s acts).currentSlot.toNat, action := a,
         emits := (stepAction mx my (exec mx my s acts) a).2 }] := by
  rw [runSteps_append]
  rfl

theorem exec_snoc (mx my : Int) (s : LoopState) (acts : List Action) (a : Action) :
    exec mx my s (acts ++ [a]) = (stepAction mx my (exec mx my s acts) a).1 := by
  rw [exec_append]
  rfl

/-- Every slot reached by a run from the initial state carries the history
of its lifecycle. -/
theorem reach_history (mx my : Int) (k : Nat) (acts : List Action) :
    ∀ tp, (exec mx my LoopState.init acts).localTouches[k]? = some tp →
      SlotHistory k (runSteps mx my LoopState.init acts) tp := by
  induction acts using List.reverseRecOn with
  | nil =>
    intro tp h hdown
    exfalso
    have hk : k < MAX_SLOTS := by
      have := (List.getElem?_eq_some_iff.mp h).1
      simpa [exec, LoopState.init] using this
    have : tp = {} := by
      simp only [exec, LoopState.init, List.getElem?_replicate, hk, if_true,
        Option.some.injEq] at h
      exact h.symm
    rw [this] at hdown
    simp at hdown
  | append_singleton acts a ih =>
    intro tp2 h2 hdown
    rw [exec_snoc] at h2
    rw [runSteps_snoc]
    generalize hs : exec mx my LoopState.init acts = s at ih h2 ⊢
    generalize hh : runSteps mx my LoopState.init acts = hist at ih ⊢
    cases hk : s.localTouches[k]? with
    | none =>
      rw [(stepAction_slot_none mx my s a k hk).1] at h2
      exact absurd h2 (by simp)
    | some tp =>
      obtain ⟨g1, g2⟩ := stepAction_slot mx my s a k tp hk
      rw [g1, Option.some.injEq] at h2
      by_cases htr : Step.isTrackingOn k
          { slot := s.currentSlot.toNat, action := a, emits := (stepAction mx my s a).2 } = true
      · obtain ⟨b, env, ev, ha, h1, h3, hslot⟩ := (isTrackingOn_iff k _).mp htr
        simp only at ha hslot
        subst ha
        rw [hslot] at h2
        by_cases hv : ev.value = -1
        · have := (slotStep_release mx my k s.touchDataUpdated b env ev tp h1 h3 hv).1
          rw [h2, hdown] at this
          exact absurd this (by simp)
        · obtain ⟨_, q2, q3, _⟩ :=
            slotStep_down mx my k s.touchDataUpdated b env ev tp h1 h3 hv
          rw [h2] at q2 q3
          refine ⟨hist, _, [], b, env, ev, rfl, rfl, ?_, ?_, q3.symm, ?_⟩
          · rw [isDownOn_iff]
            exact ⟨b, env, ev, rfl, h1, h3, hslot, hv⟩
          · simp
          · intro hsent
            rw [q2] at hsent
            exact absurd hsent (by simp)
      · simp only [Bool.not_eq_true] at htr
        obtain ⟨c1, c2, c3⟩ :=
          slotStep_other mx my k s.currentSlot.toNat s.touchDataUpdated a tp _ htr
        rw [h2] at c1 c2 c3
        obtain ⟨pre, d, seg, b, env, ev, e1, e2, e3, e4, e5, e6⟩ :=
          ih tp hk (by rw [← c1]; exact hdown)
        refine ⟨pre, d,
          seg ++ [{ slot := s.currentSlot.toNat, action := a,
                    emits := (stepAction mx my s a).2 }],
          b, env, ev, by rw [e1]; simp, e2, e3, ?_, by rw [c2]; exact e5, ?_⟩
        · intro st hst
          rcases List.mem_append.mp hst with h | h
          · exact e4 st h
          · rw [List.mem_singleton] at h
            rw [h]
            exact htr
        · intro hsent
          rcases c3 with ⟨_, _, q⟩ | ⟨_, _, _, _, _, _, q⟩ | ⟨t, _, q, _⟩
          · obtain ⟨e, he, hp⟩ := e6 (by rw [← q]; exact hsent)
            exact ⟨e, by rw [emitsOf_append]; exact List.mem_append_left _ he, hp⟩
          · rw [q] at hsent
            exact absurd hsent (by simp)
          · refine ⟨Emit.pressStart k tp.downRegionIdentifier tp.downX tp.downY
              tp.downTimestampMs, ?_, by simp [Emit.isPressStartOf]⟩
            rw [emitsOf_append]
            apply List.mem_append_right
            simp only [emitsOf, List.flatMap_cons, List.flatMap_nil, List.append_nil]
            have : Emit.pressStart k tp.downRegionIdentifier tp.downX tp.downY
                tp.downTimestampMs ∈
                (stepAction mx my s a).2.filter (Emit.ofSlot k) := by
              rw [g2, q]
              simp
            exact (List.mem_filter.mp this).1

/-- C1: in every run of the loop from the initial state (any records, any
region sets, screen geometry and clock readings carried by the records, any
long-press checks in between), within one lifecycle of a slot `k`, that is
from a tracking-id record with a value other than -1 on the slot (`d`) over
the following steps up to the next tracking-id record on the same slot
(`seg`), at most one `tapDown` is sent for the slot. -/
theorem tapDown_at_most_once_per_lifecycle (nativeMaxX nativeMaxY : Int)
    (acts : List Action) (k : Nat) (pre : List Step) (d : Step) (seg post : List Step)
    (hrun : runSteps nativeMaxX nativeMaxY LoopState.init acts = pre ++ (d :: seg) ++ post)
    (hd : d.isDownOn k = true)
    (hseg : ∀ st ∈ seg, st.isTrackingOn k = false) :
    (emitsOf (d :: seg)).countP (Emit.isTapDownOf k) ≤ 1 := by
  obtain ⟨as, bs, _, h2⟩ := runSteps_middle nativeMaxX nativeMaxY _ acts pre (d :: seg) post hrun
  exact (lifecycle_counts nativeMaxX nativeMaxY k _ bs d seg h2 hd hseg).1

/-- Witness of C1 on the sample run: the lifecycle of slot 0 from the first
record to the step before the release sends one `tapDown`. -/
theorem tapDown_at_most_once_witness :
    demoDown.isDownOn 0 = true ∧
    (∀ st ∈ demoSeg, st.isTrackingOn 0 = false) ∧
    (emitsOf (demoDown :: demoSeg)).countP (Emit.isTapDownOf 0) ≤ 1 :=
  ⟨by decide, by decide,
    tapDown_at_most_once_per_lifecycle 1000 1000 demoActs 0 [] demoDown demoSeg
      (demoSteps.drop 7) (by rfl) (by decide) (by decide)⟩

/-- C2: in every run of the loop from the initial state, whatever the
records and the number and times of the long-press checks, within one
lifecycle of a slot `k` (the tracking-id record `d` with a value other than
-1 on the slot and the steps `seg` up to the next tracking-id record on the
slot) at most one `pressStart` is sent for the slot: once a check has sent
it, no later step of the lifecycle sends another.  The check that sends it
latches `longPressStartSent` and clears `isCheckingForLongPressStart`, and a
check at any later time `t2` leaves the latched slot as it is and sends
nothing. -/
theorem pressStart_at_most_once_per_lifecycle (nativeMaxX nativeMaxY : Int)
    (acts : List Action) (k : Nat) (pre : List Step) (d : Step) (seg post : List Step)
    (hrun : runSteps nativeMaxX nativeMaxY LoopState.init acts = pre ++ (d :: seg) ++ post)
    (hd : d.isDownOn k = true)
    (hseg : ∀ st ∈ seg, st.isTrackingOn k = false) :
    (emitsOf (d :: seg)).countP (Emit.isPressStartOf k) ≤ 1 ∧
    (∀ (seg1 : List Step) (c : Step) (seg2 : List Step), seg = seg1 ++ c :: seg2 →
      (∃ e ∈ c.emits, e.isPressStartOf k = true) →
      ∀ st ∈ seg2, ∀ e ∈ st.emits, e.isPressStartOf k = false) ∧
    (∀ (t t2 : Int) (i : Nat) (tp : TouchPoint), (longPressSlot t i tp).2 ≠ [] →
      (longPressSlot t i tp).1.longPressStartSent = true ∧
      (longPressSlot t i tp).1.isCheckingForLongPressStart = false ∧
      longPressSlot t2 i (longPressSlot t i tp).1 = ((longPressSlot t i tp).1, [])) := by
  obtain ⟨as, bs, _, h2⟩ := runSteps_middle nativeMaxX nativeMaxY _ acts pre (d :: seg) post hrun
  have hcount := (lifecycle_counts nativeMaxX nativeMaxY k _ bs d seg h2 hd hseg).2.1
  refine ⟨hcount, ?_, ?_⟩
  · intro seg1 c seg2 hsplit ⟨e, he, hpe⟩ st hst x hx
    rw [hsplit] at hcount
    simp only [emitsOf_cons, emitsOf_append, List.countP_append] at hcount
    have hc : 0 < c.emits.countP (Emit.isPressStartOf k) :=
      List.countP_pos_iff.mpr ⟨e, he, hpe⟩
    have h0 : (emitsOf seg2).countP (Emit.isPressStartOf k) = 0 := by omega
    rw [List.countP_eq_zero] at h0
    have hmem : x ∈ emitsOf seg2 := by
      simp only [emitsOf, List.mem_flatMap]
      exact ⟨st, hst, hx⟩
    simpa using h0 x hmem
  · intro t t2 i tp hne
    unfold longPressSlot at hne ⊢
    dsimp only at hne ⊢
    split_ifs at hne ⊢ <;> simp_all

/-- Witness of C2 on the sample run: the lifecycle of slot 0, with checks at
10, 160 and 170 ms. -/
theorem pressStart_at_most_once_witness :
    demoDown.isDownOn 0 = true ∧
    (∀ st ∈ demoSeg, st.isTrackingOn 0 = false) ∧
    (emitsOf (demoDown :: demoSeg)).countP (Emit.isPressStartOf 0) ≤ 1 :=
  ⟨by decide, by decide,
    (pressStart_at_most_once_per_lifecycle 1000 1000 demoActs 0 [] demoDown demoSeg
      (demoSteps.drop 7) (by rfl) (by decide) (by decide)).1⟩

/-- The step of a log after the prefix `pre`, with the state it starts from. -/
theorem runSteps_at (mx my : Int) (s0 : LoopState) (acts : List Action)
    (pre : List Step) (e : Step) (post : List Step)
    (h : runSteps mx my s0 acts = pre ++ e :: post) :
    ∃ as a, runSteps mx my s0 as = pre ∧
      e = { slot := (exec mx my s0 as).currentSlot.toNat, action := a,
            emits := (stepAction mx my (exec mx my s0 as) a).2 } := by
  obtain ⟨as, bs, _, h2, h3⟩ := runSteps_split mx my s0 acts pre (e :: post) h
  obtain ⟨a, _, _, h5, _⟩ := runSteps_cons mx my _ bs e post h3
  exact ⟨as, a, h2, h5⟩

/-- C3: in every run of the loop from the initial state, a step `e` that
sends a `pressEnd` for slot `k` is a tracking-id record with value -1 on that
slot and sends exactly one; the log before it ends with the lifecycle of the
slot that `e` closes, a tracking-id record `d` with another value on the slot
followed by steps `seg` without tracking-id record on the slot, in which a
`pressStart` of the slot was sent and no `pressEnd` of the slot was sent.  So
every `pressEnd` is preceded by the `pressStart` of its lifecycle, and a
lifecycle without `pressStart` has no `pressEnd`. -/
theorem pressEnd_only_after_pressStart (nativeMaxX nativeMaxY : Int)
    (acts : List Action) (k : Nat) (pre : List Step) (e : Step) (post : List Step)
    (hrun : runSteps nativeMaxX nativeMaxY LoopState.init acts = pre ++ e :: post)
    (hend : ∃ x ∈ e.emits, x.isPressEndOf k = true) :
    e.isReleaseOn k = true ∧
    e.emits.countP (Emit.isPressEndOf k) = 1 ∧
    ∃ (pre0 : List Step) (d : Step) (seg : List Step),
      pre = pre0 ++ d :: seg ∧ d.isDownOn k = true ∧
      (∀ st ∈ seg, st.isTrackingOn k = false) ∧
      (∃ x ∈ emitsOf seg, x.isPressStartOf k = true) ∧
      (emitsOf (d :: seg)).countP (Emit.isPressEndOf k) = 0 := by
  obtain ⟨as, a, hpre, he⟩ := runSteps_at nativeMaxX nativeMaxY _ acts pre e post hrun
  generalize hs : exec nativeMaxX nativeMaxY LoopState.init as = s at he
  obtain ⟨x, hx, hxk⟩ := hend
  have hxf : x ∈ e.emits.filter (Emit.ofSlot k) := by
    rw [List.mem_filter]
    exact ⟨hx, by simp [Emit.ofSlot, isPressEndOf_slot k x hxk]⟩
  have htr : e.isTrackingOn k = true := by
    by_contra hnt
    simp only [Bool.not_eq_true] at hnt
    rw [he] at hnt
    have h0 := (step_counts nativeMaxX nativeMaxY k s a hnt).2.2
    rw [List.countP_eq_zero] at h0
    have := h0 x (by rw [he] at hx; exact hx)
    exact this hxk
  obtain ⟨b, env, ev, ha, h1, h2, hslot⟩ := (isTrackingOn_iff k e).mp htr
  rw [he] at ha hslot
  simp only at ha hslot
  subst ha
  cases hk : s.localTouches[k]? with
  | none =>
    have := (stepAction_slot_none nativeMaxX nativeMaxY s (Action.record b env ev) k hk).2
    rw [he] at hxf
    simp only at hxf
    rw [this] at hxf
    exact absurd hxf (by simp)
  | some tp =>
    have g2 := (stepAction_slot nativeMaxX nativeMaxY s (Action.record b env ev) k tp hk).2
    rw [hslot] at g2
    have hv : ev.value = -1 := by
      by_contra hv
      have := (slotStep_down nativeMaxX nativeMaxY k s.touchDataUpdated b env ev tp h1 h2 hv).2.2.2
      rw [this] at g2
      rw [he] at hxf
      simp only at hxf
      rw [g2] at hxf
      exact absurd hxf (by simp)
    have hrel := (slotStep_release nativeMaxX nativeMaxY k s.touchDataUpdated b env ev tp
      h1 h2 hv).2
    rw [hrel] at g2
    have hflags : (tp.isDown && tp.maybeUiTap && tp.longPressStartSent) = true := by
      by_contra hf
      rw [if_neg hf] at g2
      rw [he] at hxf
      simp only at hxf
      rw [g2] at hxf
      exact absurd hxf (by simp)
    rw [if_pos hflags] at g2
    simp only [Bool.and_eq_true] at hflags
    have hist := reach_history nativeMaxX nativeMaxY k as tp (by rw [hs]; exact hk) hflags.1.1
    rw [hpre] at hist
    obtain ⟨pre0, d, seg, _, _, _, e1, _, e3, e4, _, e6⟩ := hist
    refine ⟨?_, ?_, pre0, d, seg, e1, e3, e4, e6 hflags.2, ?_⟩
    · rw [isReleaseOn_iff]
      exact ⟨b, env, ev, by rw [he], h1, h2, by rw [he]; exact hslot, hv⟩
    · rw [countP_ofSlot k _ (isPressEndOf_slot k), he]
      simp only
      rw [g2]
      simp [Emit.isPressEndOf]
    · rw [e1] at hpre
      obtain ⟨_, bs0, _, _, q⟩ := runSteps_split nativeMaxX nativeMaxY _ as pre0 (d :: seg) hpre
      exact (lifecycle_counts nativeMaxX nativeMaxY k _ bs0 d seg q e3 e4).2.2

/-- Witness of C3 on the sample run: the release of slot 0 at 170 ms sends
the `pressEnd`, after the `pressStart` of the check at 160 ms. -/
theorem pressEnd_only_after_pressStart_witness :
    (∃ x ∈ demoRelease.emits, x.isPressEndOf 0 = true) ∧
    demoRelease.isReleaseOn 0 = true ∧
    demoRelease.emits.countP (Emit.isPressEndOf 0) = 1 :=
  ⟨⟨Emit.pressEnd 0 "btn1" 110 210, by decide, by decide⟩,
    (pressEnd_only_after_pressStart 1000 1000 demoActs 0 (demoDown :: demoSeg) demoRelease
      (demoSteps.drop 8) (by rfl)
      ⟨Emit.pressEnd 0 "btn1" 110 210, by decide, by decide⟩).1,
    (pressEnd_only_after_pressStart 1000 1000 demoActs 0 (demoDown :: demoSeg) demoRelease
      (demoSteps.drop 8) (by rfl)
      ⟨Emit.pressEnd 0 "btn1" 110 210, by decide, by decide⟩).2.1⟩

/-- C4: in every run of the loop from the initial state, a step `c` that
sends `pressStart` for slot `k` with time stamp `ts` is a long-press check at
a clock reading `t` with `t - ts >= 150`, and `ts` is the reading of the
monotonic clock (`Env.nowMs`, not the time stamp of the record) taken by the
tracking-id record `d` that began the current lifecycle of the slot.  A
check at a time less than 150 ms after the `downTimestampMs` of a slot sends
nothing for that slot and leaves it unchanged. -/
theorem pressStart_not_before_delay (nativeMaxX nativeMaxY : Int)
    (acts : List Action) (k : Nat) (pre : List Step) (c : Step) (post : List Step)
    (ident : String) (x y ts : Int)
    (hrun : runSteps nativeMaxX nativeMaxY LoopState.init acts = pre ++ c :: post)
    (hmem : Emit.pressStart k ident x y ts ∈ c.emits) :
    (∃ t : Int, c.action = Action.check t ∧ t - ts ≥ 150) ∧
    (∃ (pre0 : List Step) (d : Step) (seg : List Step) (b : Bool) (env : Env)
        (ev : InputEvent),
      pre = pre0 ++ d :: seg ∧ d.action = Action.record b env ev ∧ d.isDownOn k = true ∧
      (∀ st ∈ seg, st.isTrackingOn k = false) ∧ env.nowMs = ts) ∧
    (∀ (s : LoopState) (t : Int) (j : Nat) (tp : TouchPoint),
      s.localTouches[j]? = some tp → t - tp.downTimestampMs < 150 →
      (longPressCheck t s).1.localTouches[j]? = some tp ∧
      (longPressCheck t s).2.filter (Emit.ofSlot j) = []) := by
  obtain ⟨as, a, hpre, he⟩ := runSteps_at nativeMaxX nativeMaxY _ acts pre c post hrun
  generalize hs : exec nativeMaxX nativeMaxY LoopState.init as = s at he
  have hlocal : ∀ (s : LoopState) (t : Int) (j : Nat) (tp : TouchPoint),
      s.localTouches[j]? = some tp → t - tp.downTimestampMs < 150 →
      (longPressCheck t s).1.localTouches[j]? = some tp ∧
      (longPressCheck t s).2.filter (Emit.ofSlot j) = [] := by
    intro s t j tp hj hlt
    obtain ⟨q1, q2⟩ := longPressCheck_slot t s j
    rw [hj] at q1 q2
    have hq : longPressSlot t j tp = (tp, []) := by
      unfold longPressSlot
      dsimp only
      have : ¬ (t - tp.downTimestampMs ≥ LONG_PRESS_START_DELAY_MS) := by
        unfold LONG_PRESS_START_DELAY_MS
        omega
      rw [if_neg this]
      split_ifs <;> rfl
    rw [q1, q2]
    simp only [Option.map_some', hq]
    exact ⟨trivial, trivial⟩
  have hnt : Step.isTrackingOn k c = false := by
    by_contra htr
    simp only [Bool.not_eq_false] at htr
    obtain ⟨b, env, ev, ha, h1, h2, _⟩ := (isTrackingOn_iff k c).mp htr
    rw [he] at ha hmem
    simp only at ha hmem
    subst ha
    obtain ⟨_, _, _, hq⟩ := tracking_emits nativeMaxX nativeMaxY s b env ev h1 h2 _ hmem
    exact absurd hq (by simp)
  have hxf : Emit.pressStart k ident x y ts ∈ c.emits.filter (Emit.ofSlot k) := by
    rw [List.mem_filter]
    exact ⟨hmem, by simp [Emit.ofSlot, Emit.slot?]⟩
  rw [he] at hnt hxf
  simp only at hxf
  cases hk : s.localTouches[k]? with
  | none =>
    rw [(stepAction_slot_none nativeMaxX nativeMaxY s a k hk).2] at hxf
    exact absurd hxf (by simp)
  | some tp =>
    rw [(stepAction_slot nativeMaxX nativeMaxY s a k tp hk).2] at hxf
    obtain ⟨_, _, hc⟩ :=
      slotStep_other nativeMaxX nativeMaxY k s.currentSlot.toNat s.touchDataUpdated a tp _ hnt
    rcases hc with ⟨q, _⟩ | ⟨_, _, _, q, _⟩ | ⟨t, ha, q, hdown, _, _, _, _, hge⟩
    · rw [q] at hxf
      exact absurd hxf (by simp)
    · rw [q] at hxf
      exact absurd hxf (by simp)
    · rw [q] at hxf
      simp only [List.mem_singleton, Emit.pressStart.injEq, true_and] at hxf
      obtain ⟨_, _, _, hts⟩ := hxf
      have hist := reach_history nativeMaxX nativeMaxY k as tp (by rw [hs]; exact hk) hdown
      rw [hpre] at hist
      obtain ⟨pre0, d, seg, b, env, ev, e1, e2, e3, e4, e5, _⟩ := hist
      refine ⟨⟨t, by rw [he]; exact ha, ?_⟩, ⟨pre0, d, seg, b, env, ev, e1, e2, e3, e4, ?_⟩,
        hlocal⟩
      · rw [hts]
        unfold LONG_PRESS_START_DELAY_MS at hge
        exact hge
      · rw [hts]
        exact e5

/-- Witness of C4 on the sample run: the `pressStart` of slot 0 is sent by the
check at 160 ms, for the touch that began at clock reading 0. -/
theorem pressStart_not_before_delay_witness :
    Emit.pressStart 0 "btn1" 110 210 0 ∈ demoFire.emits ∧
    (∃ t : Int, demoFire.action = Action.check t ∧ t - 0 ≥ 150) :=
  ⟨by decide,
    (pressStart_not_before_delay 1000 1000 demoActs 0 (demoSteps.take 5) demoFire
      (demoSteps.drop 6) "btn1" 110 210 0 (by rfl) (by decide)).1⟩

/-! ## The long-press check and the passes without data -/

/-- A pass whose `poll` times out ends at the `continue` of line 148: state
unchanged, no call, whatever the clock reads. -/
theorem loopPass_timeout (P : Platform) (mx my : Int) (inp : PassInput) (s : LoopState)
    (h : inp.pollRet = 0) : loopPass P mx my inp s = (s, [], PassEnd.again) := by
  unfold loopPass
  rw [h]
  simp

/-- C5 (evaluation of the code): in the state `demoHeld` slot 0 is down, a
tap candidate, awaiting its long press and not yet signaled, and at clock
reading 200 it is down for at least 150 ms, so the long-press check of lines
448-464 would send `pressStart`; but a pass whose `poll` times out, and a pass
whose `read` answers "would block", leave the loop body at a `continue`
before the check: they send nothing and keep the state, on every platform and
whatever the clock reads.  When the finger is held still (passes without data
only) and lifted at 1000 ms, the release record is handled before the check of
its pass, so neither `pressStart` nor `pressEnd` is ever sent for the touch. -/
theorem longPress_check_skipped_without_data :
    (∃ tp, demoHeld.localTouches[0]? = some tp ∧ tp.isDown = true ∧ tp.maybeUiTap = true ∧
      tp.isCheckingForLongPressStart = true ∧ tp.longPressStartSent = false ∧
      200 - tp.downTimestampMs ≥ 150) ∧
    (longPressCheck 200 demoHeld).2 = [Emit.pressStart 0 "btn1" 110 210 0] ∧
    (∀ (P : Platform) (t : Int), loopPass P 1000 1000 { pollRet := 0, checkTimeMs := t }
      demoHeld = (demoHeld, [], PassEnd.again)) ∧
    (∀ (P : Platform) (t : Int), loopPass P 1000 1000
      { pollRet := 1, revents := POLLIN, read := Except.error EAGAIN, checkTimeMs := t }
      demoHeld = (demoHeld, [], PassEnd.again)) ∧
    emitsOf (runSteps 1000 1000 demoHeld
      [demoRecord 1000 EV_ABS ABS_MT_TRACKING_ID (-1), demoRecord 1000 EV_SYN SYN_REPORT 0,
        Action.check 1000]) = [] := by
  refine ⟨⟨_, rfl, by decide, by decide, by decide, by decide, by decide⟩, by decide, ?_, ?_,
    by decide⟩
  · intro P t
    exact loopPass_timeout P 1000 1000 _ demoHeld rfl
  · intro P t
    unfold loopPass
    simp [POLLIN, POLLERR, POLLHUP, POLLNVAL, EAGAIN]

/-! ## Coordinate mapping -/

/-- The body of the report loop for a live slot, with the mapped point
`(ax, ay)` of lines 391-397 named. -/
theorem reportSlot_live (mx my : Int) (env : Env) (i : Nat) (tp : TouchPoint) (d : String)
    (n : Nat) (hid : tp.id ≠ -1) (ax ay : Int)
    (hax : (if my > 0 then (tp.y * env.g_screenWidthPx).tdiv my else tp.y)
      - env.g_screenLeftOffsetPx = ax)
    (hay : (if mx > 0 then ((mx - tp.x) * env.g_screenHeightPx).tdiv mx else (mx - tp.x))
      - env.g_screenTopOffsetPx = ay) :
    (∀ e ∈ (reportSlot mx my env i tp d n).2.1, ∃ ident, e = Emit.tapDown i ident ax ay) ∧
    (tp.isDown = true → tp.maybeUiTap = false →
      (reportSlot mx my env i tp d n).1.downX = ax ∧
      (reportSlot mx my env i tp d n).1.downY = ay ∧
      (reportSlot mx my env i tp d n).1.maybeUiTap =
        (regionLoop ax ay env.g_clickableRegions).isSome ∧
      ∀ r, regionLoop ax ay env.g_clickableRegions = some r →
        (reportSlot mx my env i tp d n).1.downRegionIdentifier = r.identifier ∧
        (reportSlot mx my env i tp d n).2.1 = [Emit.tapDown i r.identifier ax ay]) ∧
    (tp.isDown = true → tp.maybeUiTap = false →
      regionLoop ax ay env.g_clickableRegions = none →
        (reportSlot mx my env i tp d n).2.1 = []) ∧
    (tp.uiTapHandled = false →
      (reportSlot mx my env i tp d n).2.2.1 =
        d ++ ("|" ++ toString tp.id ++ "," ++ toString ax ++ "," ++ toString ay)) := by
  unfold reportSlot
  dsimp only
  rw [hax, hay, if_pos hid]
  by_cases hc : (tp.isDown && !tp.maybeUiTap) = true
  · rw [if_pos hc]
    cases hreg : regionLoop ax ay env.g_clickableRegions with
    | none =>
      dsimp only
      refine ⟨?_, ?_, ?_, ?_⟩
      · intro e he
        split_ifs at he <;> simp at he
      · intro _ _
        refine ⟨?_, ?_, ?_, ?_⟩
        · split_ifs <;> rfl
        · split_ifs <;> rfl
        · split_ifs <;> simp_all
        · intro r hr
          exact absurd hr (by simp)
      · intro _ _ _
        split_ifs <;> rfl
      · intro hh
        simp [hh]
    | some region =>
      dsimp only
      refine ⟨?_, ?_, ?_, ?_⟩
      · intro e he
        split_ifs at he <;> simp at he <;> exact ⟨_, he⟩
      · intro _ _
        refine ⟨?_, ?_, ?_, ?_⟩
        · split_ifs <;> rfl
        · split_ifs <;> rfl
        · split_ifs <;> rfl
        · intro r hr
          simp only [Option.some.injEq] at hr
          subst hr
          constructor <;> split_ifs <;> rfl
      · intro _ _ h
        exact absurd h (by simp)
      · intro hh
        simp [hh]
  · rw [if_neg hc]
    refine ⟨?_, ?_, ?_, ?_⟩
    · intro e he
      split_ifs at he <;> simp at he
    · intro h1 h2
      exact absurd (by simp [h1, h2]) hc
    · intro h1 h2
      exact absurd (by simp [h1, h2]) hc
    · intro hh
      simp [hh]

/-- The `pressEnd` of a release, with the mapped point of lines 332-338 named. -/
theorem release_emits (mx my : Int) (env : Env) (s : LoopState) (b : Bool) (ev : InputEvent)
    (h1 : ev.type = EV_ABS) (h2 : ev.code = ABS_MT_TRACKING_ID) (h3 : ev.value = -1)
    (tp : TouchPoint) (htp : s.localTouches.getD s.currentSlot.toNat {} = tp) (ax ay : Int)
    (hax : (if my > 0 then (tp.y * env.g_screenWidthPx).tdiv my else tp.y)
      - env.g_screenLeftOffsetPx = ax)
    (hay : (if mx > 0 then ((mx - tp.x) * env.g_screenHeightPx).tdiv mx else (mx - tp.x))
      - env.g_screenTopOffsetPx = ay) :
    (stepAction mx my s (Action.record b env ev)).2 =
      if tp.isDown && tp.maybeUiTap && tp.longPressStartSent then
        [Emit.pressEnd s.currentSlot.toNat tp.downRegionIdentifier ax ay]
      else [] := by
  have hne : ¬ (ABS_MT_TRACKING_ID = ABS_MT_SLOT) := by decide
  rw [stepAction_record]
  unfold handleEvent
  simp only [h1, h2, h3, hne, if_true, if_false, htp, hax, hay]
  by_cases hd : tp.isDown = true <;> by_cases hm : tp.maybeUiTap = true <;>
    by_cases hs : tp.longPressStartSent = true <;> simp [hd, hm, hs]

/-- C6: for calibration maxima `nativeMaxX > 0` and `nativeMaxY > 0` and any
screen geometry, the point computed by the code from a native sample
`(tp.x, tp.y)` is `coordinateMapper` of the specification:
`screenX = (y * width) / maxY - leftOffset` and
`screenY = ((maxX - x) * height) / maxX - topOffset`, product first, division
truncating toward zero, on unbounded integers.  It is a function of these
inputs only, and it is the point used at the report boundary (the `tapDown`,
the recorded `downX, downY` and the group of the raw packet, in both copies
of the handler) and at the release (the `pressEnd`, in both copies). -/
theorem coordinate_mapping_formula (nativeMaxX nativeMaxY : Int) (env : Env)
    (hX : 0 < nativeMaxX) (hY : 0 < nativeMaxY) :
    (∀ tp : TouchPoint, screenPoint nativeMaxX nativeMaxY env tp =
      ((tp.y * env.g_screenWidthPx).tdiv nativeMaxY - env.g_screenLeftOffsetPx,
       ((nativeMaxX - tp.x) * env.g_screenHeightPx).tdiv nativeMaxX
         - env.g_screenTopOffsetPx)) ∧
    (∀ (i : Nat) (tp : TouchPoint) (d : String) (n : Nat), tp.id ≠ -1 →
      (∀ e ∈ (reportSlot nativeMaxX nativeMaxY env i tp d n).2.1,
        ∃ ident, e = Emit.tapDown i ident (screenPoint nativeMaxX nativeMaxY env tp).1
          (screenPoint nativeMaxX nativeMaxY env tp).2) ∧
      (tp.isDown = true → tp.maybeUiTap = false →
        (reportSlot nativeMaxX nativeMaxY env i tp d n).1.downX
          = (screenPoint nativeMaxX nativeMaxY env tp).1 ∧
        (reportSlot nativeMaxX nativeMaxY env i tp d n).1.downY
          = (screenPoint nativeMaxX nativeMaxY env tp).2) ∧
      (tp.uiTapHandled = false →
        (reportSlot nativeMaxX nativeMaxY env i tp d n).2.2.1 =
          d ++ ("|" ++ toString tp.id ++ ","
            ++ toString (screenPoint nativeMaxX nativeMaxY env tp).1 ++ ","
            ++ toString (screenPoint nativeMaxX nativeMaxY env tp).2))) ∧
    (∀ (i : Nat) (tp : TouchPoint) (d : String) (n : Nat),
      reportSlotLeftover nativeMaxX nativeMaxY env i tp d n
        = reportSlot nativeMaxX nativeMaxY env i tp d n) ∧
    (∀ (s : LoopState) (viaLeftover : Bool) (ev : InputEvent),
      ev.type = EV_ABS → ev.code = ABS_MT_TRACKING_ID → ev.value = -1 →
      ∀ e ∈ (stepAction nativeMaxX nativeMaxY s (Action.record viaLeftover env ev)).2,
        e = Emit.pressEnd s.currentSlot.toNat
          (s.localTouches.getD s.currentSlot.toNat {}).downRegionIdentifier
          (screenPoint nativeMaxX nativeMaxY env
            (s.localTouches.getD s.currentSlot.toNat {})).1
          (screenPoint nativeMaxX nativeMaxY env
            (s.localTouches.getD s.currentSlot.toNat {})).2) := by
  have hpt : ∀ tp : TouchPoint,
      (if nativeMaxY > 0 then (tp.y * env.g_screenWidthPx).tdiv nativeMaxY else tp.y)
        - env.g_screenLeftOffsetPx = (screenPoint nativeMaxX nativeMaxY env tp).1 ∧
      (if nativeMaxX > 0 then ((nativeMaxX - tp.x) * env.g_screenHeightPx).tdiv nativeMaxX
        else (nativeMaxX - tp.x)) - env.g_screenTopOffsetPx
        = (screenPoint nativeMaxX nativeMaxY env tp).2 := by
    intro tp
    simp only [screenPoint, coordinateMapper, gt_iff_lt, hX, hY, if_true]
    exact ⟨trivial, trivial⟩
  refine ⟨fun tp => rfl, ?_, reportSlotLeftover_eq nativeMaxX nativeMaxY env, ?_⟩
  · intro i tp d n hid
    obtain ⟨q1, q2, _, q4⟩ := reportSlot_live nativeMaxX nativeMaxY env i tp d n hid _ _
      (hpt tp).1 (hpt tp).2
    exact ⟨q1, fun h1 h2 => ⟨(q2 h1 h2).1, (q2 h1 h2).2.1⟩, q4⟩
  · intro s b ev h1 h2 h3 e he
    rw [release_emits nativeMaxX nativeMaxY env s b ev h1 h2 h3 _ rfl _ _
      (hpt _).1 (hpt _).2] at he
    split_ifs at he
    · exact List.mem_singleton.mp he
    · exact absurd he (List.not_mem_nil _)

/-- Witness of C6: maxima 1000 and 2000, a 1080 x 2400 screen with offsets
top 50 and left 10, and the sample (1003, 500): `500 * 1080 / 2000 - 10 = 260`
and `(1000 - 1003) * 2400 / 1000 - 50 = -7 - 50` (the quotient of -7200 by
1000 is truncated toward zero). -/
theorem coordinate_mapping_formula_witness :
    (0 : Int) < 1000 ∧ (0 : Int) < 2000 ∧
    screenPoint 1000 2000
      { g_screenWidthPx := 1080, g_screenHeightPx := 2400, g_screenTopOffsetPx := 50,
        g_screenLeftOffsetPx := 10 }
      { x := 1003, y := 500 } = (260, -57) :=
  ⟨by decide, by decide,
    ((coordinate_mapping_formula 1000 2000
      { g_screenWidthPx := 1080, g_screenHeightPx := 2400, g_screenTopOffsetPx := 50,
        g_screenLeftOffsetPx := 10 } (by decide) (by decide)).1 { x := 1003, y := 500 }).trans
      (by decide)⟩

/-- C7: the mapping never divides by zero.  With the divisions of lines
391-397 made explicit (`adjustedChecked`), for every calibration, geometry
and sample a point `(sx, sy)` results; when `nativeMaxY <= 0` then
`sx = y - leftOffset`, when `nativeMaxX <= 0` then
`sy = (maxX - x) - topOffset`, each axis being scaled exactly when its own
maximum is positive, whatever the other maximum; and `(sx, sy)` is the point
the handlers use at the report boundary and at the release. -/
theorem mapping_never_divides_by_zero (nativeMaxX nativeMaxY : Int) (env : Env)
    (tp : TouchPoint) :
    ∃ sx sy : Int, adjustedChecked nativeMaxX nativeMaxY env tp = some (sx, sy) ∧
      (nativeMaxY ≤ 0 → sx = tp.y - env.g_screenLeftOffsetPx) ∧
      (nativeMaxX ≤ 0 → sy = (nativeMaxX - tp.x) - env.g_screenTopOffsetPx) ∧
      (0 < nativeMaxY →
        sx = (tp.y * env.g_screenWidthPx).tdiv nativeMaxY - env.g_screenLeftOffsetPx) ∧
      (0 < nativeMaxX →
        sy = ((nativeMaxX - tp.x) * env.g_screenHeightPx).tdiv nativeMaxX
          - env.g_screenTopOffsetPx) ∧
      (∀ (i : Nat) (d : String) (n : Nat), tp.id ≠ -1 → tp.uiTapHandled = false →
        (reportSlot nativeMaxX nativeMaxY env i tp d n).2.2.1 =
          d ++ ("|" ++ toString tp.id ++ "," ++ toString sx ++ "," ++ toString sy)) ∧
      (∀ (s : LoopState) (viaLeftover : Bool) (ev : InputEvent),
        ev.type = EV_ABS → ev.code = ABS_MT_TRACKING_ID → ev.value = -1 →
        s.localTouches.getD s.currentSlot.toNat {} = tp →
        (stepAction nativeMaxX nativeMaxY s (Action.record viaLeftover env ev)).2 =
          if tp.isDown && tp.maybeUiTap && tp.longPressStartSent then
            [Emit.pressEnd s.currentSlot.toNat tp.downRegionIdentifier sx sy]
          else []) := by
  refine ⟨(if nativeMaxY > 0 then (tp.y * env.g_screenWidthPx).tdiv nativeMaxY else tp.y)
      - env.g_screenLeftOffsetPx,
    (if nativeMaxX > 0 then ((nativeMaxX - tp.x) * env.g_screenHeightPx).tdiv nativeMaxX
      else (nativeMaxX - tp.x)) - env.g_screenTopOffsetPx, ?_, ?_, ?_, ?_, ?_, ?_, ?_⟩
  · unfold adjustedChecked cDiv
    by_cases hy : nativeMaxY > 0 <;> by_cases hx : nativeMaxX > 0
    · have h1 : nativeMaxY ≠ 0 := by omega
      have h2 : nativeMaxX ≠ 0 := by omega
      simp [hy, hx, h1, h2]
    · have h1 : nativeMaxY ≠ 0 := by omega
      simp [hy, hx, h1]
    · have h2 : nativeMaxX ≠ 0 := by omega
      simp [hy, hx, h2]
    · simp [hy, hx]
  · intro h
    have : ¬ nativeMaxY > 0 := by omega
    rw [if_neg this]
  · intro h
    have : ¬ nativeMaxX > 0 := by omega
    rw [if_neg this]
  · intro h
    rw [if_pos h]
  · intro h
    rw [if_pos h]
  · intro i d n hid hh
    exact (reportSlot_live nativeMaxX nativeMaxY env i tp d n hid _ _ rfl rfl).2.2.2 hh
  · intro s b ev h1 h2 h3 htp
    exact release_emits nativeMaxX nativeMaxY env s b ev h1 h2 h3 tp htp _ _ rfl rfl

/-! ## Region matching -/

/-- The region loop returns the first region of the list that contains the
point. -/
theorem regionLoop_eq_some (px py : Int) (regions : List ClickableRegion)
    (r : ClickableRegion) :
    regionLoop px py regions = some r ↔
      ∃ pre post, regions = pre ++ r :: post ∧ r.contains px py ∧
        ∀ q ∈ pre, ¬ q.contains px py := by
  induction regions with
  | nil => simp [regionLoop]
  | cons q rest ih =>
    unfold regionLoop
    by_cases hq : q.contains px py
    · have hq2 : px ≥ q.left ∧ px < q.left + q.width ∧ py ≥ q.top ∧ py < q.top + q.height := hq
      rw [if_pos hq2]
      constructor
      · intro h
        simp only [Option.some.injEq] at h
        subst h
        exact ⟨[], rest, rfl, hq, by simp⟩
      · rintro ⟨pre, post, e, hr, hpre⟩
        cases pre with
        | nil =>
          simp only [List.nil_append, List.cons.injEq] at e
          rw [e.1]
        | cons p pre =>
          simp only [List.cons_append, List.cons.injEq] at e
          exact absurd (e.1 ▸ hq) (hpre p (by simp))
    · have hq2 : ¬ (px ≥ q.left ∧ px < q.left + q.width ∧ py ≥ q.top ∧ py < q.top + q.height) :=
        hq
      rw [if_neg hq2, ih]
      constructor
      · rintro ⟨pre, post, e, hr, hpre⟩
        refine ⟨q :: pre, post, by rw [e]; rfl, hr, ?_⟩
        intro p hp
        rcases List.mem_cons.mp hp with h | h
        · rw [h]; exact hq
        · exact hpre p h
      · rintro ⟨pre, post, e, hr, hpre⟩
        cases pre with
        | nil =>
          simp only [List.nil_append, List.cons.injEq] at e
          exact absurd (e.1 ▸ hr) hq
        | cons p pre =>
          simp only [List.cons_append, List.cons.injEq] at e
          exact ⟨pre, post, e.2, hr, fun x hx => hpre x (by simp [hx])⟩

/-- The region loop finds a region exactly when some region of the list
contains the point. -/
theorem regionLoop_isSome (px py : Int) (regions : List ClickableRegion) :
    (regionLoop px py regions).isSome = true ↔ ∃ q ∈ regions, q.contains px py := by
  induction regions with
  | nil => simp [regionLoop]
  | cons q rest ih =>
    unfold regionLoop
    by_cases hq : q.contains px py
    · have hq2 : px ≥ q.left ∧ px < q.left + q.width ∧ py ≥ q.top ∧ py < q.top + q.height := hq
      rw [if_pos hq2]
      simp only [Option.isSome_some, true_iff]
      exact ⟨q, by simp, hq⟩
    · have hq2 : ¬ (px ≥ q.left ∧ px < q.left + q.width ∧ py ≥ q.top ∧ py < q.top + q.height) :=
        hq
      rw [if_neg hq2, ih]
      constructor
      · rintro ⟨p, hp, h⟩
        exact ⟨p, by simp [hp], h⟩
      · rintro ⟨p, hp, h⟩
        rcases List.mem_cons.mp hp with e | e
        · exact absurd (e ▸ h) hq
        · exact ⟨p, e, h⟩

/-- C8: the hit test of lines 403-406 accepts a point `(px, py)` for a region
exactly when `left <= px < left + width` and `top <= py < top + height`: a
point with `px = left + width` or with `py = top + height` is rejected, and
the corner `(left, top)` is accepted when width and height are positive.  At
a report boundary, a live slot that is down and not yet a candidate sends a
`tapDown` exactly when some region of the list accepts its mapped point (the
`downX, downY` recorded at that boundary). -/
theorem hit_test_half_open (r : ClickableRegion) (px py : Int) :
    (regionLoop px py [r] = some r ↔
      (r.left ≤ px ∧ px < r.left + r.width ∧ r.top ≤ py ∧ py < r.top + r.height)) ∧
    (regionLoop px py [r] = none ↔
      ¬ (r.left ≤ px ∧ px < r.left + r.width ∧ r.top ≤ py ∧ py < r.top + r.height)) ∧
    (px = r.left + r.width → regionLoop px py [r] = none) ∧
    (py = r.top + r.height → regionLoop px py [r] = none) ∧
    (0 < r.width → 0 < r.height → regionLoop r.left r.top [r] = some r) ∧
    (∀ (nativeMaxX nativeMaxY : Int) (env : Env) (i : Nat) (tp : TouchPoint) (d : String)
        (n : Nat), tp.id ≠ -1 → tp.isDown = true → tp.maybeUiTap = false →
      ((∃ e ∈ (reportSlot nativeMaxX nativeMaxY env i tp d n).2.1, e.isTapDownOf i = true) ↔
        ∃ q ∈ env.g_clickableRegions,
          q.left ≤ (reportSlot nativeMaxX nativeMaxY env i tp d n).1.downX ∧
          (reportSlot nativeMaxX nativeMaxY env i tp d n).1.downX < q.left + q.width ∧
          q.top ≤ (reportSlot nativeMaxX nativeMaxY env i tp d n).1.downY ∧
          (reportSlot nativeMaxX nativeMaxY env i tp d n).1.downY < q.top + q.height)) := by
  have hone : ∀ (x y : Int), regionLoop x y [r] =
      if x ≥ r.left ∧ x < r.left + r.width ∧ y ≥ r.top ∧ y < r.top + r.height then some r
      else none := by
    intro x y
    simp only [regionLoop]
  refine ⟨?_, ?_, ?_, ?_, ?_, ?_⟩
  · rw [hone]
    constructor
    · intro h
      by_contra hc
      rw [if_neg hc] at h
      exact absurd h (by simp)
    · intro h
      rw [if_pos h]
  · rw [hone]
    constructor
    · intro h hc
      rw [if_pos hc] at h
      exact absurd h (by simp)
    · intro h
      rw [if_neg h]
  · intro h
    rw [hone, if_neg]
    omega
  · intro h
    rw [hone, if_neg]
    omega
  · intro hw hh
    rw [hone, if_pos]
    omega
  · intro mx my env i tp d n hid hdown hcand
    obtain ⟨_, q2, q3, _⟩ := reportSlot_live mx my env i tp d n hid _ _ rfl rfl
    obtain ⟨e1, e2, _, e4⟩ := q2 hdown hcand
    rw [e1, e2]
    have key := regionLoop_isSome
      ((if my > 0 then (tp.y * env.g_screenWidthPx).tdiv my else tp.y)
        - env.g_screenLeftOffsetPx)
      ((if mx > 0 then ((mx - tp.x) * env.g_screenHeightPx).tdiv mx else (mx - tp.x))
        - env.g_screenTopOffsetPx) env.g_clickableRegions
    unfold ClickableRegion.contains at key
    rw [← key]
    cases hreg : regionLoop
      ((if my > 0 then (tp.y * env.g_screenWidthPx).tdiv my else tp.y)
        - env.g_screenLeftOffsetPx)
      ((if mx > 0 then ((mx - tp.x) * env.g_screenHeightPx).tdiv mx else (mx - tp.x))
        - env.g_screenTopOffsetPx) env.g_clickableRegions with
    | none =>
      rw [q3 hdown hcand hreg]
      simp
    | some q =>
      rw [(e4 q hreg).2]
      simp [Emit.isTapDownOf]

/-- C9: for every region list and point, the region found by the loop of
lines 402-417 is the first of the list, in list order, that contains the
point: the list splits as `pre ++ r :: post` with no region of `pre`
containing the point, whatever the areas, distances and identifiers.  The
loop finds a region whenever some region contains the point, and its result
is a function of the list and the point.  At a report boundary the region
found for a live, down, non-candidate slot is the one whose identifier is
recorded in `downRegionIdentifier` and carried by the single `tapDown`. -/
theorem first_containing_region_wins (regions : List ClickableRegion) (px py : Int) :
    (∀ r, regionLoop px py regions = some r ↔
      ∃ pre post, regions = pre ++ r :: post ∧ r.contains px py ∧
        ∀ q ∈ pre, ¬ q.contains px py) ∧
    ((∃ q ∈ regions, q.contains px py) → ∃ r, regionLoop px py regions = some r) ∧
    (∀ (nativeMaxX nativeMaxY : Int) (env : Env) (i : Nat) (tp : TouchPoint) (d : String)
        (n : Nat) (pre post : List ClickableRegion) (r : ClickableRegion),
      tp.id ≠ -1 → tp.isDown = true → tp.maybeUiTap = false →
      env.g_clickableRegions = pre ++ r :: post →
      r.contains (reportSlot nativeMaxX nativeMaxY env i tp d n).1.downX
        (reportSlot nativeMaxX nativeMaxY env i tp d n).1.downY →
      (∀ q ∈ pre, ¬ q.contains (reportSlot nativeMaxX nativeMaxY env i tp d n).1.downX
        (reportSlot nativeMaxX nativeMaxY env i tp d n).1.downY) →
      (reportSlot nativeMaxX nativeMaxY env i tp d n).1.downRegionIdentifier = r.identifier ∧
      (reportSlot nativeMaxX nativeMaxY env i tp d n).2.1 =
        [Emit.tapDown i r.identifier (reportSlot nativeMaxX nativeMaxY env i tp d n).1.downX
          (reportSlot nativeMaxX nativeMaxY env i tp d n).1.downY]) := by
  refine ⟨fun r => regionLoop_eq_some px py regions r, ?_, ?_⟩
  · intro h
    have := (regionLoop_isSome px py regions).mpr h
    exact Option.isSome_iff_exists.mp this
  · intro mx my env i tp d n pre post r hid hdown hcand hsplit hr hpre
    obtain ⟨_, q2, _, _⟩ := reportSlot_live mx my env i tp d n hid _ _ rfl rfl
    obtain ⟨e1, e2, _, e4⟩ := q2 hdown hcand
    rw [e1, e2] at hr hpre ⊢
    have hfound := (regionLoop_eq_some _ _ env.g_clickableRegions r).mpr
      ⟨pre, post, hsplit, hr, hpre⟩
    exact e4 r hfound

/-! ## Region update -/

theorem toInt32_of_range (n : Int) (h1 : -2147483648 ≤ n) (h2 : n < 2147483648) :
    toInt32 n = n := by
  unfold toInt32
  omega

theorem valueInt_typed (fields : List (String × Json)) (key : String)
    (h : intFieldTyped fields key) :
    (Json.obj fields).valueInt key 0 = Except.ok (entryInt fields key) := by
  unfold Json.valueInt entryInt
  cases hl : fields.lookup key with
  | none => simp only [hl]
  | some v =>
    obtain ⟨n, hv, h1, h2⟩ := h v hl
    subst hv
    simp only [hl, toInt32_of_range n h1 h2]

theorem valueString_typed (fields : List (String × Json)) (key : String)
    (h : ∀ v, fields.lookup key = some v → ∃ s, v = Json.str s) :
    (Json.obj fields).valueString key "" = Except.ok (entryString fields key) := by
  unfold Json.valueString entryString
  cases hl : fields.lookup key with
  | none => simp only [hl]
  | some v =>
    obtain ⟨t, hv⟩ := h v hl
    subst hv
    simp only [hl]

theorem regionsLoop_typed (items : List Json) (acc : List ClickableRegion)
    (h : ∀ item ∈ items, wellTypedEntry item) :
    regionsLoop items acc = Except.ok (acc ++ items.filterMap entryRegion) := by
  induction items generalizing acc with
  | nil => simp [regionsLoop]
  | cons item rest ih =>
    have hrest : ∀ it ∈ rest, wellTypedEntry it := fun it hit => h it (by simp [hit])
    have hitem := h item (by simp)
    cases item with
    | obj fields =>
      obtain ⟨w1, w2, w3, w4, w5⟩ := hitem
      unfold regionsLoop
      simp only [valueString_typed fields "identifier" w1, valueInt_typed fields _ w2,
        valueInt_typed fields _ w3, valueInt_typed fields _ w4, valueInt_typed fields _ w5]
      by_cases hv : entryString fields "identifier" ≠ "" ∧ entryInt fields "widthPx" > 0 ∧
          entryInt fields "heightPx" > 0
      · rw [if_pos hv, ih _ hrest]
        simp [List.filterMap_cons, entryRegion, hv]
      · rw [if_neg hv, ih _ hrest]
        simp [List.filterMap_cons, entryRegion, hv]
    | null => simp [regionsLoop, ih _ hrest, entryRegion]
    | bool b => simp [regionsLoop, ih _ hrest, entryRegion]
    | num n => simp [regionsLoop, ih _ hrest, entryRegion]
    | str t => simp [regionsLoop, ih _ hrest, entryRegion]
    | arr xs => simp [regionsLoop, ih _ hrest, entryRegion]

/-- C10: when the payload of a region update decodes to an array of
well-typed entries, the region list after the update is exactly the list, in
payload order, of the regions of the valid entries (object entries with
non-empty identifier, `widthPx > 0` and `heightPx > 0`, absent fields being
the empty string and 0; entries that are no object are skipped): every valid
entry is kept whatever its siblings are, the previous list `old` plays no
part, and an array without valid entry gives the empty list. -/
theorem region_update_keeps_valid_entries (parse : String → Except JsonError Json)
    (jsonStr : String) (items : List Json) (old : List ClickableRegion)
    (hparse : parse jsonStr = Except.ok (Json.arr items))
    (htyped : ∀ item ∈ items, wellTypedEntry item) :
    nativeUpdateClickableRegions parse (some jsonStr) old = items.filterMap entryRegion ∧
    (∀ item ∈ items, ∀ r, entryRegion item = some r →
      r ∈ nativeUpdateClickableRegions parse (some jsonStr) old) ∧
    ((∀ item ∈ items, entryRegion item = none) →
      nativeUpdateClickableRegions parse (some jsonStr) old = []) := by
  have hmain : nativeUpdateClickableRegions parse (some jsonStr) old
      = items.filterMap entryRegion := by
    unfold nativeUpdateClickableRegions
    simp only [hparse, regionsLoop_typed items [] htyped, List.nil_append]
  refine ⟨hmain, ?_, ?_⟩
  · intro item hitem r hr
    rw [hmain, List.mem_filterMap]
    exact ⟨item, hitem, hr⟩
  · intro hnone
    rw [hmain, List.filterMap_eq_nil_iff]
    exact hnone

theorem demoItems_typed : ∀ item ∈ demoItems, wellTypedEntry item := by
  intro item hitem
  simp only [demoItems, List.mem_cons, List.mem_singleton, List.not_mem_nil, or_false] at hitem
  rcases hitem with h | h | h | h | h <;> subst h <;>
    simp [wellTypedEntry, intFieldTyped, List.lookup]

/-- Witness of C10: the sample payload replaces a previous list of one
region by its two valid entries, in payload order. -/
theorem region_update_keeps_valid_entries_witness :
    (∀ item ∈ demoItems, wellTypedEntry item) ∧
    nativeUpdateClickableRegions (fun _ => Except.ok (Json.arr demoItems)) (some "payload")
      [demoRegion] =
      [{ identifier := "btn1", left := 100, top := 200, width := 50, height := 50 },
       { identifier := "btn2", left := 0, top := 0, width := 7, height := 9 }] :=
  ⟨demoItems_typed,
    ((region_update_keeps_valid_entries (fun _ => Except.ok (Json.arr demoItems)) "payload"
      demoItems [demoRegion] rfl demoItems_typed).1).trans (by decide)⟩

/-! ## Rejected region updates -/

theorem valueString_wrong (fields : List (String × Json)) (key dflt : String) (v : Json)
    (h : fields.lookup key = some v) (hv : ∀ s, v ≠ Json.str s) :
    (Json.obj fields).valueString key dflt = Except.error JsonError.type_error := by
  unfold Json.valueString
  simp only [h]

theorem valueInt_wrong (fields : List (String × Json)) (key : String) (dflt : Int) (v : Json)
    (h : fields.lookup key = some v) (hn : ∀ n, v ≠ Json.num n) (hb : ∀ b, v ≠ Json.bool b) :
    (Json.obj fields).valueInt key dflt = Except.error JsonError.type_error := by
  unfold Json.valueInt
  simp only [h]

/-- An object entry with a wrongly typed field ends the loop with an error,
whatever was collected before it. -/
theorem regionsLoop_wrong_head (fields : List (String × Json)) (post : List Json)
    (acc : List ClickableRegion) (h : wronglyTyped fields) :
    ∃ e, regionsLoop (Json.obj fields :: post) acc = Except.error e := by
  unfold regionsLoop
  dsimp only
  cases h1 : (Json.obj fields).valueString "identifier" "" with
  | error e => exact ⟨e, rfl⟩
  | ok ident =>
    dsimp only
    cases h2 : (Json.obj fields).valueInt "leftPx" 0 with
    | error e => exact ⟨e, rfl⟩
    | ok l =>
      dsimp only
      cases h3 : (Json.obj fields).valueInt "topPx" 0 with
      | error e => exact ⟨e, rfl⟩
      | ok t =>
        dsimp only
        cases h4 : (Json.obj fields).valueInt "widthPx" 0 with
        | error e => exact ⟨e, rfl⟩
        | ok w =>
          dsimp only
          cases h5 : (Json.obj fields).valueInt "heightPx" 0 with
          | error e => exact ⟨e, rfl⟩
          | ok ht =>
            exfalso
            rcases h with ⟨v, hl, hv⟩ | ⟨key, hkey, v, hl, hn, hb⟩
            · rw [valueString_wrong fields _ _ v hl hv] at h1
              exact absurd h1 (by simp)
            · simp only [List.mem_cons, List.mem_singleton, List.not_mem_nil, or_false] at hkey
              rcases hkey with hk | hk | hk | hk <;> subst hk
              · rw [valueInt_wrong fields _ _ v hl hn hb] at h2
                exact absurd h2 (by simp)
              · rw [valueInt_wrong fields _ _ v hl hn hb] at h3
                exact absurd h3 (by simp)
              · rw [valueInt_wrong fields _ _ v hl hn hb] at h4
                exact absurd h4 (by simp)
              · rw [valueInt_wrong fields _ _ v hl hn hb] at h5
                exact absurd h5 (by simp)

/-- The loop ends with an error once it has met an error: the entries before
a wrongly typed entry do not change that. -/
theorem regionsLoop_wrong (pre : List Json) (fields : List (String × Json))
    (post : List Json) (acc : List ClickableRegion) (h : wronglyTyped fields) :
    ∃ e, regionsLoop (pre ++ Json.obj fields :: post) acc = Except.error e := by
  induction pre generalizing acc with
  | nil => exact regionsLoop_wrong_head fields post acc h
  | cons item rest ih =>
    cases item with
    | obj fs =>
      simp only [List.cons_append]
      unfold regionsLoop
      dsimp only
      cases (Json.obj fs).valueString "identifier" "" with
      | error e => exact ⟨e, rfl⟩
      | ok ident =>
        dsimp only
        cases (Json.obj fs).valueInt "leftPx" 0 with
        | error e => exact ⟨e, rfl⟩
        | ok l =>
          dsimp only
          cases (Json.obj fs).valueInt "topPx" 0 with
          | error e => exact ⟨e, rfl⟩
          | ok t =>
            dsimp only
            cases (Json.obj fs).valueInt "widthPx" 0 with
            | error e => exact ⟨e, rfl⟩
            | ok w =>
              dsimp only
              cases (Json.obj fs).valueInt "heightPx" 0 with
              | error e => exact ⟨e, rfl⟩
              | ok ht =>
                dsimp only
                split_ifs
                · exact ih _
                · exact ih _
    | null => simpa [regionsLoop] using ih acc
    | bool b => simpa [regionsLoop] using ih acc
    | num n => simpa [regionsLoop] using ih acc
    | str t => simpa [regionsLoop] using ih acc
    | arr xs => simpa [regionsLoop] using ih acc

/-- C11: when the payload of a region update is rejected (it fails to
decode, or decodes to a value that is no array, or the reading of an entry
raises an error, as for a wrongly typed field after any number of valid
entries), the region list after the call is the list `old` before the call:
nothing of the payload is applied.  The same holds when the string of the
payload cannot be obtained. -/
theorem malformed_update_keeps_regions (parse : String → Except JsonError Json)
    (jsonStr : String) (old : List ClickableRegion) (h : PayloadRejected parse jsonStr) :
    nativeUpdateClickableRegions parse (some jsonStr) old = old ∧
    nativeUpdateClickableRegions parse none old = old := by
  refine ⟨?_, rfl⟩
  unfold nativeUpdateClickableRegions
  rcases h with ⟨e, he⟩ | ⟨j, hj, hno⟩ | ⟨pre, fields, post, hp, hw⟩ | ⟨items, e, hp, he⟩
  · simp only [he]
  · simp only [hj]
  · obtain ⟨e, he⟩ := regionsLoop_wrong pre fields post [] hw
    simp only [hp, he]
  · simp only [hp, he]

theorem demoBadItems_rejected :
    PayloadRejected (fun _ => Except.ok (Json.arr demoBadItems)) "payload" :=
  Or.inr (Or.inr (Or.inl ⟨[Json.obj [("identifier", Json.str "btn1"), ("leftPx", Json.num 100),
      ("topPx", Json.num 200), ("widthPx", Json.num 50), ("heightPx", Json.num 50)]],
    [("identifier", Json.str "btn3"), ("widthPx", Json.str "wide"), ("heightPx", Json.num 9)],
    [], rfl,
    Or.inr ⟨"widthPx", by simp, Json.str "wide", by simp [List.lookup], by simp, by simp⟩⟩))

/-- Witness of C11: the sample payload whose second entry has a string as
`widthPx` leaves the previous list of one region as it is; its valid first
entry is not applied. -/
theorem malformed_update_keeps_regions_witness :
    PayloadRejected (fun _ => Except.ok (Json.arr demoBadItems)) "payload" ∧
    nativeUpdateClickableRegions (fun _ => Except.ok (Json.arr demoBadItems)) (some "payload")
      [demoRegion] = [demoRegion] :=
  ⟨demoBadItems_rejected,
    (malformed_update_keeps_regions (fun _ => Except.ok (Json.arr demoBadItems)) "payload"
      [demoRegion] demoBadItems_rejected).1⟩

/-! ## Bounds of the slot array -/

theorem slotLoop_length (f : Nat → TouchPoint → TouchPoint × List Emit) (i : Nat)
    (l : List TouchPoint) : (slotLoop f i l).1.length = l.length := by
  induction l generalizing i with
  | nil => rfl
  | cons tp rest ih => simp [slotLoop, ih]

theorem stepAction_length (mx my : Int) (s : LoopState) (a : Action) :
    (stepAction mx my s a).1.localTouches.length = s.localTouches.length := by
  cases a with
  | check t =>
    simp only [stepAction, longPressCheck, longPressLoop_eq_slotLoop, slotLoop_length]
  | record b env ev =>
    rw [stepAction_record]
    have hr := (reportLoop_eq_slotLoop mx my env 0 s.localTouches "T" 0).1
    unfold handleEvent
    dsimp only
    split_ifs <;> first
      | rfl
      | exact List.length_set _ _ _
      | (show (reportLoop mx my env 0 s.localTouches "T" 0).1.length = _
         rw [hr, slotLoop_length])

theorem stepAction_currentSlot (mx my : Int) (s : LoopState) (a : Action) :
    (stepAction mx my s a).1.currentSlot = s.currentSlot ∨
    ∃ b env ev, a = Action.record b env ev ∧ ev.type = EV_ABS ∧ ev.code = ABS_MT_SLOT ∧
      (stepAction mx my s a).1.currentSlot =
        if 0 ≤ ev.value ∧ ev.value < 10 then ev.value else 0 := by
  cases a with
  | check t => exact Or.inl rfl
  | record b env ev =>
    rw [stepAction_record]
    unfold handleEvent
    dsimp only
    by_cases h1 : ev.type = EV_ABS
    · by_cases h2 : ev.code = ABS_MT_SLOT
      · refine Or.inr ⟨b, env, ev, rfl, h1, h2, ?_⟩
        rw [if_pos h1, if_pos h2]
        show (if ev.value < 0 ∨ ev.value ≥ (MAX_SLOTS : Int) then (0 : Int) else ev.value) = _
        have : ((MAX_SLOTS : Nat) : Int) = 10 := rfl
        rw [this]
        split_ifs <;> omega
      · rw [if_pos h1, if_neg h2]
        split_ifs <;> exact Or.inl rfl
    · rw [if_neg h1]
      split_ifs <;> exact Or.inl rfl

theorem stepAction_bounds (mx my : Int) (s : LoopState) (a : Action) (h : SlotBounds s) :
    SlotBounds (stepAction mx my s a).1 := by
  obtain ⟨h1, h2, h3⟩ := h
  refine ⟨?_, ?_, by rw [stepAction_length]; exact h3⟩
  · rcases stepAction_currentSlot mx my s a with e | ⟨_, _, ev, _, _, _, e⟩
    · rw [e]; exact h1
    · rw [e]; split_ifs <;> omega
  · rcases stepAction_currentSlot mx my s a with e | ⟨_, _, ev, _, _, _, e⟩
    · rw [e]; exact h2
    · rw [e]; split_ifs <;> omega

theorem exec_bounds (mx my : Int) (acts : List Action) (s : LoopState) (h : SlotBounds s) :
    SlotBounds (exec mx my s acts) := by
  induction acts generalizing s with
  | nil => exact h
  | cons a rest ih => exact ih _ (stepAction_bounds mx my s a h)

theorem init_bounds : SlotBounds LoopState.init := by
  refine ⟨by decide, by decide, by decide⟩

/-- C14: a slot-select record with value `v` makes the current slot `v`
when `0 <= v < 10` and 0 otherwise, and changes nothing else.  In every state
reached from the initial state the current slot index is in `[0, 10)` and the
slot array has its 10 entries, so the access `localTouches[currentSlot]` of a
tracking-id or position record is in bounds.  A tracking-id or position
record that follows a slot-select with a value outside `[0, 10)` is applied
to slot 0. -/
theorem current_slot_in_bounds (nativeMaxX nativeMaxY : Int) :
    (∀ (s : LoopState) (b : Bool) (env : Env) (v : Int),
      stepAction nativeMaxX nativeMaxY s (Action.record b env (slotSelect v)) =
        ({ s with currentSlot := if 0 ≤ v ∧ v < 10 then v else 0 }, [])) ∧
    (∀ acts : List Action,
      0 ≤ (exec nativeMaxX nativeMaxY LoopState.init acts).currentSlot ∧
      (exec nativeMaxX nativeMaxY LoopState.init acts).currentSlot < 10 ∧
      (exec nativeMaxX nativeMaxY LoopState.init acts).localTouches.length = 10 ∧
      (exec nativeMaxX nativeMaxY LoopState.init acts).currentSlot.toNat <
        (exec nativeMaxX nativeMaxY LoopState.init acts).localTouches.length) ∧
    (∀ (s : LoopState) (b : Bool) (env : Env) (v : Int) (ev : InputEvent),
      (v < 0 ∨ 10 ≤ v) → ev.type = EV_ABS →
      (ev.code = ABS_MT_POSITION_X →
        (exec nativeMaxX nativeMaxY s
          [Action.record b env (slotSelect v), Action.record b env ev]).localTouches =
          s.localTouches.set 0 { s.localTouches.getD 0 {} with x := ev.value }) ∧
      (ev.code = ABS_MT_POSITION_Y →
        (exec nativeMaxX nativeMaxY s
          [Action.record b env (slotSelect v), Action.record b env ev]).localTouches =
          s.localTouches.set 0 { s.localTouches.getD 0 {} with y := ev.value }) ∧
      (ev.code = ABS_MT_TRACKING_ID → ev.value ≠ -1 →
        (exec nativeMaxX nativeMaxY s
          [Action.record b env (slotSelect v), Action.record b env ev]).localTouches =
          s.localTouches.set 0
            { s.localTouches.getD 0 {} with
                id := ev.value
                isDown := true
                uiTapHandled := false
                isCheckingForLongPressStart := false
                longPressStartSent := false
                downTimestampMs := env.nowMs
                downRegionIdentifier := "" }) ∧
      (ev.code = ABS_MT_TRACKING_ID → ev.value = -1 →
        (exec nativeMaxX nativeMaxY s
          [Action.record b env (slotSelect v), Action.record b env ev]).localTouches =
          s.localTouches.set 0
            { s.localTouches.getD 0 {} with
                id := -1
                isDown := false
                maybeUiTap := false
                uiTapHandled := false
                downRegionIdentifier := ""
                isCheckingForLongPressStart := false
                longPressStartSent := false })) := by
  have hsel : ∀ (s : LoopState) (b : Bool) (env : Env) (v : Int),
      stepAction nativeMaxX nativeMaxY s (Action.record b env (slotSelect v)) =
        ({ s with currentSlot := if 0 ≤ v ∧ v < 10 then v else 0 }, []) := by
    intro s b env v
    rw [stepAction_record]
    unfold handleEvent slotSelect
    simp only [if_true]
    have : ((MAX_SLOTS : Nat) : Int) = 10 := rfl
    rw [this]
    by_cases hv : v < 0 ∨ v ≥ 10
    · have : ¬ (0 ≤ v ∧ v < 10) := by omega
      rw [if_pos hv, if_neg this]
    · have : (0 ≤ v ∧ v < 10) := by omega
      rw [if_neg hv, if_pos this]
  refine ⟨hsel, ?_, ?_⟩
  · intro acts
    obtain ⟨h1, h2, h3⟩ := exec_bounds nativeMaxX nativeMaxY acts _ init_bounds
    refine ⟨h1, h2, h3, ?_⟩
    rw [h3]
    omega
  · intro s b env v ev hv habs
    have hnot : ¬ (0 ≤ v ∧ v < 10) := by omega
    have hex : exec nativeMaxX nativeMaxY s
        [Action.record b env (slotSelect v), Action.record b env ev] =
        (handleEvent nativeMaxX nativeMaxY env { s with currentSlot := 0 } ev).1 := by
      simp only [exec, hsel, if_neg hnot, stepAction_record]
    rw [hex]
    have hne1 : ¬ (ABS_MT_TRACKING_ID = ABS_MT_SLOT) := by decide
    have hne2 : ¬ (ABS_MT_POSITION_X = ABS_MT_SLOT) := by decide
    have hne3 : ¬ (ABS_MT_POSITION_X = ABS_MT_TRACKING_ID) := by decide
    have hne4 : ¬ (ABS_MT_POSITION_Y = ABS_MT_SLOT) := by decide
    have hne5 : ¬ (ABS_MT_POSITION_Y = ABS_MT_TRACKING_ID) := by decide
    have hne6 : ¬ (ABS_MT_POSITION_Y = ABS_MT_POSITION_X) := by decide
    unfold handleEvent
    refine ⟨?_, ?_, ?_, ?_⟩
    · intro hc
      simp only [habs, hc, hne2, hne3, if_true, if_false]
      rfl
    · intro hc
      simp only [habs, hc, hne4, hne5, hne6, if_true, if_false]
      rfl
    · intro hc hval
      simp only [habs, hc, hne1, hval, if_true, if_false]
      rfl
    · intro hc hval
      simp only [habs, hc, hne1, hval, if_true, if_false]
      split_ifs <;> rfl

/-! ## The start of a lifecycle -/

/-- C15 (evaluation of the code): a tracking-id record with a value other
than -1 sets `id`, `isDown`, clears `uiTapHandled`,
`isCheckingForLongPressStart`, `longPressStartSent` and
`downRegionIdentifier` and stores the clock reading, but it leaves
`maybeUiTap` as it was (lines 355-366).  In the sample state `demoHeld` slot 0
is down and a tap candidate; after the tracking id changes to 8 the slot is
still marked as a tap candidate, with an empty region identifier, and the new
contact, although inside `demoRegion`, never gets a `tapDown` nor a
`pressStart`: only raw packets are sent. -/
theorem down_keeps_stale_candidate :
    (∀ (nativeMaxX nativeMaxY : Int) (s : LoopState) (b : Bool) (env : Env) (ev : InputEvent)
        (tp : TouchPoint), ev.type = EV_ABS → ev.code = ABS_MT_TRACKING_ID → ev.value ≠ -1 →
      s.localTouches[s.currentSlot.toNat]? = some tp →
      (stepAction nativeMaxX nativeMaxY s (Action.record b env ev)).1.localTouches[
          s.currentSlot.toNat]? =
        some { tp with
                id := ev.value
                isDown := true
                uiTapHandled := false
                isCheckingForLongPressStart := false
                longPressStartSent := false
                downTimestampMs := env.nowMs
                downRegionIdentifier := "" }) ∧
    (∃ tp, demoHeld.localTouches[0]? = some tp ∧ tp.isDown = true ∧ tp.maybeUiTap = true) ∧
    (∃ tp, (exec 1000 1000 demoHeld (demoRedown.take 1)).localTouches[0]? = some tp ∧
      tp.id = 8 ∧ tp.isDown = true ∧ tp.maybeUiTap = true ∧
      tp.downRegionIdentifier = "" ∧ tp.downTimestampMs = 300) ∧
    emitsOf (runSteps 1000 1000 demoHeld demoRedown) = [Emit.raw "T|8,110,210;5000"] := by
  refine ⟨?_, ⟨_, rfl, by decide, by decide⟩,
    ⟨_, rfl, by decide, by decide, by decide, by decide, by decide⟩, by decide⟩
  intro mx my s b env ev tp h1 h2 h3 htp
  obtain ⟨g1, _⟩ := stepAction_slot mx my s (Action.record b env ev) _ tp htp
  rw [g1]
  have hne : ¬ (ABS_MT_TRACKING_ID = ABS_MT_SLOT) := by decide
  simp only [slotStep, h1, h2, h3, hne, if_true, if_false]

/-! ## Consistency of the flags of a slot -/

theorem longPressSlot_flagInv (t : Int) (i : Nat) (tp : TouchPoint) (h : FlagInv tp) :
    FlagInv (longPressSlot t i tp).1 := by
  unfold longPressSlot
  dsimp only
  split_ifs with h1 h2
  · simp only [Bool.and_eq_true, Bool.not_eq_true'] at h1
    obtain ⟨a1, a2, a3, a4, a5, a6⟩ := h
    refine ⟨a1, a2, ?_, a4, ?_, ?_⟩
    · intro hid
      have := (a3 hid).1
      rw [h1.1.1.2] at this
      exact absurd this (by simp)
    · intro _
      exact h1.1.1.2
    · intro hc
      exact absurd hc (by simp)
  · exact h
  · exact h

theorem reportSlot_flagInv (mx my : Int) (env : Env) (i : Nat) (tp : TouchPoint) (d : String)
    (n : Nat) (h : FlagInv tp) : FlagInv (reportSlot mx my env i tp d n).1 := by
  rcases reportSlot_cases mx my env i tp d n with ⟨h1, _⟩ | ⟨ax, ay, h1, _⟩ |
    ⟨ax, ay, region, hd, hm, h1, _⟩
  · rw [h1]; exact h
  · rw [h1]; exact h
  · rw [h1]
    obtain ⟨a1, a2, a3, a4, a5, a6⟩ := h
    refine ⟨a1, a2, ?_, fun _ => hd, fun hs => absurd hs (by simp), fun _ => ⟨rfl, rfl⟩⟩
    intro hid
    have : tp.isDown = false := by
      by_contra hc
      simp only [Bool.not_eq_false] at hc
      exact (a1.mp hc) hid
    rw [hd] at this
    exact absurd this (by simp)

theorem slotStep_flagInv (mx my : Int) (k cur : Nat) (upd : Bool) (a : Action)
    (tp : TouchPoint) (h : FlagInv tp) : FlagInv (slotStep mx my k cur upd a tp).1 := by
  cases a with
  | check t => exact longPressSlot_flagInv t k tp h
  | record b env ev =>
    unfold slotStep
    dsimp only
    by_cases c1 : ev.type = EV_ABS
    · rw [if_pos c1]
      by_cases c2 : ev.code = ABS_MT_SLOT
      · rw [if_pos c2]; exact h
      rw [if_neg c2]
      by_cases c3 : ev.code = ABS_MT_TRACKING_ID
      · rw [if_pos c3]
        by_cases c4 : cur = k
        · rw [if_pos c4]
          by_cases c5 : ev.value = -1
          · rw [if_pos c5]
            refine ⟨by simp, rfl, fun _ => ⟨rfl, rfl, rfl, rfl⟩, ?_, ?_, ?_⟩ <;>
              (intro hc; exact absurd hc (by simp))
          · rw [if_neg c5]
            obtain ⟨a1, a2, a3, a4, a5, a6⟩ := h
            refine ⟨?_, rfl, ?_, fun _ => rfl, ?_, ?_⟩
            · exact ⟨fun _ => c5, fun _ => rfl⟩
            · intro hid
              exact absurd hid c5
            · intro hs
              exact absurd hs (by simp)
            · intro hs
              exact absurd hs (by simp)
        · rw [if_neg c4]; exact h
      rw [if_neg c3]
      split_ifs <;> exact h
    · rw [if_neg c1]
      split_ifs <;> first
        | exact h
        | exact reportSlot_flagInv mx my env k tp "" 0 h

/-- Every slot of every state reached from the initial state has consistent
flags. -/
theorem reach_flagInv (mx my : Int) (acts : List Action) :
    ∀ (k : Nat) (tp : TouchPoint),
      (exec mx my LoopState.init acts).localTouches[k]? = some tp → FlagInv tp := by
  induction acts using List.reverseRecOn with
  | nil =>
    intro k tp h
    have hk : k < MAX_SLOTS := by
      have := (List.getElem?_eq_some_iff.mp h).1
      simpa [exec, LoopState.init] using this
    have : tp = {} := by
      simp only [exec, LoopState.init, List.getElem?_replicate, hk, if_true,
        Option.some.injEq] at h
      exact h.symm
    rw [this]
    refine ⟨by simp, rfl, fun _ => ⟨rfl, rfl, rfl, rfl⟩, ?_, ?_, ?_⟩ <;> simp
  | append_singleton acts a ih =>
    intro k tp2 h2
    rw [exec_snoc] at h2
    cases hk : (exec mx my LoopState.init acts).localTouches[k]? with
    | none =>
      rw [(stepAction_slot_none mx my _ a k hk).1] at h2
      exact absurd h2 (by simp)
    | some tp =>
      rw [(stepAction_slot mx my _ a k tp hk).1, Option.some.injEq] at h2
      rw [← h2]
      exact slotStep_flagInv mx my k _ _ a tp (ih k tp hk)

/-! ## The mapped point and the raw packet -/

theorem mappedPoint_eq_screenPoint (mx my : Int) (env : Env) (tp : TouchPoint)
    (hX : 0 < mx) (hY : 0 < my) : mappedPoint mx my env tp = screenPoint mx my env tp := by
  simp only [mappedPoint, screenPoint, coordinateMapper, gt_iff_lt, hX, hY, if_true]

/-- What the body of the report loop adds to the packet for one slot. -/
theorem reportSlot_packet (mx my : Int) (env : Env) (i : Nat) (tp : TouchPoint) (d : String)
    (n : Nat) :
    (reportSlot mx my env i tp d n).2.2.1 = d ++ packetGroup mx my env tp ∧
    (reportSlot mx my env i tp d n).2.2.2 = n + (if tp.inPacket then 1 else 0) := by
  unfold reportSlot packetGroup TouchPoint.inPacket mappedPoint
  dsimp only
  by_cases hid : tp.id ≠ -1
  · rw [if_pos hid]
    by_cases hh : tp.uiTapHandled = false
    · have hcond : tp.id ≠ -1 ∧ tp.uiTapHandled = false := ⟨hid, hh⟩
      rw [if_pos hcond]
      by_cases hc : (tp.isDown && !tp.maybeUiTap) = true
      · rw [if_pos hc]
        cases regionLoop _ _ env.g_clickableRegions with
        | none => simp [hid, hh]
        | some r => simp [hid, hh]
      · rw [if_neg hc]
        simp [hid, hh]
    · have hcond : ¬ (tp.id ≠ -1 ∧ tp.uiTapHandled = false) := fun h => hh h.2
      rw [if_neg hcond]
      simp only [Bool.not_eq_false] at hh
      by_cases hc : (tp.isDown && !tp.maybeUiTap) = true
      · rw [if_pos hc]
        cases regionLoop _ _ env.g_clickableRegions with
        | none => simp [hid, hh]
        | some r => simp [hid, hh]
      · rw [if_neg hc]
        simp [hid, hh]
  · have hcond : ¬ (tp.id ≠ -1 ∧ tp.uiTapHandled = false) := fun h => hid h.1
    rw [if_neg hid, if_neg hcond]
    simp only [ne_eq, Decidable.not_not] at hid
    simp [hid]

/-- The string and the count built by the report loop. -/
theorem reportLoop_packet (mx my : Int) (env : Env) (i : Nat) (l : List TouchPoint)
    (d : String) (n : Nat) :
    (reportLoop mx my env i l d n).2.2.1 = d ++ packetGroups mx my env l ∧
    (reportLoop mx my env i l d n).2.2.2 = n + l.countP TouchPoint.inPacket := by
  induction l generalizing i d n with
  | nil => simp [reportLoop, packetGroups]
  | cons tp rest ih =>
    obtain ⟨h1, h2⟩ := reportSlot_packet mx my env i tp d n
    obtain ⟨g1, g2⟩ := ih (i + 1) (reportSlot mx my env i tp d n).2.2.1
      (reportSlot mx my env i tp d n).2.2.2
    simp only [reportLoop, packetGroups]
    rw [g1, g2, h1, h2]
    refine ⟨String.append_assoc _ _ _, ?_⟩
    rw [List.countP_cons]
    omega

/-! ## Report boundaries -/

/-- The calls of the slot loop of a report boundary are no raw packets. -/
theorem reportLoop_noRaw (mx my : Int) (env : Env) (i : Nat) (l : List TouchPoint)
    (d : String) (n : Nat) :
    ∀ e ∈ (reportLoop mx my env i l d n).2.1, e.isRaw = false := by
  induction l generalizing i d n with
  | nil =>
    intro e he
    simp [reportLoop] at he
  | cons tp rest ih =>
    intro e he
    simp only [reportLoop, List.mem_append] at he
    rcases he with he | he
    · have := reportSlot_tag mx my env i tp d n e he
      cases e <;> simp_all [Emit.slot?, Emit.isRaw]
    · exact ih _ _ _ e he

/-- A report-boundary record, in either copy of the handler: what it does to
the state and the calls it makes. -/
theorem report_step (mx my : Int) (s : LoopState) (b : Bool) (env : Env) (ev : InputEvent)
    (h1 : ev.type = EV_SYN) (h2 : ev.code = SYN_REPORT) :
    stepAction mx my s (Action.record b env ev) =
      if s.touchDataUpdated then
        ({ s with
            localTouches := (reportLoop mx my env 0 s.localTouches "T" 0).1
            touchDataUpdated := false },
          (reportLoop mx my env 0 s.localTouches "T" 0).2.1 ++
            if 0 < s.localTouches.countP TouchPoint.inPacket then
              [Emit.raw (rawPacket mx my env s.localTouches (reportTimestampMs env ev))]
            else [])
      else (s, []) := by
  have hne : ¬ (EV_SYN = EV_ABS) := by decide
  obtain ⟨p1, p2⟩ := reportLoop_packet mx my env 0 s.localTouches "T" 0
  rw [stepAction_record]
  unfold handleEvent
  simp only [h1, h2, hne, if_false, and_self, if_true]
  by_cases hu : s.touchDataUpdated = true
  · simp only [hu, if_true]
    rw [p1, p2]
    simp only [Nat.zero_add, gt_iff_lt, rawPacket, reportTimestampMs, String.append_assoc]
    split_ifs <;> simp
  · simp only [hu]
    rfl

/-- How one action changes `touchDataUpdated`. -/
theorem stepAction_touchDataUpdated (mx my : Int) (s : LoopState) (a : Action) :
    (stepAction mx my s a).1.touchDataUpdated =
      if a.isReport then false else (s.touchDataUpdated || a.isTouchData) := by
  cases a with
  | check t => simp [stepAction, longPressCheck, Action.isReport, Action.isTouchData]
  | record b env ev =>
    by_cases hr : ev.type = EV_SYN ∧ ev.code = SYN_REPORT
    · rw [report_step mx my s b env ev hr.1 hr.2]
      simp only [Action.isReport, hr.1, hr.2, decide_True, Bool.and_self, if_true]
      by_cases hu : s.touchDataUpdated = true <;> simp [hu]
    · have hrep : (Action.record b env ev).isReport = false := by
        simp only [Action.isReport, Bool.and_eq_false_iff, decide_eq_false_iff_not]
        tauto
      rw [hrep, stepAction_record]
      unfold handleEvent Action.isTouchData
      dsimp only
      by_cases c1 : ev.type = EV_ABS
      · rw [if_pos c1]
        by_cases c2 : ev.code = ABS_MT_SLOT
        · simp [c1, c2, ABS_MT_SLOT, ABS_MT_TRACKING_ID, ABS_MT_POSITION_X,
            ABS_MT_POSITION_Y]
        · rw [if_neg c2]
          by_cases c3 : ev.code = ABS_MT_TRACKING_ID
          · rw [if_pos c3]
            by_cases c5 : ev.value = -1 <;> simp [c1, c3, c5]
          · rw [if_neg c3]
            by_cases c4 : ev.code = ABS_MT_POSITION_X
            · simp [c1, c4]
            · rw [if_neg c4]
              by_cases c5 : ev.code = ABS_MT_POSITION_Y
              · simp [c1, c5]
              · simp [c1, c3, c4, c5]
      · rw [if_neg c1, if_neg hr]
        simp [c1]

/-- The value of `touchDataUpdated` after a run. -/
theorem exec_touchDataUpdated (mx my : Int) (acts : List Action) (s : LoopState) :
    (exec mx my s acts).touchDataUpdated =
      if acts.any Action.isReport then changedSince acts
      else (s.touchDataUpdated || changedSince acts) := by
  induction acts generalizing s with
  | nil => simp [exec, changedSince]
  | cons a rest ih =>
    simp only [exec, changedSince, List.any_cons]
    rw [ih, stepAction_touchDataUpdated]
    by_cases h1 : rest.any Action.isReport = true
    · simp [h1]
    · simp only [h1, if_false, Bool.or_false]
      by_cases h2 : a.isReport = true
      · have h3 : a.isTouchData = false := by
          cases a with
          | check t => rfl
          | record b env ev =>
            simp only [Action.isReport, Bool.and_eq_true, decide_eq_true_eq] at h2
            have : ev.type ≠ EV_ABS := by rw [h2.1]; decide
            simp [Action.isTouchData, this]
        simp [h2, h3]
      · simp only [h2, if_false]
        simp [Bool.or_assoc]

/-- The changed flag in a state reached from the initial state. -/
theorem reach_touchDataUpdated (mx my : Int) (acts : List Action) :
    (exec mx my LoopState.init acts).touchDataUpdated = changedSince acts := by
  rw [exec_touchDataUpdated]
  split_ifs
  · rfl
  · simp [LoopState.init]

/-- The groups of a slot array, split at slot `k`. -/
theorem packetGroups_split (mx my : Int) (env : Env) (l : List TouchPoint) (k : Nat)
    (tp : TouchPoint) (h : l[k]? = some tp) :
    packetGroups mx my env l =
      packetGroups mx my env (l.take k) ++ packetGroup mx my env tp
        ++ packetGroups mx my env (l.drop (k + 1)) := by
  induction l generalizing k with
  | nil => simp at h
  | cons x rest ih =>
    cases k with
    | zero =>
      simp only [List.getElem?_cons_zero, Option.some.injEq] at h
      subst h
      simp [packetGroups]
    | succ j =>
      simp only [List.getElem?_cons_succ] at h
      simp only [packetGroups, List.take_succ_cons, List.drop_succ_cons]
      rw [ih j h]
      simp [String.append_assoc]

/-- The raw packet of a report boundary handled with the changed flag set and
a slot in the packet. -/
theorem report_raw_mem (mx my : Int) (s : LoopState) (b : Bool) (env : Env) (ev : InputEvent)
    (h1 : ev.type = EV_SYN) (h2 : ev.code = SYN_REPORT) (hu : s.touchDataUpdated = true)
    (tp : TouchPoint) (hmem : tp ∈ s.localTouches) (hin : tp.inPacket = true) :
    Emit.raw (rawPacket mx my env s.localTouches (reportTimestampMs env ev)) ∈
      (stepAction mx my s (Action.record b env ev)).2 := by
  have hpos : 0 < s.localTouches.countP TouchPoint.inPacket :=
    List.countP_pos_iff.mpr ⟨tp, hmem, hin⟩
  rw [report_step mx my s b env ev h1 h2]
  simp [hu, hpos]

/-- A raw packet among the calls of a report boundary: which one, and when. -/
theorem report_raw_iff (mx my : Int) (s : LoopState) (b : Bool) (env : Env) (ev : InputEvent)
    (h1 : ev.type = EV_SYN) (h2 : ev.code = SYN_REPORT) (data : String) :
    Emit.raw data ∈ (stepAction mx my s (Action.record b env ev)).2 ↔
      (s.touchDataUpdated = true ∧ (∃ tp ∈ s.localTouches, tp.inPacket = true) ∧
        data = rawPacket mx my env s.localTouches (reportTimestampMs env ev)) := by
  rw [report_step mx my s b env ev h1 h2]
  have hno : Emit.raw data ∉ (reportLoop mx my env 0 s.localTouches "T" 0).2.1 := by
    intro hm
    have := reportLoop_noRaw mx my env 0 s.localTouches "T" 0 _ hm
    simp [Emit.isRaw] at this
  by_cases hu : s.touchDataUpdated = true
  · simp only [hu, if_true, List.mem_append, hno, false_or, true_and]
    by_cases hc : 0 < s.localTouches.countP TouchPoint.inPacket
    · have hex := List.countP_pos_iff.mp hc
      simp only [hc, if_true, List.mem_singleton, Emit.raw.injEq]
      exact ⟨fun h => ⟨hex, h⟩, fun h => h.2⟩
    · have hex : ¬ ∃ tp ∈ s.localTouches, tp.inPacket = true := fun h =>
        hc (List.countP_pos_iff.mpr h)
      simp only [hc, if_false, List.not_mem_nil, false_iff]
      exact fun h => hex h.1
  · simp [hu]

/-- C18: the raw packet sent at a report boundary (in either copy of the
handler, from any state) is `rawPacket`: the text `"T"`, then for each slot in
ascending slot order that is live (tracking id not -1) and not handled the
group `"|id,sx,sy"` of its tracking id and mapped point in decimal, then `";"`
and the time stamp in decimal.  A slot whose tracking id is -1 (a released
slot) has no group.  In a state reached from the initial state in which a
tracking-id or position record came after the last report boundary, every
live slot, matched to a region or not, has its group in the packet that is
sent. -/
theorem raw_packet_format (nativeMaxX nativeMaxY : Int) (env : Env) (ev : InputEvent)
    (viaLeftover : Bool) (h1 : ev.type = EV_SYN) (h2 : ev.code = SYN_REPORT) :
    (∀ (s : LoopState) (data : String),
      Emit.raw data ∈
          (stepAction nativeMaxX nativeMaxY s (Action.record viaLeftover env ev)).2 →
        data = "T" ++ packetGroups nativeMaxX nativeMaxY env s.localTouches ++ ";"
          ++ toString (reportTimestampMs env ev)) ∧
    (∀ tp : TouchPoint, tp.id = -1 → packetGroup nativeMaxX nativeMaxY env tp = "") ∧
    (∀ tp : TouchPoint, tp.uiTapHandled = true →
      packetGroup nativeMaxX nativeMaxY env tp = "") ∧
    (∀ tp : TouchPoint, tp.id ≠ -1 → tp.uiTapHandled = false →
      packetGroup nativeMaxX nativeMaxY env tp =
        "|" ++ toString tp.id ++ "," ++ toString (mappedPoint nativeMaxX nativeMaxY env tp).1
          ++ "," ++ toString (mappedPoint nativeMaxX nativeMaxY env tp).2) ∧
    (∀ (acts : List Action) (k : Nat) (tp : TouchPoint),
      (exec nativeMaxX nativeMaxY LoopState.init acts).localTouches[k]? = some tp →
      tp.id ≠ -1 → changedSince acts = true →
      ∃ before after : String,
        Emit.raw ("T" ++ before ++
            ("|" ++ toString tp.id ++ ","
              ++ toString (mappedPoint nativeMaxX nativeMaxY env tp).1
              ++ "," ++ toString (mappedPoint nativeMaxX nativeMaxY env tp).2)
            ++ after ++ ";" ++ toString (reportTimestampMs env ev)) ∈
          (stepAction nativeMaxX nativeMaxY (exec nativeMaxX nativeMaxY LoopState.init acts)
            (Action.record viaLeftover env ev)).2) := by
  refine ⟨?_, ?_, ?_, ?_, ?_⟩
  · intro s data hmem
    exact ((report_raw_iff nativeMaxX nativeMaxY s viaLeftover env ev h1 h2 data).mp hmem).2.2
  · intro tp hid
    simp [packetGroup, hid]
  · intro tp hh
    simp [packetGroup, hh]
  · intro tp hid hh
    simp [packetGroup, hid, hh]
  · intro acts k tp hk hid hch
    have hinv := reach_flagInv nativeMaxX nativeMaxY acts k tp hk
    have hin : tp.inPacket = true := by
      simp [TouchPoint.inPacket, hid, hinv.2.1]
    have hu := reach_touchDataUpdated nativeMaxX nativeMaxY acts
    rw [hch] at hu
    have hmem := report_raw_mem nativeMaxX nativeMaxY _ viaLeftover env ev h1 h2 hu tp
      (List.mem_iff_getElem?.mpr ⟨k, hk⟩) hin
    refine ⟨packetGroups nativeMaxX nativeMaxY env
        ((exec nativeMaxX nativeMaxY LoopState.init acts).localTouches.take k),
      packetGroups nativeMaxX nativeMaxY env
        ((exec nativeMaxX nativeMaxY LoopState.init acts).localTouches.drop (k + 1)), ?_⟩
    have hsplit := packetGroups_split nativeMaxX nativeMaxY env _ k tp hk
    have hg : packetGroup nativeMaxX nativeMaxY env tp =
        "|" ++ toString tp.id ++ "," ++ toString (mappedPoint nativeMaxX nativeMaxY env tp).1
          ++ "," ++ toString (mappedPoint nativeMaxX nativeMaxY env tp).2 := by
      simp [packetGroup, hid, hinv.2.1]
    rw [rawPacket, hsplit, hg] at hmem
    simpa only [String.append_assoc] using hmem

/-- Witness of C18 on the sample run: after the first three records the
report boundary with device time 5 s sends the packet `"T|7,110,210;5000"`. -/
theorem raw_packet_format_witness :
    demoReport.type = EV_SYN ∧ demoReport.code = SYN_REPORT ∧
    Emit.raw "T|7,110,210;5000" ∈
      (stepAction 1000 1000 (exec 1000 1000 LoopState.init (demoActs.take 3))
        (Action.record false (demoEnv 0) demoReport)).2 ∧
    "T|7,110,210;5000" =
      "T" ++ packetGroups 1000 1000 (demoEnv 0)
        (exec 1000 1000 LoopState.init (demoActs.take 3)).localTouches ++ ";"
        ++ toString (reportTimestampMs (demoEnv 0) demoReport) :=
  ⟨rfl, rfl, by decide,
    (raw_packet_format 1000 1000 (demoEnv 0) demoReport false rfl rfl).1
      (exec 1000 1000 LoopState.init (demoActs.take 3)) "T|7,110,210;5000" (by decide)⟩

/-- C19: in a state reached from the initial state by the run `acts`, a
report boundary (in either copy of the handler) sends a raw packet if and
only if a tracking-id or position record was handled after the last report
boundary of the run and some slot is live and not handled; it sends at most
one.  When no such record was handled since the last report boundary, the
report boundary makes no call at all and leaves the state, hence every slot,
as it was. -/
theorem raw_packet_emitted_iff (nativeMaxX nativeMaxY : Int) (acts : List Action)
    (viaLeftover : Bool) (env : Env) (ev : InputEvent)
    (h1 : ev.type = EV_SYN) (h2 : ev.code = SYN_REPORT) :
    ((∃ data, Emit.raw data ∈
        (stepAction nativeMaxX nativeMaxY (exec nativeMaxX nativeMaxY LoopState.init acts)
          (Action.record viaLeftover env ev)).2) ↔
      (changedSince acts = true ∧
        ∃ tp ∈ (exec nativeMaxX nativeMaxY LoopState.init acts).localTouches,
          tp.id ≠ -1 ∧ tp.uiTapHandled = false)) ∧
    ((stepAction nativeMaxX nativeMaxY (exec nativeMaxX nativeMaxY LoopState.init acts)
        (Action.record viaLeftover env ev)).2.countP Emit.isRaw ≤ 1) ∧
    (changedSince acts = false →
      stepAction nativeMaxX nativeMaxY (exec nativeMaxX nativeMaxY LoopState.init acts)
        (Action.record viaLeftover env ev) =
        (exec nativeMaxX nativeMaxY LoopState.init acts, [])) := by
  have hu := reach_touchDataUpdated nativeMaxX nativeMaxY acts
  have hin : ∀ tp : TouchPoint, tp.inPacket = true ↔ (tp.id ≠ -1 ∧ tp.uiTapHandled = false) := by
    intro tp
    simp [TouchPoint.inPacket]
  refine ⟨?_, ?_, ?_⟩
  · constructor
    · rintro ⟨data, hmem⟩
      obtain ⟨a1, ⟨tp, a2, a3⟩, _⟩ :=
        (report_raw_iff nativeMaxX nativeMaxY _ viaLeftover env ev h1 h2 data).mp hmem
      rw [hu] at a1
      exact ⟨a1, tp, a2, (hin tp).mp a3⟩
    · rintro ⟨a1, tp, a2, a3⟩
      rw [← hu] at a1
      exact ⟨_, report_raw_mem nativeMaxX nativeMaxY _ viaLeftover env ev h1 h2 a1 tp a2
        ((hin tp).mpr a3)⟩
  · rw [report_step nativeMaxX nativeMaxY _ viaLeftover env ev h1 h2]
    have hz : (reportLoop nativeMaxX nativeMaxY env 0
        (exec nativeMaxX nativeMaxY LoopState.init acts).localTouches "T" 0).2.1.countP
          Emit.isRaw = 0 := by
      rw [List.countP_eq_zero]
      intro e he
      simp [reportLoop_noRaw nativeMaxX nativeMaxY env 0 _ "T" 0 e he]
    split_ifs
    · rw [List.countP_append, hz]
      simp [List.countP_cons, Emit.isRaw]
    · rw [List.countP_append, hz]
      simp
    · simp
  · intro hch
    rw [hch] at hu
    rw [report_step nativeMaxX nativeMaxY _ viaLeftover env ev h1 h2]
    simp [hu]

/-- Witness of C19 on the sample run: after the first three records (a
tracking id and a position on slot 0) the report boundary sends a raw packet;
after the first four, which end with a report boundary, a further report
boundary does nothing. -/
theorem raw_packet_emitted_iff_witness :
    demoReport.type = EV_SYN ∧ demoReport.code = SYN_REPORT ∧
    changedSince (demoActs.take 3) = true ∧ changedSince (demoActs.take 4) = false ∧
    (∃ data, Emit.raw data ∈
      (stepAction 1000 1000 (exec 1000 1000 LoopState.init (demoActs.take 3))
        (Action.record false (demoEnv 0) demoReport)).2) ∧
    stepAction 1000 1000 (exec 1000 1000 LoopState.init (demoActs.take 4))
        (Action.record false (demoEnv 0) demoReport) =
      (exec 1000 1000 LoopState.init (demoActs.take 4), []) :=
  ⟨rfl, rfl, by decide, by decide,
    (raw_packet_emitted_iff 1000 1000 (demoActs.take 3) false (demoEnv 0) demoReport
      rfl rfl).1.mpr
        ⟨by decide, { id := 7, x := 790, y := 110, isDown := true }, by decide, by decide,
          by decide⟩,
    (raw_packet_emitted_iff 1000 1000 (demoActs.take 4) false (demoEnv 0) demoReport
      rfl rfl).2.2 (by decide)⟩

/-- When no slot is handled, the groups of the packet are those of all live
slots. -/
theorem packetGroups_eq_liveGroups (mx my : Int) (env : Env) (l : List TouchPoint)
    (h : ∀ tp ∈ l, tp.uiTapHandled = false) :
    packetGroups mx my env l = liveGroups mx my env l := by
  induction l with
  | nil => rfl
  | cons tp rest ih =>
    have h0 := h tp (List.mem_cons_self _ _)
    simp only [packetGroups, liveGroups, packetGroup, h0, and_true]
    rw [ih (fun t ht => h t (List.mem_cons_of_mem _ ht))]

/-- C24: in every state reached from the initial state by whole records and
long-press checks, `uiTapHandled` is false in every slot.  Hence the test
`!uiTapHandled` of the packet never excludes a slot: a slot is in the packet
exactly when it is live, and the raw packet sent at a report boundary holds
the group of every live slot (`liveGroups`), also of the slots that are tap
candidates or whose `pressStart` was sent. -/
theorem handled_flag_never_set (nativeMaxX nativeMaxY : Int) (acts : List Action) :
    (∀ (k : Nat) (tp : TouchPoint),
      (exec nativeMaxX nativeMaxY LoopState.init acts).localTouches[k]? = some tp →
        tp.uiTapHandled = false ∧ (tp.inPacket = true ↔ tp.id ≠ -1)) ∧
    (∀ (viaLeftover : Bool) (env : Env) (ev : InputEvent) (data : String),
      ev.type = EV_SYN → ev.code = SYN_REPORT →
      Emit.raw data ∈
          (stepAction nativeMaxX nativeMaxY (exec nativeMaxX nativeMaxY LoopState.init acts)
            (Action.record viaLeftover env ev)).2 →
        data = "T" ++ liveGroups nativeMaxX nativeMaxY env
            (exec nativeMaxX nativeMaxY LoopState.init acts).localTouches ++ ";"
          ++ toString (reportTimestampMs env ev)) ∧
    (∀ (viaLeftover : Bool) (env : Env) (ev : InputEvent) (k : Nat) (tp : TouchPoint),
      ev.type = EV_SYN → ev.code = SYN_REPORT →
      (exec nativeMaxX nativeMaxY LoopState.init acts).touchDataUpdated = true →
      (exec nativeMaxX nativeMaxY LoopState.init acts).localTouches[k]? = some tp →
      tp.id ≠ -1 →
        Emit.raw ("T" ++ liveGroups nativeMaxX nativeMaxY env
            (exec nativeMaxX nativeMaxY LoopState.init acts).localTouches ++ ";"
          ++ toString (reportTimestampMs env ev)) ∈
          (stepAction nativeMaxX nativeMaxY (exec nativeMaxX nativeMaxY LoopState.init acts)
            (Action.record viaLeftover env ev)).2) := by
  have hall : ∀ tp ∈ (exec nativeMaxX nativeMaxY LoopState.init acts).localTouches,
      tp.uiTapHandled = false := by
    intro tp hmem
    obtain ⟨k, hk⟩ := List.mem_iff_getElem?.mp hmem
    exact (reach_flagInv nativeMaxX nativeMaxY acts k tp hk).2.1
  have hgr := fun env : Env => packetGroups_eq_liveGroups nativeMaxX nativeMaxY env _ hall
  refine ⟨?_, ?_, ?_⟩
  · intro k tp hk
    have hh := (reach_flagInv nativeMaxX nativeMaxY acts k tp hk).2.1
    exact ⟨hh, by simp [TouchPoint.inPacket, hh]⟩
  · intro b env ev data h1 h2 hmem
    have := ((report_raw_iff nativeMaxX nativeMaxY _ b env ev h1 h2 data).mp hmem).2.2
    rw [this, rawPacket, hgr env]
  · intro b env ev k tp h1 h2 hu hk hid
    have hh := (reach_flagInv nativeMaxX nativeMaxY acts k tp hk).2.1
    have hmem := report_raw_mem nativeMaxX nativeMaxY _ b env ev h1 h2 hu tp
      (List.mem_iff_getElem?.mpr ⟨k, hk⟩) (by simp [TouchPoint.inPacket, hid, hh])
    rw [rawPacket, hgr env] at hmem
    exact hmem

/-- C25: in every state reached from the initial state and for every slot:
`isDown` holds exactly when the tracking id is not -1; a free slot (tracking
id -1) has `maybeUiTap`, `isCheckingForLongPressStart` and
`longPressStartSent` false and an empty `downRegionIdentifier`; a tap
candidate is down; `longPressStartSent` implies `maybeUiTap`; and
`isCheckingForLongPressStart` implies `maybeUiTap` and excludes
`longPressStartSent`, so the two latch flags are never both true. -/
theorem flag_consistency (nativeMaxX nativeMaxY : Int) (acts : List Action) (k : Nat)
    (tp : TouchPoint)
    (h : (exec nativeMaxX nativeMaxY LoopState.init acts).localTouches[k]? = some tp) :
    (tp.isDown = true ↔ tp.id ≠ -1) ∧
    (tp.id = -1 → tp.maybeUiTap = false ∧ tp.isCheckingForLongPressStart = false ∧
      tp.longPressStartSent = false ∧ tp.downRegionIdentifier = "") ∧
    (tp.maybeUiTap = true → tp.isDown = true) ∧
    (tp.longPressStartSent = true → tp.maybeUiTap = true) ∧
    (tp.isCheckingForLongPressStart = true →
      tp.maybeUiTap = true ∧ tp.longPressStartSent = false) ∧
    ¬ (tp.isCheckingForLongPressStart = true ∧ tp.longPressStartSent = true) := by
  obtain ⟨a1, _, a3, a4, a5, a6⟩ := reach_flagInv nativeMaxX nativeMaxY acts k tp h
  refine ⟨a1, a3, a4, a5, a6, ?_⟩
  rintro ⟨b1, b2⟩
  rw [(a6 b1).2] at b2
  exact absurd b2 (by simp)

/-- Witness of C25 on the sample run: after the first five steps slot 0 is
`demoHeldSlot`, down with tracking id 7, a tap candidate that waits for its
long press. -/
theorem flag_consistency_witness :
    (exec 1000 1000 LoopState.init (demoActs.take 5)).localTouches[0]? = some demoHeldSlot ∧
    (demoHeldSlot.isDown = true ↔ demoHeldSlot.id ≠ -1) ∧
    (demoHeldSlot.isCheckingForLongPressStart = true →
      demoHeldSlot.maybeUiTap = true ∧ demoHeldSlot.longPressStartSent = false) :=
  ⟨by decide,
    (flag_consistency 1000 1000 (demoActs.take 5) 0 demoHeldSlot (by decide)).1,
    (flag_consistency 1000 1000 (demoActs.take 5) 0 demoHeldSlot (by decide)).2.2.2.2.1⟩

/-! ## Range of the mapping -/

/-- Truncating division by a positive number is monotone. -/
theorem tdiv_mono (a b c : Int) (hc : 0 < c) (hab : a ≤ b) : a.tdiv c ≤ b.tdiv c := by
  rcases le_or_lt 0 a with ha | ha
  · rw [Int.tdiv_eq_ediv ha hc.le, Int.tdiv_eq_ediv (ha.trans hab) hc.le]
    exact Int.ediv_le_ediv hc hab
  · rcases le_or_lt 0 b with hb | hb
    · have h1 : a.tdiv c ≤ 0 := by
        have : 0 ≤ (-a).tdiv c := Int.tdiv_nonneg (by omega) hc.le
        rw [Int.neg_tdiv] at this
        omega
      exact h1.trans (Int.tdiv_nonneg hb hc.le)
    · have h1 : (-b).tdiv c ≤ (-a).tdiv c := by
        rw [Int.tdiv_eq_ediv (by omega) hc.le, Int.tdiv_eq_ediv (by omega) hc.le]
        exact Int.ediv_le_ediv hc (by omega)
      rw [Int.neg_tdiv, Int.neg_tdiv] at h1
      omega

/-- C27: for calibration maxima `nativeMaxX > 0`, `nativeMaxY > 0` and a screen
of width and height at least 0, the point the code computes for a sample
with `0 <= x <= nativeMaxX` and `0 <= y <= nativeMaxY` (unbounded integers)
satisfies `0 <= screenX + leftOffset <= width` and
`0 <= screenY + topOffset <= height`.  Both upper bounds are attained:
`y = nativeMaxY` gives `screenX + leftOffset = width` and `x = 0` gives
`screenY + topOffset = height`.  `screenX` is non-decreasing in `y` and
`screenY` is non-increasing in `x`. -/
theorem mapping_range (nativeMaxX nativeMaxY : Int) (env : Env)
    (hX : 0 < nativeMaxX) (hY : 0 < nativeMaxY)
    (hW : 0 ≤ env.g_screenWidthPx) (hH : 0 ≤ env.g_screenHeightPx) :
    (∀ tp : TouchPoint, mappedPoint nativeMaxX nativeMaxY env tp =
      screenPoint nativeMaxX nativeMaxY env tp) ∧
    (∀ tp : TouchPoint, 0 ≤ tp.x → tp.x ≤ nativeMaxX → 0 ≤ tp.y → tp.y ≤ nativeMaxY →
      0 ≤ (mappedPoint nativeMaxX nativeMaxY env tp).1 + env.g_screenLeftOffsetPx ∧
      (mappedPoint nativeMaxX nativeMaxY env tp).1 + env.g_screenLeftOffsetPx
        ≤ env.g_screenWidthPx ∧
      0 ≤ (mappedPoint nativeMaxX nativeMaxY env tp).2 + env.g_screenTopOffsetPx ∧
      (mappedPoint nativeMaxX nativeMaxY env tp).2 + env.g_screenTopOffsetPx
        ≤ env.g_screenHeightPx) ∧
    (∀ tp : TouchPoint, tp.y = nativeMaxY →
      (mappedPoint nativeMaxX nativeMaxY env tp).1 + env.g_screenLeftOffsetPx
        = env.g_screenWidthPx) ∧
    (∀ tp : TouchPoint, tp.x = 0 →
      (mappedPoint nativeMaxX nativeMaxY env tp).2 + env.g_screenTopOffsetPx
        = env.g_screenHeightPx) ∧
    (∀ tp tp2 : TouchPoint, tp.y ≤ tp2.y →
      (mappedPoint nativeMaxX nativeMaxY env tp).1
        ≤ (mappedPoint nativeMaxX nativeMaxY env tp2).1) ∧
    (∀ tp tp2 : TouchPoint, tp.x ≤ tp2.x →
      (mappedPoint nativeMaxX nativeMaxY env tp2).2
        ≤ (mappedPoint nativeMaxX nativeMaxY env tp).2) := by
  have hx0 : nativeMaxX ≠ 0 := by omega
  have hy0 : nativeMaxY ≠ 0 := by omega
  have e1 : ∀ tp : TouchPoint, (mappedPoint nativeMaxX nativeMaxY env tp).1 =
      (tp.y * env.g_screenWidthPx).tdiv nativeMaxY - env.g_screenLeftOffsetPx := by
    intro tp
    simp only [mappedPoint, gt_iff_lt, hY, if_true]
  have e2 : ∀ tp : TouchPoint, (mappedPoint nativeMaxX nativeMaxY env tp).2 =
      ((nativeMaxX - tp.x) * env.g_screenHeightPx).tdiv nativeMaxX
        - env.g_screenTopOffsetPx := by
    intro tp
    simp only [mappedPoint, gt_iff_lt, hX, if_true]
  have topW : (nativeMaxY * env.g_screenWidthPx).tdiv nativeMaxY = env.g_screenWidthPx := by
    rw [mul_comm]
    exact Int.mul_tdiv_cancel _ hy0
  have topH : (nativeMaxX * env.g_screenHeightPx).tdiv nativeMaxX = env.g_screenHeightPx := by
    rw [mul_comm]
    exact Int.mul_tdiv_cancel _ hx0
  refine ⟨fun tp => mappedPoint_eq_screenPoint nativeMaxX nativeMaxY env tp hX hY,
    ?_, ?_, ?_, ?_, ?_⟩
  · intro tp a1 a2 a3 a4
    rw [e1, e2]
    have b1 : 0 ≤ (tp.y * env.g_screenWidthPx).tdiv nativeMaxY :=
      Int.tdiv_nonneg (mul_nonneg a3 hW) hY.le
    have b2 : (tp.y * env.g_screenWidthPx).tdiv nativeMaxY ≤ env.g_screenWidthPx := by
      have := tdiv_mono (tp.y * env.g_screenWidthPx) (nativeMaxY * env.g_screenWidthPx)
        nativeMaxY hY (mul_le_mul_of_nonneg_right a4 hW)
      rwa [topW] at this
    have b3 : 0 ≤ ((nativeMaxX - tp.x) * env.g_screenHeightPx).tdiv nativeMaxX :=
      Int.tdiv_nonneg (mul_nonneg (by omega) hH) hX.le
    have b4 : ((nativeMaxX - tp.x) * env.g_screenHeightPx).tdiv nativeMaxX
        ≤ env.g_screenHeightPx := by
      have := tdiv_mono ((nativeMaxX - tp.x) * env.g_screenHeightPx)
        (nativeMaxX * env.g_screenHeightPx) nativeMaxX hX
        (mul_le_mul_of_nonneg_right (by omega) hH)
      rwa [topH] at this
    refine ⟨by omega, by omega, by omega, by omega⟩
  · intro tp hy
    rw [e1, hy, topW]
    omega
  · intro tp hx
    rw [e2, hx, sub_zero, topH]
    omega
  · intro tp tp2 hle
    rw [e1, e1]
    have := tdiv_mono _ _ nativeMaxY hY (mul_le_mul_of_nonneg_right hle hW)
    omega
  · intro tp tp2 hle
    rw [e2, e2]
    have := tdiv_mono ((nativeMaxX - tp2.x) * env.g_screenHeightPx)
      ((nativeMaxX - tp.x) * env.g_screenHeightPx) nativeMaxX hX
      (mul_le_mul_of_nonneg_right (by omega) hH)
    omega

/-- Witness of C27: maxima 1000 and 2000 and a 1080 x 2400 screen with offsets
top 50 and left 10; the corner sample (0, 2000) is mapped to (1070, 2350), so
that `screenX + leftOffset = 1080` and `screenY + topOffset = 2400`. -/
theorem mapping_range_witness :
    (0 : Int) < 1000 ∧ (0 : Int) < 2000 ∧ (0 : Int) ≤ 1080 ∧ (0 : Int) ≤ 2400 ∧
    mappedPoint 1000 2000
      { g_screenWidthPx := 1080, g_screenHeightPx := 2400, g_screenTopOffsetPx := 50,
        g_screenLeftOffsetPx := 10 }
      { x := 0, y := 2000 } = (1070, 2350) ∧
    (mappedPoint 1000 2000
      { g_screenWidthPx := 1080, g_screenHeightPx := 2400, g_screenTopOffsetPx := 50,
        g_screenLeftOffsetPx := 10 }
      { x := 0, y := 2000 }).1 + 10 = 1080 :=
  ⟨by decide, by decide, by decide, by decide, by decide,
    (mapping_range 1000 2000
      { g_screenWidthPx := 1080, g_screenHeightPx := 2400, g_screenTopOffsetPx := 50,
        g_screenLeftOffsetPx := 10 } (by decide) (by decide) (by decide) (by decide)).2.2.1
      { x := 0, y := 2000 } rfl⟩

/-! ## The two copies of the record handler -/

/-- C26: the handler of the record completed from `leftoverBuf` (lines
191-309) and the handler of a record of the main parse loop (lines 319-436)
are the same function: for every calibration, every `Env` (region list, screen
geometry, clock reading), every state (slots, current slot, changed flag,
leftover bytes) and every record they give the same state and the same calls
in the same order.  So do their parts, the slot loop of the report boundary
and the region loop; and one action of a run does the same whichever copy
handles it. -/
theorem leftover_handler_same_transition :
    (∀ (nativeMaxX nativeMaxY : Int) (env : Env) (s : LoopState) (ev : InputEvent),
      handleLeftoverEvent nativeMaxX nativeMaxY env s ev =
        handleEvent nativeMaxX nativeMaxY env s ev) ∧
    (∀ (nativeMaxX nativeMaxY : Int) (env : Env) (i : Nat) (l : List TouchPoint) (d : String)
        (n : Nat),
      reportLoopLeftover nativeMaxX nativeMaxY env i l d n =
        reportLoop nativeMaxX nativeMaxY env i l d n) ∧
    (∀ (px py : Int) (regions : List ClickableRegion),
      regionLoopLeftover px py regions = regionLoop px py regions) ∧
    (∀ (nativeMaxX nativeMaxY : Int) (s : LoopState) (env : Env) (ev : InputEvent),
      stepAction nativeMaxX nativeMaxY s (Action.record true env ev) =
        stepAction nativeMaxX nativeMaxY s (Action.record false env ev)) :=
  ⟨handleLeftoverEvent_eq, reportLoopLeftover_eq, regionLoopLeftover_eq,
    fun mx my s env ev => handleLeftoverEvent_eq mx my env s ev⟩

/-! ## The release and the region match, slot by slot -/

/-- The body of the report loop for a live slot that is down and no tap
candidate yet. -/
theorem reportSlot_untested (mx my : Int) (env : Env) (i : Nat) (tp : TouchPoint) (d : String)
    (n : Nat) (hid : tp.id ≠ -1) (hd : tp.isDown = true) (hm : tp.maybeUiTap = false) :
    (reportSlot mx my env i tp d n).1 =
      (match regionLoop (mappedPoint mx my env tp).1 (mappedPoint mx my env tp).2
          env.g_clickableRegions with
        | some region =>
          { tp with
              downX := (mappedPoint mx my env tp).1
              downY := (mappedPoint mx my env tp).2
              maybeUiTap := true
              downRegionIdentifier := region.identifier
              isCheckingForLongPressStart := true
              longPressStartSent := false }
        | none =>
          { tp with
              downX := (mappedPoint mx my env tp).1
              downY := (mappedPoint mx my env tp).2 }) ∧
    (reportSlot mx my env i tp d n).2.1 =
      (match regionLoop (mappedPoint mx my env tp).1 (mappedPoint mx my env tp).2
          env.g_clickableRegions with
        | some region =>
          [Emit.tapDown i region.identifier (mappedPoint mx my env tp).1
            (mappedPoint mx my env tp).2]
        | none => []) := by
  unfold reportSlot mappedPoint
  dsimp only
  rw [if_pos hid]
  have hc : (tp.isDown && !tp.maybeUiTap) = true := by simp [hd, hm]
  rw [if_pos hc]
  cases regionLoop _ _ env.g_clickableRegions with
  | none =>
    dsimp only
    constructor <;> split_ifs <;> rfl
  | some region =>
    dsimp only
    constructor <;> split_ifs <;> rfl

/-- A report-boundary record with the changed flag set, seen from slot `k`. -/
theorem report_slot_view (mx my : Int) (s : LoopState) (b : Bool) (env : Env) (ev : InputEvent)
    (h1 : ev.type = EV_SYN) (h2 : ev.code = SYN_REPORT) (hu : s.touchDataUpdated = true)
    (k : Nat) (tp : TouchPoint) (hk : s.localTouches[k]? = some tp) :
    (stepAction mx my s (Action.record b env ev)).1.localTouches[k]? =
      some (reportSlot mx my env k tp "" 0).1 ∧
    (stepAction mx my s (Action.record b env ev)).2.filter (Emit.ofSlot k) =
      (reportSlot mx my env k tp "" 0).2.1 := by
  have hne : ¬ (EV_SYN = EV_ABS) := by decide
  obtain ⟨g1, g2⟩ := stepAction_slot mx my s (Action.record b env ev) k tp hk
  have hs : slotStep mx my k s.currentSlot.toNat s.touchDataUpdated (Action.record b env ev) tp
      = ((reportSlot mx my env k tp "" 0).1, (reportSlot mx my env k tp "" 0).2.1) := by
    simp only [slotStep, h1, h2, hne, hu, if_true, if_false, and_self]
  rw [hs] at g1 g2
  exact ⟨g1, g2⟩

/-- C17: at a report boundary handled with the changed flag set, in a state
reached from the initial state, every slot `k` that is down and no tap
candidate gets the mapped point `(sx, sy)` of its current raw position as
`downX, downY`.  If some region of the current list contains `(sx, sy)`, then
for the first such region the slot becomes a tap candidate, its
`downRegionIdentifier` becomes the identifier of that region,
`isCheckingForLongPressStart` becomes true, `longPressStartSent` false, and
the calls made for the slot at that boundary are exactly one
`tapDown(identifier, sx, sy)`.  If no region contains it, no call is made for
the slot and the slot stays as it was but for `downX, downY`: down and no
candidate, so that a later report boundary tests it again. -/
theorem report_matches_untested_slot (nativeMaxX nativeMaxY : Int) (acts : List Action)
    (viaLeftover : Bool) (env : Env) (ev : InputEvent) (k : Nat) (tp : TouchPoint)
    (h1 : ev.type = EV_SYN) (h2 : ev.code = SYN_REPORT)
    (hu : (exec nativeMaxX nativeMaxY LoopState.init acts).touchDataUpdated = true)
    (hk : (exec nativeMaxX nativeMaxY LoopState.init acts).localTouches[k]? = some tp)
    (hd : tp.isDown = true) (hm : tp.maybeUiTap = false) :
    ((∃ q ∈ env.g_clickableRegions,
        q.contains (mappedPoint nativeMaxX nativeMaxY env tp).1
          (mappedPoint nativeMaxX nativeMaxY env tp).2) →
      ∃ (pre : List ClickableRegion) (region : ClickableRegion) (post : List ClickableRegion),
        env.g_clickableRegions = pre ++ region :: post ∧
        region.contains (mappedPoint nativeMaxX nativeMaxY env tp).1
          (mappedPoint nativeMaxX nativeMaxY env tp).2 ∧
        (∀ q ∈ pre, ¬ q.contains (mappedPoint nativeMaxX nativeMaxY env tp).1
          (mappedPoint nativeMaxX nativeMaxY env tp).2) ∧
        (stepAction nativeMaxX nativeMaxY (exec nativeMaxX nativeMaxY LoopState.init acts)
          (Action.record viaLeftover env ev)).1.localTouches[k]? =
          some { tp with
                  downX := (mappedPoint nativeMaxX nativeMaxY env tp).1
                  downY := (mappedPoint nativeMaxX nativeMaxY env tp).2
                  maybeUiTap := true
                  downRegionIdentifier := region.identifier
                  isCheckingForLongPressStart := true
                  longPressStartSent := false } ∧
        (stepAction nativeMaxX nativeMaxY (exec nativeMaxX nativeMaxY LoopState.init acts)
          (Action.record viaLeftover env ev)).2.filter (Emit.ofSlot k) =
          [Emit.tapDown k region.identifier (mappedPoint nativeMaxX nativeMaxY env tp).1
            (mappedPoint nativeMaxX nativeMaxY env tp).2]) ∧
    ((∀ q ∈ env.g_clickableRegions,
        ¬ q.contains (mappedPoint nativeMaxX nativeMaxY env tp).1
          (mappedPoint nativeMaxX nativeMaxY env tp).2) →
      (stepAction nativeMaxX nativeMaxY (exec nativeMaxX nativeMaxY LoopState.init acts)
        (Action.record viaLeftover env ev)).1.localTouches[k]? =
        some { tp with
                downX := (mappedPoint nativeMaxX nativeMaxY env tp).1
                downY := (mappedPoint nativeMaxX nativeMaxY env tp).2 } ∧
      (stepAction nativeMaxX nativeMaxY (exec nativeMaxX nativeMaxY LoopState.init acts)
        (Action.record viaLeftover env ev)).2.filter (Emit.ofSlot k) = []) := by
  have hid : tp.id ≠ -1 := (reach_flagInv nativeMaxX nativeMaxY acts k tp hk).1.mp hd
  obtain ⟨g1, g2⟩ := report_slot_view nativeMaxX nativeMaxY _ viaLeftover env ev h1 h2 hu k tp hk
  obtain ⟨r1, r2⟩ := reportSlot_untested nativeMaxX nativeMaxY env k tp "" 0 hid hd hm
  rw [r1] at g1
  rw [r2] at g2
  constructor
  · intro hex
    have hsome := (regionLoop_isSome _ _ _).mpr hex
    obtain ⟨region, hreg⟩ := Option.isSome_iff_exists.mp hsome
    obtain ⟨pre, post, e1, e2, e3⟩ := (regionLoop_eq_some _ _ _ region).mp hreg
    rw [hreg] at g1 g2
    exact ⟨pre, region, post, e1, e2, e3, g1, g2⟩
  · intro hno
    have hnone : regionLoop (mappedPoint nativeMaxX nativeMaxY env tp).1
        (mappedPoint nativeMaxX nativeMaxY env tp).2 env.g_clickableRegions = none := by
      cases hreg : regionLoop (mappedPoint nativeMaxX nativeMaxY env tp).1
          (mappedPoint nativeMaxX nativeMaxY env tp).2 env.g_clickableRegions with
      | none => rfl
      | some region =>
        obtain ⟨pre, post, e1, e2, _⟩ := (regionLoop_eq_some _ _ _ region).mp hreg
        exact absurd e2 (hno region (by rw [e1]; simp))
    rw [hnone] at g1 g2
    exact ⟨g1, g2⟩

/-- Witness of C17 on the sample run: after the first three records slot 0 is
down at raw (790, 110), which maps to (110, 210) inside `demoRegion`; the
report boundary makes it a candidate of `"btn1"` and sends one `tapDown`. -/
theorem report_matches_untested_slot_witness :
    demoReport.type = EV_SYN ∧ demoReport.code = SYN_REPORT ∧
    (exec 1000 1000 LoopState.init (demoActs.take 3)).touchDataUpdated = true ∧
    (exec 1000 1000 LoopState.init (demoActs.take 3)).localTouches[0]? =
      some { id := 7, x := 790, y := 110, isDown := true } ∧
    (∃ (pre : List ClickableRegion) (region : ClickableRegion) (post : List ClickableRegion),
      (demoEnv 0).g_clickableRegions = pre ++ region :: post ∧
      (stepAction 1000 1000 (exec 1000 1000 LoopState.init (demoActs.take 3))
        (Action.record false (demoEnv 0) demoReport)).2.filter (Emit.ofSlot 0) =
        [Emit.tapDown 0 region.identifier 110 210]) :=
  ⟨rfl, rfl, by decide, by decide,
    match (report_matches_untested_slot 1000 1000 (demoActs.take 3) false (demoEnv 0)
      demoReport 0 { id := 7, x := 790, y := 110, isDown := true } rfl rfl (by decide)
      (by decide) rfl rfl).1 ⟨demoRegion, by decide, by decide⟩ with
    | ⟨pre, region, post, e1, _, _, _, e5⟩ => ⟨pre, region, post, e1, e5⟩⟩

/-- C16: a tracking-id record with value -1 handled (by either copy of the
handler) while the current slot holds `tp` sends exactly one
`pressEnd(downRegionIdentifier, sx, sy)` when the slot was down, a tap
candidate and had `longPressStartSent` set, `(sx, sy)` being the mapped point
of the slot's raw `(x, y)` under the screen geometry `env` read at the release
(the `coordinateMapper` of the specification when both maxima are positive);
otherwise it makes no call.  In every case the slot is free afterwards:
tracking id -1, `isDown`, `maybeUiTap`, `uiTapHandled`,
`isCheckingForLongPressStart` and `longPressStartSent` false and an empty
`downRegionIdentifier`; the other slots are as before. -/
theorem release_emits_pressEnd_iff_signaled (nativeMaxX nativeMaxY : Int) (s : LoopState)
    (viaLeftover : Bool) (env : Env) (ev : InputEvent) (tp : TouchPoint)
    (h1 : ev.type = EV_ABS) (h2 : ev.code = ABS_MT_TRACKING_ID) (h3 : ev.value = -1)
    (htp : s.localTouches[s.currentSlot.toNat]? = some tp) :
    ((tp.isDown = true ∧ tp.maybeUiTap = true ∧ tp.longPressStartSent = true) →
      (stepAction nativeMaxX nativeMaxY s (Action.record viaLeftover env ev)).2 =
        [Emit.pressEnd s.currentSlot.toNat tp.downRegionIdentifier
          (mappedPoint nativeMaxX nativeMaxY env tp).1
          (mappedPoint nativeMaxX nativeMaxY env tp).2]) ∧
    (¬ (tp.isDown = true ∧ tp.maybeUiTap = true ∧ tp.longPressStartSent = true) →
      (stepAction nativeMaxX nativeMaxY s (Action.record viaLeftover env ev)).2 = []) ∧
    (0 < nativeMaxX → 0 < nativeMaxY →
      mappedPoint nativeMaxX nativeMaxY env tp = screenPoint nativeMaxX nativeMaxY env tp) ∧
    (stepAction nativeMaxX nativeMaxY s
        (Action.record viaLeftover env ev)).1.localTouches[s.currentSlot.toNat]? =
      some { tp with
              id := -1
              isDown := false
              maybeUiTap := false
              uiTapHandled := false
              downRegionIdentifier := ""
              isCheckingForLongPressStart := false
              longPressStartSent := false } ∧
    (∀ j : Nat, j ≠ s.currentSlot.toNat →
      (stepAction nativeMaxX nativeMaxY s
        (Action.record viaLeftover env ev)).1.localTouches[j]? = s.localTouches[j]?) := by
  have hne : ¬ (ABS_MT_TRACKING_ID = ABS_MT_SLOT) := by decide
  have hget : s.localTouches.getD s.currentSlot.toNat {} = tp := by
    rw [List.getD_eq_getElem?_getD, htp]
    rfl
  have hem := release_emits nativeMaxX nativeMaxY env s viaLeftover ev h1 h2 h3 tp hget
    (mappedPoint nativeMaxX nativeMaxY env tp).1 (mappedPoint nativeMaxX nativeMaxY env tp).2
    rfl rfl
  refine ⟨?_, ?_, ?_, ?_, ?_⟩
  · rintro ⟨a1, a2, a3⟩
    rw [hem]
    simp [a1, a2, a3]
  · intro hnot
    rw [hem]
    have : (tp.isDown && tp.maybeUiTap && tp.longPressStartSent) = false := by
      by_cases a1 : tp.isDown = true <;> by_cases a2 : tp.maybeUiTap = true <;>
        by_cases a3 : tp.longPressStartSent = true <;> simp_all
    simp [this]
  · intro hX hY
    exact mappedPoint_eq_screenPoint nativeMaxX nativeMaxY env tp hX hY
  · obtain ⟨g1, _⟩ := stepAction_slot nativeMaxX nativeMaxY s (Action.record viaLeftover env ev)
      _ tp htp
    rw [g1]
    simp only [slotStep, h1, h2, h3, hne, if_true, if_false]
  · intro j hj
    cases hjs : s.localTouches[j]? with
    | none =>
      exact (stepAction_slot_none nativeMaxX nativeMaxY s _ j hjs).1
    | some tq =>
      obtain ⟨g1, _⟩ := stepAction_slot nativeMaxX nativeMaxY s
        (Action.record viaLeftover env ev) j tq hjs
      rw [g1]
      have hj2 : ¬ (s.currentSlot.toNat = j) := fun h => hj h.symm
      simp only [slotStep, h1, h2, hne, hj2, if_true, if_false]

/-- Witness of C16 on the sample run: after the first seven steps slot 0 is
down, a candidate of `"btn1"` whose long press was reported, at raw
(790, 110); the release sends `pressEnd("btn1", 110, 210)`. -/
theorem release_emits_pressEnd_witness :
    (exec 1000 1000 LoopState.init (demoActs.take 7)).localTouches[
        (exec 1000 1000 LoopState.init (demoActs.take 7)).currentSlot.toNat]? =
      some { demoHeldSlot with isCheckingForLongPressStart := false,
                               longPressStartSent := true } ∧
    (stepAction 1000 1000 (exec 1000 1000 LoopState.init (demoActs.take 7))
        (demoRecord 170 EV_ABS ABS_MT_TRACKING_ID (-1))).2 =
      [Emit.pressEnd 0 "btn1" 110 210] :=
  ⟨by decide,
    (release_emits_pressEnd_iff_signaled 1000 1000
      (exec 1000 1000 LoopState.init (demoActs.take 7)) false (demoEnv 170)
      { tv_sec := 5, type := EV_ABS, code := ABS_MT_TRACKING_ID, value := -1 }
      { demoHeldSlot with isCheckingForLongPressStart := false, longPressStartSent := true }
      rfl rfl rfl (by decide)).1 ⟨rfl, rfl, rfl⟩⟩

/-! ## Failures of `poll` and `read` -/

/-- C21 (evaluation of the code): a `poll` that fails with `EINTR` ends the
pass at a `continue`, with the state (slots and leftover bytes) unchanged and
no call, and a `read` that fails with `EAGAIN` or `EWOULDBLOCK` does so too;
every other failure of `poll`, every other failure of `read` and a `read`
of 0 bytes end the loop.  A `read` that fails with `EINTR` is among the
failures that end the loop (line 167 tests `EAGAIN` and `EWOULDBLOCK` only):
the run stops at that pass and the data of the following passes is not
read. -/
theorem interrupted_read_ends_session :
    (∀ (P : Platform) (mx my : Int) (s : LoopState),
      loopPass P mx my (failedPoll EINTR) s = (s, [], PassEnd.again)) ∧
    (∀ (P : Platform) (mx my : Int) (s : LoopState),
      loopPass P mx my (failedRead EAGAIN) s = (s, [], PassEnd.again) ∧
      loopPass P mx my (failedRead EWOULDBLOCK) s = (s, [], PassEnd.again)) ∧
    (∀ (P : Platform) (mx my : Int) (s : LoopState) (errno : Int), errno ≠ EINTR →
      loopPass P mx my (failedPoll errno) s = (s, [], PassEnd.stop)) ∧
    (∀ (P : Platform) (mx my : Int) (s : LoopState) (errno : Int),
      errno ≠ EAGAIN → errno ≠ EWOULDBLOCK →
      loopPass P mx my (failedRead errno) s = (s, [], PassEnd.stop)) ∧
    (∀ (P : Platform) (mx my : Int) (s : LoopState),
      loopPass P mx my { pollRet := 1, revents := POLLIN, read := Except.ok [] } s =
        (s, [], PassEnd.stop)) ∧
    (∀ (P : Platform) (mx my : Int) (s : LoopState),
      loopPass P mx my (failedRead EINTR) s = (s, [], PassEnd.stop)) ∧
    (∀ (P : Platform) (mx my : Int) (s : LoopState) (rest : List (Bool × PassInput)),
      runLoop P mx my ((true, failedRead EINTR) :: rest) s = (s, []) ∧
      runLoop P mx my ((true, failedPoll EINTR) :: rest) s = runLoop P mx my rest s) := by
  have hin : (POLLIN &&& (POLLERR ||| POLLHUP ||| POLLNVAL) ≠ 0) = False := by
    simp only [POLLIN, POLLERR, POLLHUP, POLLNVAL]
    decide
  have hin2 : (POLLIN &&& POLLIN = 0) = False := by
    simp only [POLLIN]
    decide
  have hread : ∀ (P : Platform) (mx my : Int) (s : LoopState) (errno : Int),
      loopPass P mx my (failedRead errno) s =
        if errno = EAGAIN ∨ errno = EWOULDBLOCK then (s, [], PassEnd.again)
        else (s, [], PassEnd.stop) := by
    intro P mx my s errno
    simp only [loopPass, failedRead, hin, hin2, if_false]
    rfl
  have hpoll : ∀ (P : Platform) (mx my : Int) (s : LoopState) (errno : Int),
      loopPass P mx my (failedPoll errno) s =
        if errno = EINTR then (s, [], PassEnd.again) else (s, [], PassEnd.stop) := by
    intro P mx my s errno
    simp only [loopPass, failedPoll]
    rfl
  refine ⟨?_, ?_, ?_, ?_, ?_, ?_, ?_⟩
  · intro P mx my s
    rw [hpoll, if_pos rfl]
  · intro P mx my s
    rw [hread, hread]
    exact ⟨if_pos (Or.inl rfl), if_pos (Or.inr rfl)⟩
  · intro P mx my s errno h
    rw [hpoll, if_neg h]
  · intro P mx my s errno h1 h2
    rw [hread, if_neg (by tauto)]
  · intro P mx my s
    simp only [loopPass, hin, hin2, if_false]
    rfl
  · intro P mx my s
    rw [hread, if_neg (by decide)]
  · intro P mx my s rest
    constructor
    · simp only [runLoop, if_true]
      rw [hread, if_neg (by decide)]
    · simp only [runLoop, if_true]
      rw [hpoll, if_pos rfl]
      simp

/-! ## Permission repair and session control -/

/-- C22 (counterexample): a failed repair is fatal.  In the start, the device
is found not readable with `EACCES` and the `chmod` command exits with code 1:
the call throws, `g_isRunning` stays false and no thread is created.  In the
reading thread, the first `open` fails with `EACCES` and the `chmod` command
exits with code 1: `open` is called once only, although a second `open` would
have returned descriptor 5, and the thread returns without a session. -/
theorem failed_repair_is_fatal_example :
    tryFixPermissions demoStartDenied.repair = false ∧
    nativeStartInputReaderService demoStartDenied false = (false, StartResult.threw) ∧
    tryFixPermissions demoOpenDenied.repair = false ∧
    openDevice demoOpenDenied = (-1, 1) ∧
    inputReaderLoop demoPlatform { openInput := demoOpenDenied }
      [(true, { pollRet := 0 })] true = (true, none) := by
  refine ⟨by decide, by decide, by decide, by decide, by decide⟩

/-- C22 (amended): a failure of the permission repair is fatal.  In
`nativeStartInputReaderService`, when `access` fails with `EACCES` or `EPERM`
and `tryFixPermissions` returns false, the call throws, `g_isRunning` is
false afterwards and no thread is created.  In the reading thread, when the
first `open` fails with `EACCES` or `EPERM` and `tryFixPermissions` returns
false, `open` is not called again and the thread returns without a session.
When `tryFixPermissions` returns true, the start goes on to create the
thread, and the thread calls `open` a second time and has a session exactly
when that `open` succeeds and the thread attaches to the JVM.  Inside
`tryFixPermissions` the result of `setenforce` does not matter: the result
is that of the `chmod` command. -/
theorem failed_repair_is_fatal :
    (∀ inp : StartInput, initializeJniReferences inp.jni = true → inp.accessRet ≠ 0 →
      (inp.accessErrno = EACCES ∨ inp.accessErrno = EPERM) →
      tryFixPermissions inp.repair = false →
      nativeStartInputReaderService inp false = (false, StartResult.threw)) ∧
    (∀ o : OpenInput, o.fd1 < 0 → (o.errno1 = EACCES ∨ o.errno1 = EPERM) →
      tryFixPermissions o.repair = false →
      openDevice o = (o.fd1, 1) ∧
      ∀ (P : Platform) (t : ThreadInput) (passes : List (Bool × PassInput)) (g : Bool),
        t.openInput = o → inputReaderLoop P t passes g = (g, none)) ∧
    (∀ inp : StartInput, initializeJniReferences inp.jni = true → inp.accessRet ≠ 0 →
      (inp.accessErrno = EACCES ∨ inp.accessErrno = EPERM) →
      tryFixPermissions inp.repair = true → inp.threadCreated = true →
      nativeStartInputReaderService inp false = (true, StartResult.spawned)) ∧
    (∀ o : OpenInput, o.fd1 < 0 → (o.errno1 = EACCES ∨ o.errno1 = EPERM) →
      tryFixPermissions o.repair = true →
      openDevice o = (o.fd2, 2) ∧
      ∀ (P : Platform) (t : ThreadInput) (passes : List (Bool × PassInput)) (g : Bool),
        t.openInput = o →
        ((inputReaderLoop P t passes g).2.isSome = true ↔ (0 ≤ o.fd2 ∧ t.attached = true))) ∧
    (∀ r r2 : RepairInput, r.retChmod = r2.retChmod →
      tryFixPermissions r = tryFixPermissions r2) := by
  refine ⟨?_, ?_, ?_, ?_, ?_⟩
  · intro inp h1 h2 h3 h4
    simp [nativeStartInputReaderService, h1, h2, h3, h4]
  · intro o h1 h2 h3
    have ho : openDevice o = (o.fd1, 1) := by
      simp [openDevice, h1, h2, h3]
    refine ⟨ho, ?_⟩
    intro P t passes g ht
    simp [inputReaderLoop, ht, ho, h1]
  · intro inp h1 h2 h3 h4 h5
    simp [nativeStartInputReaderService, h1, h2, h3, h4, h5]
  · intro o h1 h2 h3
    have ho : openDevice o = (o.fd2, 2) := by
      simp [openDevice, h1, h2, h3]
    refine ⟨ho, ?_⟩
    intro P t passes g ht
    unfold inputReaderLoop
    rw [ht, ho]
    by_cases hf : o.fd2 < 0
    · have : ¬ 0 ≤ o.fd2 := by omega
      simp [hf, this]
    · have h0 : 0 ≤ o.fd2 := by omega
      by_cases ha : t.attached = true <;> simp [hf, h0, ha]
  · intro r r2 h
    simp [tryFixPermissions, h]

/-- C29 (counterexample): a start whose `FindClass` returns null, made while
`g_isRunning` is true, throws and leaves `g_isRunning` false: a start while
the flag is true does not always leave the flag unchanged. -/
theorem start_while_running_clears_flag_example :
    initializeJniReferences demoStartNoJni.jni = false ∧
    nativeStartInputReaderService demoStartNoJni true = (false, StartResult.threw) := by
  refine ⟨by decide, by decide⟩

/-- C29 (amended): the reading thread never writes `g_isRunning`: whatever
its opens, its attachment and its passes answer, the flag is after its return
what it was.  A start whose JNI references initialise finds a true flag,
returns at "already running" and leaves the flag true; so after a session
that ended on its own a start creates no thread, and only after a stop, which
makes the flag false, does a start create a thread again.  A stop while the
flag is false leaves it false.  A start whose JNI references fail to
initialise throws and makes the flag false, whatever it was. -/
theorem running_flag_written_only_by_control :
    (∀ (P : Platform) (t : ThreadInput) (passes : List (Bool × PassInput)) (g : Bool),
      (inputReaderLoop P t passes g).1 = g) ∧
    (∀ inp : StartInput, initializeJniReferences inp.jni = true →
      nativeStartInputReaderService inp true = (true, StartResult.alreadyRunning)) ∧
    (∀ (inp : StartInput) (g : Bool), initializeJniReferences inp.jni = false →
      nativeStartInputReaderService inp g = (false, StartResult.threw)) ∧
    nativeStopInputReaderService false = false ∧
    nativeStopInputReaderService true = false ∧
    (∀ inp : StartInput, initializeJniReferences inp.jni = true → inp.accessRet = 0 →
      inp.threadCreated = true →
      nativeStartInputReaderService inp false = (true, StartResult.spawned)) ∧
    (∀ (inp : StartInput) (P : Platform) (t : ThreadInput) (passes : List (Bool × PassInput)),
      initializeJniReferences inp.jni = true → inp.accessRet = 0 → inp.threadCreated = true →
      nativeStartInputReaderService inp
          (inputReaderLoop P t passes (nativeStartInputReaderService inp false).1).1 =
        (true, StartResult.alreadyRunning) ∧
      nativeStartInputReaderService inp
          (nativeStopInputReaderService
            (inputReaderLoop P t passes (nativeStartInputReaderService inp false).1).1) =
        (true, StartResult.spawned)) := by
  have hthread : ∀ (P : Platform) (t : ThreadInput) (passes : List (Bool × PassInput))
      (g : Bool), (inputReaderLoop P t passes g).1 = g := by
    intro P t passes g
    unfold inputReaderLoop
    split_ifs <;> rfl
  have hrun : ∀ inp : StartInput, initializeJniReferences inp.jni = true →
      nativeStartInputReaderService inp true = (true, StartResult.alreadyRunning) := by
    intro inp h
    simp [nativeStartInputReaderService, h]
  have hspawn : ∀ inp : StartInput, initializeJniReferences inp.jni = true →
      inp.accessRet = 0 → inp.threadCreated = true →
      nativeStartInputReaderService inp false = (true, StartResult.spawned) := by
    intro inp h1 h2 h3
    simp [nativeStartInputReaderService, h1, h2, h3]
  refine ⟨hthread, hrun, ?_, by decide, by decide, hspawn, ?_⟩
  · intro inp g h
    simp [nativeStartInputReaderService, h]
  · intro inp P t passes h1 h2 h3
    rw [hthread, hspawn inp h1 h2 h3]
    exact ⟨hrun inp h1, hspawn inp h1 h2 h3⟩

/-! ## The region mutex in the trace of the reading thread -/

theorem callsOf_append (xs ys : List TraceEvent) :
    callsOf (xs ++ ys) = callsOf xs ++ callsOf ys := by
  induction xs with
  | nil => rfl
  | cons x rest ih => cases x <;> simp [callsOf, ih]

theorem callsOf_map (es : List Emit) : callsOf (es.map TraceEvent.call) = es := by
  induction es with
  | nil => rfl
  | cons e rest ih => simp [callsOf, ih]

theorem heldCalls_append (h : Bool) (xs ys : List TraceEvent) :
    heldCalls h (xs ++ ys) = heldCalls h xs ++ heldCalls (heldAfter h xs) ys := by
  induction xs generalizing h with
  | nil => rfl
  | cons x rest ih =>
    cases x with
    | acquire => simp [heldCalls, heldAfter, ih]
    | release => simp [heldCalls, heldAfter, ih]
    | call e => cases h <;> simp [heldCalls, heldAfter, ih]

theorem heldAfter_append (h : Bool) (xs ys : List TraceEvent) :
    heldAfter h (xs ++ ys) = heldAfter (heldAfter h xs) ys := by
  induction xs generalizing h with
  | nil => rfl
  | cons x rest ih => cases x <;> simp [heldAfter, ih]

theorem heldCalls_map (h : Bool) (es : List Emit) :
    heldCalls h (es.map TraceEvent.call) = (if h then es else []) ∧
    heldAfter h (es.map TraceEvent.call) = h := by
  induction es with
  | nil => cases h <;> exact ⟨rfl, rfl⟩
  | cons e rest ih => cases h <;> simp_all [heldCalls, heldAfter]

/-- The calls of the slot loop of a report boundary are `tapDown` calls. -/
theorem reportLoop_allTapDown (mx my : Int) (env : Env) (i : Nat) (l : List TouchPoint)
    (d : String) (n : Nat) :
    ∀ e ∈ (reportLoop mx my env i l d n).2.1, e.isTapDown = true := by
  induction l generalizing i d n with
  | nil =>
    intro e he
    simp [reportLoop] at he
  | cons tp rest ih =>
    intro e he
    simp only [reportLoop, List.mem_append] at he
    rcases he with he | he
    · rcases reportSlot_cases mx my env i tp d n with ⟨_, h2⟩ | ⟨_, _, _, h2⟩ |
        ⟨_, _, _, _, _, _, h2⟩
      · rw [h2] at he
        exact absurd he (List.not_mem_nil _)
      · rw [h2] at he
        exact absurd he (List.not_mem_nil _)
      · rw [h2] at he
        rw [List.mem_singleton.mp he]
        rfl
    · exact ih _ _ _ e he

/-- The calls of the long-press check are no `tapDown` calls. -/
theorem longPressCheck_noTapDown (t : Int) (s : LoopState) :
    ∀ e ∈ (longPressCheck t s).2, e.isTapDown = false := by
  have h : ∀ (i : Nat) (l : List TouchPoint), ∀ e ∈ (longPressLoop t i l).2,
      e.isTapDown = false := by
    intro i l
    induction l generalizing i with
    | nil =>
      intro e he
      simp [longPressLoop] at he
    | cons tp rest ih =>
      intro e he
      simp only [longPressLoop, List.mem_append] at he
      rcases he with he | he
      · unfold longPressSlot at he
        dsimp only at he
        split_ifs at he <;> simp at he
        subst he
        rfl
      · exact ih _ e he
  exact h 0 s.localTouches

/-- The trace of a report-boundary record. -/
theorem handleEventTrace_report (mx my : Int) (s : LoopState) (env : Env) (ev : InputEvent)
    (h1 : ev.type = EV_SYN) (h2 : ev.code = SYN_REPORT) :
    handleEventTrace mx my env s ev =
      if s.touchDataUpdated then
        [TraceEvent.acquire] ++
          (reportLoop mx my env 0 s.localTouches "T" 0).2.1.map TraceEvent.call ++
          [TraceEvent.release] ++
          (if 0 < s.localTouches.countP TouchPoint.inPacket then
            [TraceEvent.call
              (Emit.raw (rawPacket mx my env s.localTouches (reportTimestampMs env ev)))]
          else [])
      else [] := by
  have hne : ¬ (EV_SYN = EV_ABS) := by decide
  obtain ⟨p1, p2⟩ := reportLoop_packet mx my env 0 s.localTouches "T" 0
  unfold handleEventTrace
  simp only [h1, h2, hne, if_false, and_self, if_true]
  by_cases hu : s.touchDataUpdated = true
  · simp only [hu, if_true]
    rw [p1, p2]
    simp only [Nat.zero_add, gt_iff_lt, rawPacket, reportTimestampMs, String.append_assoc]
  · simp only [hu]
    rfl

/-- The calls of a record that is no report boundary are no `tapDown` calls. -/
theorem other_record_noTapDown (mx my : Int) (s : LoopState) (env : Env) (ev : InputEvent)
    (h : ¬ (ev.type = EV_SYN ∧ ev.code = SYN_REPORT)) :
    ∀ e ∈ (handleEvent mx my env s ev).2, e.isTapDown = false := by
  intro e he
  by_cases c1 : ev.type = EV_ABS
  · by_cases c3 : ev.code = ABS_MT_TRACKING_ID
    · by_cases c4 : ev.value = -1
      · have hrel := release_emits mx my env s false ev c1 c3 c4 _ rfl _ _ rfl rfl
        rw [stepAction_record] at hrel
        rw [hrel] at he
        have hcases : ∀ (c : Prop) [Decidable c] (x : Emit),
            e ∈ (if c then [x] else []) → e = x := by
          intro c _ x hm
          by_cases hc : c
          · rw [if_pos hc] at hm
            exact List.mem_singleton.mp hm
          · rw [if_neg hc] at hm
            exact absurd hm (List.not_mem_nil _)
        rw [hcases _ _ he]
        rfl
      · have hne : ¬ (ABS_MT_TRACKING_ID = ABS_MT_SLOT) := by decide
        unfold handleEvent at he
        simp only [c1, c3, c4, hne, if_true, if_false] at he
        exact absurd he (List.not_mem_nil _)
    · unfold handleEvent at he
      rw [if_pos c1] at he
      by_cases c2 : ev.code = ABS_MT_SLOT
      · rw [if_pos c2] at he
        exact absurd he (List.not_mem_nil _)
      · rw [if_neg c2, if_neg c3] at he
        split_ifs at he <;> exact absurd he (List.not_mem_nil _)
  · unfold handleEvent at he
    rw [if_neg c1, if_neg h] at he
    exact absurd he (List.not_mem_nil _)

/-- A block of calls made under the mutex, followed by calls made after its
release. -/
theorem locked_block (es tail : List Emit) (hes : ∀ e ∈ es, e.isTapDown = true)
    (htail : ∀ e ∈ tail, e.isTapDown = false) :
    callsOf ([TraceEvent.acquire] ++ es.map TraceEvent.call ++ [TraceEvent.release]
      ++ tail.map TraceEvent.call) = es ++ tail ∧
    heldAfter false ([TraceEvent.acquire] ++ es.map TraceEvent.call ++ [TraceEvent.release]
      ++ tail.map TraceEvent.call) = false ∧
    heldCalls false ([TraceEvent.acquire] ++ es.map TraceEvent.call ++ [TraceEvent.release]
      ++ tail.map TraceEvent.call) = (es ++ tail).filter Emit.isTapDown := by
  obtain ⟨m1, m2⟩ := heldCalls_map true es
  obtain ⟨n1, n2⟩ := heldCalls_map false tail
  have a1 : heldAfter false ([TraceEvent.acquire] ++ es.map TraceEvent.call) = true := by
    rw [heldAfter_append]
    exact m2
  have a2 : heldAfter false ([TraceEvent.acquire] ++ es.map TraceEvent.call
      ++ [TraceEvent.release]) = false := by
    rw [heldAfter_append]
    rfl
  have b1 : heldCalls false ([TraceEvent.acquire] ++ es.map TraceEvent.call) = es := by
    rw [heldCalls_append]
    show [] ++ heldCalls true (es.map TraceEvent.call) = es
    rw [m1]
    rfl
  have f1 : es.filter Emit.isTapDown = es := List.filter_eq_self.mpr hes
  have f2 : tail.filter Emit.isTapDown = [] := by
    rw [List.filter_eq_nil_iff]
    intro e he
    simp [htail e he]
  refine ⟨?_, ?_, ?_⟩
  · rw [callsOf_append, callsOf_append, callsOf_append, callsOf_map, callsOf_map]
    simp [callsOf]
  · rw [heldAfter_append, a2]
    exact n2
  · rw [heldCalls_append, a2, n1, heldCalls_append, a1, b1, List.filter_append, f1, f2]
    simp [heldCalls]

/-- One action: its trace carries its calls, leaves the mutex free, and the
calls made while the mutex is held are its `tapDown` calls. -/
theorem stepTrace_calls (mx my : Int) (s : LoopState) (a : Action) :
    callsOf (stepTrace mx my s a) = (stepAction mx my s a).2 ∧
    heldAfter false (stepTrace mx my s a) = false ∧
    heldCalls false (stepTrace mx my s a) = (stepAction mx my s a).2.filter Emit.isTapDown := by
  have hplain : ∀ es : List Emit, (∀ e ∈ es, e.isTapDown = false) →
      callsOf (es.map TraceEvent.call) = es ∧
      heldAfter false (es.map TraceEvent.call) = false ∧
      heldCalls false (es.map TraceEvent.call) = es.filter Emit.isTapDown := by
    intro es hno
    obtain ⟨h1, h2⟩ := heldCalls_map false es
    refine ⟨callsOf_map _, h2, ?_⟩
    rw [h1]
    simp only [Bool.false_eq_true, if_false]
    symm
    rw [List.filter_eq_nil_iff]
    intro e he
    simp [hno e he]
  cases a with
  | check t => exact hplain _ (longPressCheck_noTapDown t s)
  | record b env ev =>
    by_cases c2 : ev.type = EV_SYN ∧ ev.code = SYN_REPORT
    · rw [report_step mx my s b env ev c2.1 c2.2]
      simp only [stepTrace]
      rw [handleEventTrace_report mx my s env ev c2.1 c2.2]
      by_cases c3 : s.touchDataUpdated = true
      · have hall := reportLoop_allTapDown mx my env 0 s.localTouches "T" 0
        rw [if_pos c3, if_pos c3]
        have htail : ∀ e ∈ (if 0 < s.localTouches.countP TouchPoint.inPacket then
            [Emit.raw (rawPacket mx my env s.localTouches (reportTimestampMs env ev))]
            else []), e.isTapDown = false := by
          intro e he
          split_ifs at he
          · rw [List.mem_singleton.mp he]
            rfl
          · exact absurd he (List.not_mem_nil _)
        have hmap : (if 0 < s.localTouches.countP TouchPoint.inPacket then
            [TraceEvent.call
              (Emit.raw (rawPacket mx my env s.localTouches (reportTimestampMs env ev)))]
            else []) =
            (if 0 < s.localTouches.countP TouchPoint.inPacket then
              [Emit.raw (rawPacket mx my env s.localTouches (reportTimestampMs env ev))]
            else []).map TraceEvent.call := by
          split_ifs <;> rfl
        rw [hmap]
        exact locked_block _ _ hall htail
      · rw [if_neg c3, if_neg c3]
        exact ⟨rfl, rfl, rfl⟩
    · rw [stepAction_record]
      have hno := other_record_noTapDown mx my s env ev c2
      have ht : stepTrace mx my s (Action.record b env ev) =
          (handleEvent mx my env s ev).2.map TraceEvent.call := by
        simp only [stepTrace]
        unfold handleEventTrace
        by_cases c1 : ev.type = EV_ABS
        · rw [if_pos c1]
        · rw [if_neg c1, if_neg c2]
          unfold handleEvent
          rw [if_neg c1, if_neg c2]
          rfl
      rw [ht]
      exact hplain _ hno

/-- A run: its trace carries its calls, leaves the mutex free, and the calls
made while the mutex is held are its `tapDown` calls. -/
theorem traceOf_calls (mx my : Int) (acts : List Action) (s : LoopState) :
    callsOf (traceOf mx my s acts) = emitsOf (runSteps mx my s acts) ∧
    heldAfter false (traceOf mx my s acts) = false ∧
    heldCalls false (traceOf mx my s acts) =
      (emitsOf (runSteps mx my s acts)).filter Emit.isTapDown := by
  induction acts generalizing s with
  | nil => exact ⟨rfl, rfl, rfl⟩
  | cons a rest ih =>
    obtain ⟨a1, a2, a3⟩ := stepTrace_calls mx my s a
    obtain ⟨b1, b2, b3⟩ := ih (stepAction mx my s a).1
    simp only [traceOf, runSteps, emitsOf_cons]
    refine ⟨?_, ?_, ?_⟩
    · rw [callsOf_append, a1, b1]
    · rw [heldAfter_append, a2, b2]
    · rw [heldCalls_append, a2, a3, b3, List.filter_append]

/-- C23 (counterexample): in the sample run the report boundary that matches
slot 0 acquires `g_regionMutex`, sends the `tapDown` while it holds it,
releases it and then sends the raw packet: a call is made between an acquire
and its release. -/
theorem tapDown_sent_under_mutex_example :
    stepTrace 1000 1000 (exec 1000 1000 LoopState.init (demoActs.take 3))
        (demoRecord 0 EV_SYN SYN_REPORT 0) =
      [TraceEvent.acquire, TraceEvent.call (Emit.tapDown 0 "btn1" 110 210),
        TraceEvent.release, TraceEvent.call (Emit.raw "T|7,110,210;5000")] ∧
    heldCalls false (traceOf 1000 1000 LoopState.init demoActs) =
      [Emit.tapDown 0 "btn1" 110 210] := by
  refine ⟨by decide, by decide⟩

/-- C23 (amended): in the trace of the reading thread, for every run from the
initial state, `g_regionMutex` is taken only at a report boundary handled
with the changed flag set, and is held over the whole slot loop of that
boundary: the trace of such a record is the acquire, the `tapDown` calls of
the slot loop, the release, and then the raw packet if there is one.  Hence
the calls made between an acquire and its release are exactly the `tapDown`
calls of the run; no `pressStart`, `pressEnd` or raw packet is sent while the
mutex is held; and the mutex is free after every action.  With the lock
events erased the trace is the sequence of calls of the run. -/
theorem mutex_held_over_slot_loop (nativeMaxX nativeMaxY : Int) (acts : List Action) :
    callsOf (traceOf nativeMaxX nativeMaxY LoopState.init acts) =
      emitsOf (runSteps nativeMaxX nativeMaxY LoopState.init acts) ∧
    heldAfter false (traceOf nativeMaxX nativeMaxY LoopState.init acts) = false ∧
    heldCalls false (traceOf nativeMaxX nativeMaxY LoopState.init acts) =
      (emitsOf (runSteps nativeMaxX nativeMaxY LoopState.init acts)).filter Emit.isTapDown ∧
    (∀ e ∈ heldCalls false (traceOf nativeMaxX nativeMaxY LoopState.init acts),
      ∃ (slot : Nat) (identifier : String) (x y : Int), e = Emit.tapDown slot identifier x y) ∧
    (∀ (s : LoopState) (a : Action),
      heldAfter false (stepTrace nativeMaxX nativeMaxY s a) = false ∧
      (a.isReport = false → ∀ ev ∈ stepTrace nativeMaxX nativeMaxY s a,
        ev ≠ TraceEvent.acquire ∧ ev ≠ TraceEvent.release)) ∧
    (∀ (s : LoopState) (viaLeftover : Bool) (env : Env) (ev : InputEvent),
      ev.type = EV_SYN → ev.code = SYN_REPORT → s.touchDataUpdated = true →
      stepTrace nativeMaxX nativeMaxY s (Action.record viaLeftover env ev) =
        [TraceEvent.acquire] ++
          ((stepAction nativeMaxX nativeMaxY s (Action.record viaLeftover env ev)).2.filter
            Emit.isTapDown).map TraceEvent.call ++
          [TraceEvent.release] ++
          ((stepAction nativeMaxX nativeMaxY s (Action.record viaLeftover env ev)).2.filter
            Emit.isRaw).map TraceEvent.call) := by
  obtain ⟨h1, h2, h3⟩ := traceOf_calls nativeMaxX nativeMaxY acts LoopState.init
  refine ⟨h1, h2, h3, ?_, ?_, ?_⟩
  · intro e he
    rw [h3] at he
    have := (List.mem_filter.mp he).2
    cases e <;> simp [Emit.isTapDown] at this
    exact ⟨_, _, _, _, rfl⟩
  · intro s a
    refine ⟨(stepTrace_calls nativeMaxX nativeMaxY s a).2.1, ?_⟩
    intro hrep ev hev
    have hmap : ∀ es : List Emit, ev ∈ es.map TraceEvent.call →
        ev ≠ TraceEvent.acquire ∧ ev ≠ TraceEvent.release := by
      intro es hm
      obtain ⟨e, _, rfl⟩ := List.mem_map.mp hm
      exact ⟨by simp, by simp⟩
    cases a with
    | check t => exact hmap _ hev
    | record b env r =>
      have c2 : ¬ (r.type = EV_SYN ∧ r.code = SYN_REPORT) := by
        simpa [Action.isReport] using hrep
      simp only [stepTrace] at hev
      unfold handleEventTrace at hev
      by_cases c1 : r.type = EV_ABS
      · rw [if_pos c1] at hev
        exact hmap _ hev
      · rw [if_neg c1, if_neg c2] at hev
        exact absurd hev (List.not_mem_nil _)
  · intro s b env ev c1 c2 c3
    have hall := reportLoop_allTapDown nativeMaxX nativeMaxY env 0 s.localTouches "T" 0
    have hnr := reportLoop_noRaw nativeMaxX nativeMaxY env 0 s.localTouches "T" 0
    have f1 : (reportLoop nativeMaxX nativeMaxY env 0 s.localTouches "T" 0).2.1.filter
        Emit.isTapDown = (reportLoop nativeMaxX nativeMaxY env 0 s.localTouches "T" 0).2.1 :=
      List.filter_eq_self.mpr hall
    have f2 : (reportLoop nativeMaxX nativeMaxY env 0 s.localTouches "T" 0).2.1.filter
        Emit.isRaw = [] := by
      rw [List.filter_eq_nil_iff]
      intro e he
      simp [hnr e he]
    rw [report_step nativeMaxX nativeMaxY s b env ev c1 c2]
    simp only [stepTrace]
    rw [handleEventTrace_report nativeMaxX nativeMaxY s env ev c1 c2, if_pos c3, if_pos c3,
      List.filter_append, List.filter_append, f1, f2]
    split_ifs <;> simp [Emit.isTapDown, Emit.isRaw]

/-! ## The records parsed from the reads -/

theorem cut_fuel (P : Platform) (hE : 0 < P.EVENT_SIZE) (f1 f2 : Nat) (l : List Nat)
    (h1 : l.length ≤ f1) (h2 : l.length ≤ f2) :
    cutRecords P f1 l = cutRecords P f2 l ∧ cutRest P f1 l = cutRest P f2 l := by
  induction f1 generalizing f2 l with
  | zero =>
    have hl : l.length = 0 := by omega
    cases f2 with
    | zero => exact ⟨rfl, rfl⟩
    | succ f2 =>
      have : ¬ P.EVENT_SIZE ≤ l.length := by omega
      simp [cutRecords, cutRest, this]
  | succ f1 ih =>
    cases f2 with
    | zero =>
      have : ¬ P.EVENT_SIZE ≤ l.length := by omega
      simp [cutRecords, cutRest, this]
    | succ f2 =>
      by_cases hc : P.EVENT_SIZE ≤ l.length
      · have hd : (l.drop P.EVENT_SIZE).length = l.length - P.EVENT_SIZE := List.length_drop _ _
        obtain ⟨a, b⟩ := ih f2 (l.drop P.EVENT_SIZE) (by omega) (by omega)
        simp only [cutRecords, cutRest, hc, if_true, a, b]
        exact ⟨trivial, trivial⟩
      · simp [cutRecords, cutRest, hc]

/-- Unfolding of `cutStream` and `restOf`. -/
theorem cutStream_unfold (P : Platform) (hE : 0 < P.EVENT_SIZE) (l : List Nat) :
    cutStream P l =
      (if P.EVENT_SIZE ≤ l.length then
        P.decode (l.take P.EVENT_SIZE) :: cutStream P (l.drop P.EVENT_SIZE)
      else []) ∧
    restOf P l = (if P.EVENT_SIZE ≤ l.length then restOf P (l.drop P.EVENT_SIZE) else l) := by
  unfold cutStream restOf
  cases hn : l.length with
  | zero =>
    have : ¬ P.EVENT_SIZE ≤ 0 := by omega
    simp [cutRecords, cutRest, this]
  | succ n =>
    by_cases hc : P.EVENT_SIZE ≤ n + 1
    · have hd : (l.drop P.EVENT_SIZE).length = l.length - P.EVENT_SIZE := List.length_drop _ _
      obtain ⟨a, b⟩ := cut_fuel P hE n (l.drop P.EVENT_SIZE).length (l.drop P.EVENT_SIZE)
        (by omega) le_rfl
      simp only [cutRecords, cutRest, hn, hc, if_true, a, b]
      exact ⟨trivial, trivial⟩
    · simp [cutRecords, cutRest, hn, hc]

theorem restOf_length (P : Platform) (hE : 0 < P.EVENT_SIZE) (l : List Nat) :
    (restOf P l).length < P.EVENT_SIZE ∧ (restOf P l).length = l.length % P.EVENT_SIZE := by
  generalize hn : l.length = n
  induction n using Nat.strong_induction_on generalizing l with
  | _ n ih =>
    rw [(cutStream_unfold P hE l).2]
    by_cases hc : P.EVENT_SIZE ≤ l.length
    · have hd : (l.drop P.EVENT_SIZE).length = l.length - P.EVENT_SIZE := List.length_drop _ _
      obtain ⟨a, b⟩ := ih (l.drop P.EVENT_SIZE).length (by omega) (l.drop P.EVENT_SIZE) rfl
      rw [if_pos hc]
      refine ⟨a, ?_⟩
      rw [b, hd, ← hn]
      exact (Nat.mod_eq_sub_mod hc).symm
    · rw [if_neg hc]
      refine ⟨by omega, ?_⟩
      rw [← hn]
      exact (Nat.mod_eq_of_lt (by omega)).symm

/-- Cutting a stream delivered in two parts: the records of the first part,
then the records of its incomplete piece followed by the second part. -/
theorem cutStream_append (P : Platform) (hE : 0 < P.EVENT_SIZE) (l m : List Nat) :
    cutStream P (l ++ m) = cutStream P l ++ cutStream P (restOf P l ++ m) ∧
    restOf P (l ++ m) = restOf P (restOf P l ++ m) := by
  generalize hn : l.length = n
  induction n using Nat.strong_induction_on generalizing l with
  | _ n ih =>
    by_cases hc : P.EVENT_SIZE ≤ l.length
    · have hd : (l.drop P.EVENT_SIZE).length = l.length - P.EVENT_SIZE := List.length_drop _ _
      obtain ⟨a, b⟩ := ih (l.drop P.EVENT_SIZE).length (by omega) (l.drop P.EVENT_SIZE) rfl
      have hc2 : P.EVENT_SIZE ≤ (l ++ m).length := by
        rw [List.length_append]
        omega
      have ht : (l ++ m).take P.EVENT_SIZE = l.take P.EVENT_SIZE :=
        List.take_append_of_le_length hc
      have hdr : (l ++ m).drop P.EVENT_SIZE = l.drop P.EVENT_SIZE ++ m :=
        List.drop_append_of_le_length hc
      rw [(cutStream_unfold P hE (l ++ m)).1, (cutStream_unfold P hE (l ++ m)).2,
        (cutStream_unfold P hE l).1, (cutStream_unfold P hE l).2,
        if_pos hc2, if_pos hc2, if_pos hc, if_pos hc, ht, hdr, a, b]
      exact ⟨rfl, rfl⟩
    · rw [(cutStream_unfold P hE l).1, (cutStream_unfold P hE l).2, if_neg hc, if_neg hc]
      exact ⟨rfl, rfl⟩

/-- The parse loop with enough fuel cuts the bytes after `bufferOffset`. -/
theorem parseRecords_eq (P : Platform) (hE : 0 < P.EVENT_SIZE) (buf : List Nat)
    (fuel off : Nat) (hoff : off ≤ buf.length) (hfuel : buf.length - off ≤ fuel) :
    (parseRecords P buf fuel off).1 = cutStream P (buf.drop off) ∧
    buf.drop (parseRecords P buf fuel off).2 = restOf P (buf.drop off) ∧
    (parseRecords P buf fuel off).2 ≤ buf.length := by
  have hd : (buf.drop off).length = buf.length - off := List.length_drop _ _
  induction fuel generalizing off with
  | zero =>
    have hc : ¬ P.EVENT_SIZE ≤ (buf.drop off).length := by omega
    rw [(cutStream_unfold P hE _).1, (cutStream_unfold P hE _).2, if_neg hc, if_neg hc]
    exact ⟨rfl, rfl, hoff⟩
  | succ fuel ih =>
    unfold parseRecords
    rw [(cutStream_unfold P hE _).1, (cutStream_unfold P hE _).2]
    by_cases hc : off + P.EVENT_SIZE ≤ buf.length
    · have hc2 : P.EVENT_SIZE ≤ (buf.drop off).length := by omega
      have hd2 : (buf.drop (off + P.EVENT_SIZE)).length = buf.length - (off + P.EVENT_SIZE) :=
        List.length_drop _ _
      obtain ⟨a, b, c⟩ := ih (off + P.EVENT_SIZE) hc (by omega) hd2
      have hdd : (buf.drop off).drop P.EVENT_SIZE = buf.drop (off + P.EVENT_SIZE) := by
        rw [List.drop_drop, Nat.add_comm]
      rw [if_pos hc, if_pos hc2, if_pos hc2, hdd]
      dsimp only
      rw [a, b]
      exact ⟨rfl, rfl, c⟩
    · have hc2 : ¬ P.EVENT_SIZE ≤ (buf.drop off).length := by omega
      rw [if_neg hc, if_neg hc2, if_neg hc2]
      exact ⟨rfl, rfl, hoff⟩

/-- The trailing bytes saved after the parse loop are the bytes from the
final `bufferOffset` on. -/
theorem trailing_eq_drop (buf : List Nat) (off : Nat) :
    (if buf.length - off > 0 then (buf.drop off).take (buf.length - off) else [])
      = buf.drop off := by
  have hd : (buf.drop off).length = buf.length - off := List.length_drop _ _
  split_ifs with h
  · rw [← hd, List.take_length]
  · symm
    apply List.eq_nil_of_length_eq_zero
    omega

/-- A read processed with no leftover bytes, or with leftover bytes that it
completes to a record: the records are those of the leftover bytes followed
by the bytes read, cut at the multiples of the record size. -/
theorem readRecords_complete (P : Platform) (hE : 0 < P.EVENT_SIZE)
    (hM : P.EVENT_SIZE ≤ P.sizeModulus) (lo buf : List Nat) (hlo : lo.length < P.EVENT_SIZE)
    (h : lo = [] ∨ P.EVENT_SIZE ≤ lo.length + buf.length) :
    readRecords P lo buf = (cutStream P (lo ++ buf), restOf P (lo ++ buf)) := by
  unfold readRecords
  dsimp only
  rw [trailing_eq_drop]
  by_cases hl : lo.length > 0
  · have hge : P.EVENT_SIZE ≤ lo.length + buf.length := by
      rcases h with h | h
      · rw [h] at hl
        exact absurd hl (by simp)
      · exact h
    have hmod : (P.EVENT_SIZE + P.sizeModulus - lo.length) % P.sizeModulus
        = P.EVENT_SIZE - lo.length := by
      have : P.EVENT_SIZE + P.sizeModulus - lo.length
          = (P.EVENT_SIZE - lo.length) + P.sizeModulus := by omega
      rw [this, Nat.add_mod_right]
      exact Nat.mod_eq_of_lt (by omega)
    have hmin : min buf.length (P.EVENT_SIZE - lo.length) = P.EVENT_SIZE - lo.length := by
      omega
    have hlen : (lo ++ buf.take (P.EVENT_SIZE - lo.length)).length = P.EVENT_SIZE := by
      rw [List.length_append, List.length_take]
      omega
    have hrec : leftoverRecord P lo buf =
        (some (P.decode (lo ++ buf.take (P.EVENT_SIZE - lo.length))), [],
          P.EVENT_SIZE - lo.length) := by
      unfold leftoverRecord
      simp only [hl, if_true, hmod, hmin, hlen]
    rw [hrec]
    dsimp only
    obtain ⟨a, b, _⟩ := parseRecords_eq P hE buf buf.length (P.EVENT_SIZE - lo.length)
      (by omega) (by omega)
    have hc : P.EVENT_SIZE ≤ (lo ++ buf).length := by
      rw [List.length_append]
      exact hge
    have htake : (lo ++ buf).take P.EVENT_SIZE = lo ++ buf.take (P.EVENT_SIZE - lo.length) := by
      rw [List.take_append_eq_append_take, List.take_of_length_le (by omega)]
    have hdrop : (lo ++ buf).drop P.EVENT_SIZE = buf.drop (P.EVENT_SIZE - lo.length) := by
      rw [List.drop_append_eq_append_drop, List.drop_of_length_le (by omega)]
      rfl
    rw [a, b, (cutStream_unfold P hE (lo ++ buf)).1, (cutStream_unfold P hE (lo ++ buf)).2,
      if_pos hc, if_pos hc, htake, hdrop]
    rfl
  · have hnil : lo = [] := List.eq_nil_of_length_eq_zero (by omega)
    subst hnil
    have hrec : leftoverRecord P [] buf = (none, [], 0) := by
      simp [leftoverRecord]
    rw [hrec]
    dsimp only
    obtain ⟨a, b, _⟩ := parseRecords_eq P hE buf buf.length 0 (by omega) (by omega)
    rw [a, b]
    rfl

/-- A read too short to complete the record kept in `leftoverBuf`: no record
is handled and the bytes kept and the bytes read are dropped. -/
theorem readRecords_short (P : Platform) (hM : P.EVENT_SIZE ≤ P.sizeModulus)
    (lo buf : List Nat) (hlo : 0 < lo.length) (h : lo.length + buf.length < P.EVENT_SIZE) :
    readRecords P lo buf = ([], []) := by
  have hmod : (P.EVENT_SIZE + P.sizeModulus - lo.length) % P.sizeModulus
      = P.EVENT_SIZE - lo.length := by
    have : P.EVENT_SIZE + P.sizeModulus - lo.length
        = (P.EVENT_SIZE - lo.length) + P.sizeModulus := by omega
    rw [this, Nat.add_mod_right]
    exact Nat.mod_eq_of_lt (by omega)
  have hmin : min buf.length (P.EVENT_SIZE - lo.length) = buf.length := by omega
  have hlen : ¬ (lo ++ buf.take buf.length).length = P.EVENT_SIZE := by
    rw [List.length_append, List.length_take]
    omega
  have hrec : leftoverRecord P lo buf = (none, lo ++ buf.take buf.length, buf.length) := by
    unfold leftoverRecord
    simp only [gt_iff_lt, hlo, if_true, hmod, hmin, hlen, if_false]
  have hpar : parseRecords P buf buf.length buf.length = ([], buf.length) := by
    cases hb : buf.length with
    | zero => rfl
    | succ n =>
      unfold parseRecords
      have : ¬ (n + 1 + P.EVENT_SIZE ≤ n + 1) := by omega
      rw [hb, if_neg this]
  unfold readRecords
  dsimp only
  rw [hrec]
  dsimp only
  rw [hpar]
  simp

/-- The leftover bytes after a processed read are fewer than a record. -/
theorem readRecords_leftover_lt (P : Platform) (hE : 0 < P.EVENT_SIZE) (lo buf : List Nat) :
    (readRecords P lo buf).2.length < P.EVENT_SIZE := by
  unfold readRecords
  dsimp only
  rw [trailing_eq_drop]
  have hoff : (leftoverRecord P lo buf).2.2 ≤ buf.length := by
    unfold leftoverRecord
    dsimp only
    split_ifs <;> simp
  obtain ⟨_, b, _⟩ := parseRecords_eq P hE buf buf.length (leftoverRecord P lo buf).2.2
    hoff (by omega)
  rw [b]
  exact (restOf_length P hE _).1

/-- Successive reads, each of which completes the record left by the one
before: the records are those of all the bytes, cut at the multiples of the
record size. -/
theorem readsRecords_complete (P : Platform) (hE : 0 < P.EVENT_SIZE)
    (hM : P.EVENT_SIZE ≤ P.sizeModulus) (reads : List (List Nat)) (lo : List Nat)
    (hlo : lo.length < P.EVENT_SIZE) (h : ReadsComplete P reads lo) :
    readsRecords P reads lo =
      (cutStream P (lo ++ reads.flatten), restOf P (lo ++ reads.flatten)) := by
  induction reads generalizing lo with
  | nil =>
    have hc : ¬ P.EVENT_SIZE ≤ lo.length := by omega
    simp only [readsRecords, List.flatten_nil, List.append_nil]
    rw [(cutStream_unfold P hE lo).1, (cutStream_unfold P hE lo).2, if_neg hc, if_neg hc]
  | cons buf rest ih =>
    obtain ⟨h1, h2⟩ := h
    have hr := readRecords_complete P hE hM lo buf hlo h1
    rw [hr] at h2
    have ih2 := ih (restOf P (lo ++ buf)) (restOf_length P hE _).1 h2
    obtain ⟨a, b⟩ := cutStream_append P hE (lo ++ buf) rest.flatten
    simp only [readsRecords, List.flatten_cons]
    rw [hr]
    dsimp only
    rw [ih2, ← List.append_assoc, a, b]

theorem cutStream_length (P : Platform) (hE : 0 < P.EVENT_SIZE) (l : List Nat) :
    (cutStream P l).length = l.length / P.EVENT_SIZE := by
  generalize hn : l.length = n
  induction n using Nat.strong_induction_on generalizing l with
  | _ n ih =>
    rw [(cutStream_unfold P hE l).1]
    by_cases hc : P.EVENT_SIZE ≤ l.length
    · have hd : (l.drop P.EVENT_SIZE).length = l.length - P.EVENT_SIZE := List.length_drop _ _
      have := ih (l.drop P.EVENT_SIZE).length (by omega) (l.drop P.EVENT_SIZE) rfl
      rw [if_pos hc, List.length_cons, this, hd, ← hn]
      exact (Nat.div_eq_sub_div hE hc).symm
    · rw [if_neg hc, ← hn]
      exact (Nat.div_eq_of_lt (by omega)).symm

theorem recordActions_append (env : Nat → Env) (k : Nat) (xs ys : List InputEvent) :
    recordActions env k (xs ++ ys) =
      recordActions env k xs ++ recordActions env (k + xs.length) ys := by
  induction xs generalizing k with
  | nil => rfl
  | cons x rest ih =>
    have h := ih (k + 1)
    have e : k + 1 + rest.length = k + (rest.length + 1) := by omega
    rw [e] at h
    change recordActions env k (x :: (rest ++ ys)) = _
    simp only [recordActions, List.length_cons, List.cons_append]
    rw [h]

/-- The parse loop handles the records of `parseRecords`, in order. -/
theorem parseLoop_records (P : Platform) (mx my : Int) (env : Nat → Env) (buf : List Nat)
    (fuel off k : Nat) (s : LoopState) :
    (parseLoop P mx my env buf fuel off k s).1 =
      exec mx my s (recordActions env k (parseRecords P buf fuel off).1) ∧
    (parseLoop P mx my env buf fuel off k s).2.1 =
      emitsOf (runSteps mx my s (recordActions env k (parseRecords P buf fuel off).1)) ∧
    (parseLoop P mx my env buf fuel off k s).2.2 = (parseRecords P buf fuel off).2 := by
  induction fuel generalizing off k s with
  | zero => exact ⟨rfl, rfl, rfl⟩
  | succ fuel ih =>
    unfold parseLoop parseRecords
    split_ifs with h
    · obtain ⟨h1, h2, h3⟩ := ih (off + P.EVENT_SIZE) (k + 1)
        (handleEvent mx my (env k) s (P.decode ((buf.drop off).take P.EVENT_SIZE))).1
      dsimp only
      simp only [recordActions, exec, runSteps, emitsOf_cons, stepAction]
      rw [h1, h2, h3]
      exact ⟨rfl, rfl, rfl⟩
    · exact ⟨rfl, rfl, rfl⟩

/-- The leftover completion handles the record of `leftoverRecord`. -/
theorem completeLeftover_records (P : Platform) (mx my : Int) (env : Nat → Env)
    (buf : List Nat) (s : LoopState) :
    (completeLeftover P mx my env buf s).2.2.1 = (leftoverRecord P s.leftoverBuf buf).2.2 ∧
    (completeLeftover P mx my env buf s).2.2.2 =
      (leftoverRecord P s.leftoverBuf buf).1.toList.length ∧
    (completeLeftover P mx my env buf s).1.slots =
      (exec mx my s (recordActions env 0 (leftoverRecord P s.leftoverBuf buf).1.toList)).slots ∧
    (completeLeftover P mx my env buf s).2.1 =
      emitsOf (runSteps mx my s
        (recordActions env 0 (leftoverRecord P s.leftoverBuf buf).1.toList)) := by
  unfold completeLeftover leftoverRecord
  dsimp only
  split_ifs with h1 h2
  · have hl := stepAction_leftoverBuf mx my s [] (Action.record false (env 0)
      (P.decode (s.leftoverBuf ++ List.take
        (min buf.length ((P.EVENT_SIZE + P.sizeModulus - s.leftoverBuf.length)
          % P.sizeModulus)) buf)))
    simp only [stepAction] at hl
    refine ⟨rfl, rfl, ?_, ?_⟩
    · simp only [Option.toList, recordActions, exec, stepAction, handleLeftoverEvent_eq, hl]
      rfl
    · simp only [Option.toList, recordActions, runSteps, emitsOf_cons, stepAction,
        handleLeftoverEvent_eq, hl]
      simp [emitsOf]
  · exact ⟨rfl, rfl, rfl, rfl⟩
  · exact ⟨rfl, rfl, rfl, rfl⟩

/-- A processed read handles the records of `readRecords`, in order, then runs
the long-press check, and keeps the leftover bytes of `readRecords`. -/
theorem processRead_records (P : Platform) (mx my : Int) (env : Nat → Env) (buf : List Nat)
    (t : Int) (s : LoopState) :
    (processRead P mx my env buf t s).1.leftoverBuf = (readRecords P s.leftoverBuf buf).2 ∧
    (processRead P mx my env buf t s).1.slots =
      (exec mx my s (recordActions env 0 (readRecords P s.leftoverBuf buf).1
        ++ [Action.check t])).slots ∧
    (processRead P mx my env buf t s).2 =
      emitsOf (runSteps mx my s (recordActions env 0 (readRecords P s.leftoverBuf buf).1
        ++ [Action.check t])) := by
  obtain ⟨a1, a2, a3, a4⟩ := completeLeftover_records P mx my env buf s
  obtain ⟨b1, b2, b3⟩ := parseLoop_records P mx my env buf buf.length
    (completeLeftover P mx my env buf s).2.2.1 (completeLeftover P mx my env buf s).2.2.2
    (completeLeftover P mx my env buf s).1
  rw [a1, a2] at b1 b2 b3
  obtain ⟨c1, c2⟩ := run_slots mx my
    (recordActions env (leftoverRecord P s.leftoverBuf buf).1.toList.length
      (parseRecords P buf buf.length (leftoverRecord P s.leftoverBuf buf).2.2).1) _ _ a3
  have hacts : recordActions env 0 (readRecords P s.leftoverBuf buf).1 =
      recordActions env 0 (leftoverRecord P s.leftoverBuf buf).1.toList ++
        recordActions env (leftoverRecord P s.leftoverBuf buf).1.toList.length
          (parseRecords P buf buf.length (leftoverRecord P s.leftoverBuf buf).2.2).1 := by
    unfold readRecords
    dsimp only
    rw [recordActions_append, Nat.zero_add]
  have hk : ∀ (u : LoopState) (l : List Nat),
      (longPressCheck t { u with leftoverBuf := l }).1.slots =
        (longPressCheck t u).1.slots := fun _ _ => rfl
  have hk2 : ∀ (u : LoopState) (l : List Nat),
      (longPressCheck t { u with leftoverBuf := l }).2 = (longPressCheck t u).2 :=
    fun _ _ => rfl
  have hk3 : ∀ (u : LoopState) (l : List Nat),
      (longPressCheck t { u with leftoverBuf := l }).1.leftoverBuf = l := fun _ _ => rfl
  have hsl := stepAction_slots mx my _ _ (Action.check t) c2
  simp only [stepAction] at hsl
  refine ⟨?_, ?_, ?_⟩
  · unfold processRead readRecords
    dsimp only
    rw [a1, a2, b3]
    split_ifs <;> rw [hk3]
  · rw [hacts, exec_append, exec_append]
    unfold processRead
    dsimp only
    rw [a1, a2, b1]
    simp only [exec, stepAction]
    split_ifs <;> rw [hk] <;> exact hsl.2
  · rw [hacts, runSteps_append, runSteps_append, emitsOf_append, emitsOf_append, exec_append]
    unfold processRead
    dsimp only
    rw [a1, a2, a4, b2, c1, b1]
    have hlast : ∀ u : LoopState, emitsOf (runSteps mx my u [Action.check t])
        = (longPressCheck t u).2 := by
      intro u
      simp [runSteps, emitsOf, stepAction]
    rw [hlast, ← hsl.1]
    split_ifs <;> rw [hk2]

/-- What a pass does to the leftover bytes: nothing, or what a processed read
does. -/
theorem loopPass_leftover (P : Platform) (mx my : Int) (inp : PassInput) (s : LoopState) :
    (loopPass P mx my inp s).1.leftoverBuf = s.leftoverBuf ∨
    ∃ buf, (loopPass P mx my inp s).1.leftoverBuf = (readRecords P s.leftoverBuf buf).2 := by
  unfold loopPass
  split_ifs <;> try exact Or.inl rfl
  split
  · split_ifs <;> exact Or.inl rfl
  · split_ifs
    · exact Or.inl rfl
    · exact Or.inr ⟨_, (processRead_records P mx my inp.env _ inp.checkTimeMs s).1⟩

/-- The leftover bytes stay fewer than a record over every run of the loop. -/
theorem runLoop_leftover_lt (P : Platform) (hE : 0 < P.EVENT_SIZE) (mx my : Int)
    (passes : List (Bool × PassInput)) (s : LoopState)
    (hs : s.leftoverBuf.length < P.EVENT_SIZE) :
    (runLoop P mx my passes s).1.leftoverBuf.length < P.EVENT_SIZE := by
  induction passes generalizing s with
  | nil => exact hs
  | cons p rest ih =>
    obtain ⟨running, inp⟩ := p
    have hpass : (loopPass P mx my inp s).1.leftoverBuf.length < P.EVENT_SIZE := by
      rcases loopPass_leftover P mx my inp s with h | ⟨buf, h⟩
      · rw [h]
        exact hs
      · rw [h]
        exact readRecords_leftover_lt P hE _ _
    unfold runLoop
    cases running with
    | false => exact hs
    | true =>
      simp only [if_true]
      cases hend : (loopPass P mx my inp s).2.2 with
      | stop => exact hpass
      | again => exact ih _ hpass
      | completed => exact ih _ hpass

/-- A pass that reads a non-empty buffer processes it. -/
theorem loopPass_dataPass (P : Platform) (mx my : Int) (buf : List Nat) (s : LoopState)
    (hbuf : buf ≠ []) :
    loopPass P mx my (dataPass buf) s =
      ((processRead P mx my (dataPass buf).env buf 0 s).1,
        (processRead P mx my (dataPass buf).env buf 0 s).2, PassEnd.completed) := by
  have hin : (POLLIN &&& (POLLERR ||| POLLHUP ||| POLLNVAL) ≠ 0) = False := by
    simp only [POLLIN, POLLERR, POLLHUP, POLLNVAL]
    decide
  have hin2 : (POLLIN &&& POLLIN = 0) = False := by
    simp only [POLLIN]
    decide
  have hlen : ¬ buf.length = 0 := fun h => hbuf (List.eq_nil_of_length_eq_zero h)
  simp only [loopPass, dataPass, hin, hin2, if_false, hlen]
  rfl

/-- The leftover bytes after a run of passes that each read a non-empty
buffer. -/
theorem runLoop_dataPasses (P : Platform) (mx my : Int) (reads : List (List Nat))
    (s : LoopState) (h : ∀ b ∈ reads, b ≠ []) :
    (runLoop P mx my (reads.map (fun b => (true, dataPass b))) s).1.leftoverBuf =
      (readsRecords P reads s.leftoverBuf).2 := by
  induction reads generalizing s with
  | nil => rfl
  | cons buf rest ih =>
    have hb := h buf (List.mem_cons_self _ _)
    have hr := fun b hb => h b (List.mem_cons_of_mem _ hb)
    simp only [List.map_cons, runLoop, if_true, readsRecords]
    rw [loopPass_dataPass P mx my buf s hb]
    dsimp only
    rw [ih _ hr, (processRead_records P mx my _ buf 0 s).1]

/-- C12: on a platform with a positive record size (not above the modulus of
`size_t`), starting with no leftover bytes, for every stream of `n` complete
records (`n >= 1`, as an offset lies inside) and every offset `k` strictly
inside it, the records handled
when bytes `[0, k)` are read first and bytes `[k, end)` next are, in the same
order, the records handled when the whole stream is read at once: the `n`
records obtained by cutting the stream at the multiples of the record size.
In both cases no leftover bytes remain, also in the state of the loop after
the two passes. -/
theorem split_read_same_records (P : Platform) (hE : 0 < P.EVENT_SIZE)
    (hM : P.EVENT_SIZE ≤ P.sizeModulus) (stream : List Nat) (n k : Nat)
    (hlen : stream.length = n * P.EVENT_SIZE) (hk0 : 0 < k) (hk : k < stream.length) :
    readsRecords P [stream.take k, stream.drop k] [] = (cutStream P stream, []) ∧
    readsRecords P [stream] [] = (cutStream P stream, []) ∧
    (cutStream P stream).length = n ∧
    (∀ mx my : Int,
      (runLoop P mx my [(true, dataPass (stream.take k)), (true, dataPass (stream.drop k))]
        LoopState.init).1.leftoverBuf = []) := by
  have hrest : restOf P stream = [] := by
    apply List.eq_nil_of_length_eq_zero
    rw [(restOf_length P hE stream).2, hlen]
    exact Nat.mul_mod_left _ _
  have hfirst := readRecords_complete P hE hM [] (stream.take k) hE (Or.inl rfl)
  have hcomp : ReadsComplete P [stream.take k, stream.drop k] [] := by
    refine ⟨Or.inl rfl, ?_, trivial⟩
    rw [hfirst]
    right
    show P.EVENT_SIZE ≤ (restOf P ([] ++ stream.take k)).length + (stream.drop k).length
    rw [(restOf_length P hE _).2, List.nil_append, List.length_take, List.length_drop,
      Nat.min_eq_left hk.le]
    have h1 := Nat.div_add_mod k P.EVENT_SIZE
    have h2 : k / P.EVENT_SIZE < n := by
      apply Nat.div_lt_of_lt_mul
      rw [Nat.mul_comm]
      omega
    have h3 : P.EVENT_SIZE * (k / P.EVENT_SIZE + 1) ≤ P.EVENT_SIZE * n :=
      Nat.mul_le_mul_left _ h2
    rw [Nat.mul_add, Nat.mul_one, Nat.mul_comm P.EVENT_SIZE n] at h3
    omega
  have htwo := readsRecords_complete P hE hM [stream.take k, stream.drop k] [] hE hcomp
  have hone := readsRecords_complete P hE hM [stream] [] hE ⟨Or.inl rfl, trivial⟩
  have hj : ([] : List Nat) ++ [stream.take k, stream.drop k].flatten = stream := by
    simp
  have hj1 : ([] : List Nat) ++ [stream].flatten = stream := by
    simp
  rw [hj, hrest] at htwo
  rw [hj1, hrest] at hone
  refine ⟨htwo, hone, ?_, ?_⟩
  · rw [cutStream_length P hE, hlen]
    exact Nat.mul_div_cancel _ hE
  · intro mx my
    have hne1 : stream.take k ≠ [] := by
      intro h
      have := congrArg List.length h
      rw [List.length_take, Nat.min_eq_left hk.le] at this
      simp at this
      omega
    have hne2 : stream.drop k ≠ [] := by
      intro h
      have := congrArg List.length h
      rw [List.length_drop] at this
      simp at this
      omega
    have := runLoop_dataPasses P mx my [stream.take k, stream.drop k] LoopState.init
      (by
        intro b hb
        simp only [List.mem_cons, List.mem_singleton, List.not_mem_nil, or_false] at hb
        rcases hb with hb | hb
        · rw [hb]; exact hne1
        · rw [hb]; exact hne2)
    simp only [List.map_cons, List.map_nil] at this
    rw [this]
    show (readsRecords P [stream.take k, stream.drop k] []).2 = []
    rw [htwo]

/-- Witness of C12 on `demoPlatform`: the stream of the two records "tracking
id 7" and "report boundary" (48 bytes), split at offset 30. -/
theorem split_read_same_records_witness :
    0 < demoPlatform.EVENT_SIZE ∧ demoPlatform.EVENT_SIZE ≤ demoPlatform.sizeModulus ∧
    demoStream.length = 2 * demoPlatform.EVENT_SIZE ∧ 30 < demoStream.length ∧
    readsRecords demoPlatform [demoStream.take 30, demoStream.drop 30] [] =
      (cutStream demoPlatform demoStream, []) ∧
    cutStream demoPlatform demoStream =
      [{ tv_sec := 5, type := EV_ABS, code := ABS_MT_TRACKING_ID, value := 7 },
        { tv_sec := 5, type := EV_SYN, code := SYN_REPORT, value := 0 }] :=
  ⟨by decide, by decide, by decide, by decide,
    (split_read_same_records demoPlatform (by decide) (by decide) demoStream 2 30 (by decide)
      (by decide) (by decide)).1,
    by decide⟩

/-- C13 (evaluation of the code): a read that follows a non-empty leftover and
is too short to complete the record makes the loop drop the bytes kept and
the bytes read (`bufferOffset = copyLen = bytesRead`, so `remainingBytes = 0`
and line 445 sets `leftoverCount = 0`).  On `demoPlatform`, the stream of the
two records "tracking id 7" and "report boundary" read as 1, 1 and 46 bytes:
the second read drops the first two bytes, the third read handles one record,
made of bytes 2 to 25 of the stream (type 57, code 7, value 327680), and
keeps 22 bytes, while cutting the stream at the multiples of 24 gives the
two records.  After the three passes slot 0 is still free; after one pass
that reads the whole stream it holds tracking id 7. -/
theorem short_read_drops_leftover :
    (∀ (P : Platform) (lo buf : List Nat), P.EVENT_SIZE ≤ P.sizeModulus → 0 < lo.length →
      lo.length + buf.length < P.EVENT_SIZE → readRecords P lo buf = ([], [])) ∧
    cutStream demoPlatform demoStream =
      [{ tv_sec := 5, type := EV_ABS, code := ABS_MT_TRACKING_ID, value := 7 },
        { tv_sec := 5, type := EV_SYN, code := SYN_REPORT, value := 0 }] ∧
    readRecords demoPlatform [] (demoStream.take 1) = ([], [5]) ∧
    readRecords demoPlatform [5] ((demoStream.drop 1).take 1) = ([], []) ∧
    (readsRecords demoPlatform
        [demoStream.take 1, (demoStream.drop 1).take 1, demoStream.drop 2] []).1 =
      [{ tv_sec := 0, tv_usec := 0, type := 57, code := 7, value := 327680 }] ∧
    (readsRecords demoPlatform
        [demoStream.take 1, (demoStream.drop 1).take 1, demoStream.drop 2] []).2.length = 22 ∧
    ((runLoop demoPlatform 1000 1000
        [(true, dataPass (demoStream.take 1)), (true, dataPass ((demoStream.drop 1).take 1)),
          (true, dataPass (demoStream.drop 2))] LoopState.init).1.localTouches[0]?).map
      (fun tp => tp.id) = some (-1) ∧
    ((runLoop demoPlatform 1000 1000 [(true, dataPass demoStream)]
        LoopState.init).1.localTouches[0]?).map (fun tp => tp.id) = some 7 := by
  refine ⟨?_, by decide, by decide, by decide, by decide, by decide, by decide, by decide⟩
  intro P lo buf hM hlo h
  exact readRecords_short P hM lo buf hlo h

/-- C28: on a platform with a positive record size (not above the modulus of
`size_t`), in every run of the loop from its initial state the leftover bytes
kept after a pass are fewer than a record.  When every read that follows a
non-empty leftover supplies enough bytes to complete the record, the number
of leftover bytes after the reads is the number of bytes received modulo the
record size.  Whenever leftover bytes are kept (`0 < leftoverCount <
EVENT_SIZE`), the length `EVENT_SIZE - leftoverCount` of the completion copy
is computed without wrap-around and is positive, the copy fills `leftoverBuf`
to at most one record, and the content of `leftoverBuf` after the copy has at
most the length of a record. -/
theorem leftover_shorter_than_record (P : Platform) (hE : 0 < P.EVENT_SIZE)
    (hM : P.EVENT_SIZE ≤ P.sizeModulus) :
    (∀ (mx my : Int) (passes : List (Bool × PassInput)),
      (runLoop P mx my passes LoopState.init).1.leftoverBuf.length < P.EVENT_SIZE) ∧
    (∀ lo buf : List Nat, (readRecords P lo buf).2.length < P.EVENT_SIZE) ∧
    (∀ (mx my : Int) (reads : List (List Nat)), (∀ b ∈ reads, b ≠ []) →
      ReadsComplete P reads [] →
      (runLoop P mx my (reads.map (fun b => (true, dataPass b)))
        LoopState.init).1.leftoverBuf.length = reads.flatten.length % P.EVENT_SIZE) ∧
    (∀ lo buf : List Nat, 0 < lo.length → lo.length < P.EVENT_SIZE →
      (P.EVENT_SIZE + P.sizeModulus - lo.length) % P.sizeModulus = P.EVENT_SIZE - lo.length ∧
      0 < P.EVENT_SIZE - lo.length ∧
      lo.length + min buf.length
        ((P.EVENT_SIZE + P.sizeModulus - lo.length) % P.sizeModulus) ≤ P.EVENT_SIZE ∧
      (leftoverRecord P lo buf).2.1.length ≤ P.EVENT_SIZE) := by
  refine ⟨?_, ?_, ?_, ?_⟩
  · intro mx my passes
    exact runLoop_leftover_lt P hE mx my passes LoopState.init hE
  · intro lo buf
    exact readRecords_leftover_lt P hE lo buf
  · intro mx my reads hne hcomp
    rw [runLoop_dataPasses P mx my reads LoopState.init hne]
    have := readsRecords_complete P hE hM reads [] hE hcomp
    show (readsRecords P reads []).2.length = _
    rw [this, (restOf_length P hE _).2, List.nil_append]
  · intro lo buf h1 h2
    have hmod : (P.EVENT_SIZE + P.sizeModulus - lo.length) % P.sizeModulus
        = P.EVENT_SIZE - lo.length := by
      have : P.EVENT_SIZE + P.sizeModulus - lo.length
          = (P.EVENT_SIZE - lo.length) + P.sizeModulus := by omega
      rw [this, Nat.add_mod_right]
      exact Nat.mod_eq_of_lt (by omega)
    refine ⟨hmod, by omega, ?_, ?_⟩
    · rw [hmod]
      omega
    · unfold leftoverRecord
      simp only [gt_iff_lt, h1, if_true, hmod]
      by_cases hc : (lo ++ List.take (min buf.length (P.EVENT_SIZE - lo.length)) buf).length
          = P.EVENT_SIZE
      · rw [if_pos hc]
        simp
      · rw [if_neg hc, List.length_append, List.length_take]
        omega

/-- Witness of C28 on `demoPlatform`: after a pass that reads the first 30
bytes of the sample stream, 6 bytes are kept. -/
theorem leftover_shorter_than_record_witness :
    0 < demoPlatform.EVENT_SIZE ∧ demoPlatform.EVENT_SIZE ≤ demoPlatform.sizeModulus ∧
    (runLoop demoPlatform 1000 1000 [(true, dataPass (demoStream.take 30))]
      LoopState.init).1.leftoverBuf.length = 6 ∧
    (runLoop demoPlatform 1000 1000 [(true, dataPass (demoStream.take 30))]
      LoopState.init).1.leftoverBuf.length < demoPlatform.EVENT_SIZE :=
  ⟨by decide, by decide, by decide,
    (leftover_shorter_than_record demoPlatform (by decide) (by decide)).1 1000 1000
      [(true, dataPass (demoStream.take 30))]⟩

/-! ## What a slot that waits for its long press remembers -/

/-- The body of the report loop leaves a slot alone that is free, not down,
or a tap candidate already. -/
theorem reportSlot_tested (mx my : Int) (env : Env) (i : Nat) (tp : TouchPoint) (d : String)
    (n : Nat) (h : tp.id = -1 ∨ tp.isDown = false ∨ tp.maybeUiTap = true) :
    (reportSlot mx my env i tp d n).1 = tp ∧ (reportSlot mx my env i tp d n).2.1 = [] := by
  unfold reportSlot
  dsimp only
  by_cases hid : tp.id ≠ -1
  · have hc : ¬ ((tp.isDown && !tp.maybeUiTap) = true) := by
      rcases h with h | h | h
      · exact absurd h hid
      · simp [h]
      · simp [h]
    rw [if_pos hid, if_neg hc]
    constructor <;> split_ifs <;> rfl
  · rw [if_neg hid]
    exact ⟨rfl, rfl⟩

/-- A long-press check that makes a call for a slot: the slot was waiting,
and the call is the `pressStart` with the data the slot holds. -/
theorem longPressSlot_fires (t : Int) (k : Nat) (tp : TouchPoint) (e : Emit)
    (h : e ∈ (longPressSlot t k tp).2) :
    tp.isCheckingForLongPressStart = true ∧
    e = Emit.pressStart k tp.downRegionIdentifier tp.downX tp.downY tp.downTimestampMs := by
  unfold longPressSlot at h
  dsimp only at h
  by_cases hc : (tp.isDown && tp.maybeUiTap && tp.isCheckingForLongPressStart
      && !tp.longPressStartSent) = true
  · rw [if_pos hc] at h
    simp only [Bool.and_eq_true] at hc
    by_cases hd : t - tp.downTimestampMs ≥ LONG_PRESS_START_DELAY_MS
    · rw [if_pos hd] at h
      exact ⟨hc.1.2, List.mem_singleton.mp h⟩
    · rw [if_neg hd] at h
      exact absurd h (List.not_mem_nil _)
  · rw [if_neg hc] at h
    exact absurd h (List.not_mem_nil _)

/-- A step that is no tracking-id record on slot `k` and leaves the slot
waiting for its long press: the slot was waiting before with the same data,
or the step matched it to a region and sent the `tapDown` with the data the
slot now holds. -/
theorem slotStep_match (mx my : Int) (k cur : Nat) (upd : Bool) (a : Action)
    (tp : TouchPoint) (em : List Emit)
    (hnt : Step.isTrackingOn k { slot := cur, action := a, emits := em } = false)
    (hinv : FlagInv tp)
    (hw : (slotStep mx my k cur upd a tp).1.isCheckingForLongPressStart = true) :
    (tp.isCheckingForLongPressStart = true ∧
      (slotStep mx my k cur upd a tp).1.downRegionIdentifier = tp.downRegionIdentifier ∧
      (slotStep mx my k cur upd a tp).1.downX = tp.downX ∧
      (slotStep mx my k cur upd a tp).1.downY = tp.downY) ∨
    (tp.isDown = true ∧
      (slotStep mx my k cur upd a tp).2 =
        [Emit.tapDown k (slotStep mx my k cur upd a tp).1.downRegionIdentifier
          (slotStep mx my k cur upd a tp).1.downX (slotStep mx my k cur upd a tp).1.downY]) := by
  have hsame : ∀ r : TouchPoint × List Emit, r.1 = tp →
      r.1.isCheckingForLongPressStart = true →
      (tp.isCheckingForLongPressStart = true ∧
        r.1.downRegionIdentifier = tp.downRegionIdentifier ∧
        r.1.downX = tp.downX ∧ r.1.downY = tp.downY) ∨
      (tp.isDown = true ∧
        r.2 = [Emit.tapDown k r.1.downRegionIdentifier r.1.downX r.1.downY]) := by
    intro r hr hwr
    rw [hr] at hwr
    rw [hr]
    exact Or.inl ⟨hwr, rfl, rfl, rfl⟩
  have n0 : ¬ (EV_SYN = EV_ABS) := by decide
  have n1 : ¬ (ABS_MT_TRACKING_ID = ABS_MT_SLOT) := by decide
  have n2 : ¬ (ABS_MT_POSITION_X = ABS_MT_SLOT) := by decide
  have n3 : ¬ (ABS_MT_POSITION_X = ABS_MT_TRACKING_ID) := by decide
  have n4 : ¬ (ABS_MT_POSITION_Y = ABS_MT_SLOT) := by decide
  have n5 : ¬ (ABS_MT_POSITION_Y = ABS_MT_TRACKING_ID) := by decide
  have n6 : ¬ (ABS_MT_POSITION_Y = ABS_MT_POSITION_X) := by decide
  cases a with
  | check t =>
    have hs : slotStep mx my k cur upd (Action.check t) tp = longPressSlot t k tp := rfl
    rw [hs] at hw ⊢
    by_cases hc : (tp.isDown && tp.maybeUiTap && tp.isCheckingForLongPressStart
        && !tp.longPressStartSent) = true
    · by_cases hd : t - tp.downTimestampMs ≥ LONG_PRESS_START_DELAY_MS
      · have hl : longPressSlot t k tp =
            ({ tp with longPressStartSent := true, isCheckingForLongPressStart := false },
              [Emit.pressStart k tp.downRegionIdentifier tp.downX tp.downY
                tp.downTimestampMs]) := by
          unfold longPressSlot
          dsimp only
          rw [if_pos hc, if_pos hd]
        rw [hl] at hw
        exact absurd hw (by simp)
      · have hl : longPressSlot t k tp = (tp, []) := by
          unfold longPressSlot
          dsimp only
          rw [if_pos hc, if_neg hd]
        rw [hl] at hw ⊢
        exact hsame (tp, []) rfl hw
    · have hl : longPressSlot t k tp = (tp, []) := by
        unfold longPressSlot
        dsimp only
        rw [if_neg hc]
      rw [hl] at hw ⊢
      exact hsame (tp, []) rfl hw
  | record b env ev =>
    simp only [Step.isTrackingOn, Bool.and_eq_false_iff, decide_eq_false_iff_not] at hnt
    by_cases c1 : ev.type = EV_ABS
    · by_cases c2 : ev.code = ABS_MT_SLOT
      · have hs : slotStep mx my k cur upd (Action.record b env ev) tp = (tp, []) := by
          simp only [slotStep, c1, c2, if_true, n0, n1, n2, n3, n4, n5, n6]
        rw [hs] at hw ⊢
        exact hsame (tp, []) rfl hw
      · by_cases c3 : ev.code = ABS_MT_TRACKING_ID
        · have hcur : ¬ cur = k := by tauto
          have hs : slotStep mx my k cur upd (Action.record b env ev) tp = (tp, []) := by
            simp only [slotStep, c1, c2, c3, hcur, if_true, if_false, n0, n1, n2, n3, n4, n5, n6]
          rw [hs] at hw ⊢
          exact hsame (tp, []) rfl hw
        · by_cases c4 : ev.code = ABS_MT_POSITION_X
          · by_cases hcur : cur = k
            · have hs : slotStep mx my k cur upd (Action.record b env ev) tp =
                  ({ tp with x := ev.value }, []) := by
                simp only [slotStep, c1, c2, c3, c4, hcur, if_true, if_false, n0, n1, n2, n3, n4, n5, n6]
              rw [hs] at hw ⊢
              exact Or.inl ⟨hw, rfl, rfl, rfl⟩
            · have hs : slotStep mx my k cur upd (Action.record b env ev) tp = (tp, []) := by
                simp only [slotStep, c1, c2, c3, c4, hcur, if_true, if_false, n0, n1, n2, n3, n4, n5, n6]
              rw [hs] at hw ⊢
              exact hsame (tp, []) rfl hw
          · by_cases c5 : ev.code = ABS_MT_POSITION_Y
            · by_cases hcur : cur = k
              · have hs : slotStep mx my k cur upd (Action.record b env ev) tp =
                    ({ tp with y := ev.value }, []) := by
                  simp only [slotStep, c1, c2, c3, c4, c5, hcur, if_true, if_false, n0, n1, n2, n3, n4, n5, n6]
                rw [hs] at hw ⊢
                exact Or.inl ⟨hw, rfl, rfl, rfl⟩
              · have hs : slotStep mx my k cur upd (Action.record b env ev) tp = (tp, []) := by
                  simp only [slotStep, c1, c2, c3, c4, c5, hcur, if_true, if_false, n0, n1, n2, n3, n4, n5, n6]
                rw [hs] at hw ⊢
                exact hsame (tp, []) rfl hw
            · have hs : slotStep mx my k cur upd (Action.record b env ev) tp = (tp, []) := by
                simp only [slotStep, c1, c2, c3, c4, c5, if_true, if_false, n0, n1, n2, n3, n4, n5, n6]
              rw [hs] at hw ⊢
              exact hsame (tp, []) rfl hw
    · by_cases c2 : ev.type = EV_SYN ∧ ev.code = SYN_REPORT
      · cases hupd : upd with
        | false =>
          have hs : slotStep mx my k cur false (Action.record b env ev) tp = (tp, []) := by
            simp only [slotStep, c1, c2, if_false, and_self, if_true, Bool.false_eq_true, n0]
          rw [hupd] at hw
          rw [hs] at hw ⊢
          exact hsame (tp, []) rfl hw
        | true =>
          have hs : slotStep mx my k cur true (Action.record b env ev) tp =
              ((reportSlot mx my env k tp "" 0).1, (reportSlot mx my env k tp "" 0).2.1) := by
            simp only [slotStep, c1, c2, if_false, and_self, if_true, n0]
          rw [hupd] at hw
          rw [hs] at hw ⊢
          by_cases hun : tp.id ≠ -1 ∧ tp.isDown = true ∧ tp.maybeUiTap = false
          · obtain ⟨r1, r2⟩ := reportSlot_untested mx my env k tp "" 0 hun.1 hun.2.1 hun.2.2
            cases hreg : regionLoop (mappedPoint mx my env tp).1 (mappedPoint mx my env tp).2
                env.g_clickableRegions with
            | none =>
              rw [hreg] at r1
              dsimp only at hw
              rw [r1] at hw
              have := (hinv.2.2.2.2.2 hw).1
              rw [hun.2.2] at this
              exact absurd this (by simp)
            | some region =>
              rw [hreg] at r1 r2
              refine Or.inr ⟨hun.2.1, ?_⟩
              dsimp only
              rw [r1, r2]
          · have ht : tp.id = -1 ∨ tp.isDown = false ∨ tp.maybeUiTap = true := by
              by_cases q1 : tp.id = -1
              · exact Or.inl q1
              · by_cases q2 : tp.isDown = true
                · right; right
                  by_contra q3
                  exact hun ⟨q1, q2, by simpa using q3⟩
                · right; left
                  simpa using q2
            obtain ⟨r1, r2⟩ := reportSlot_tested mx my env k tp "" 0 ht
            exact hsame _ r1 hw
      · have hs : slotStep mx my k cur upd (Action.record b env ev) tp = (tp, []) := by
          simp only [slotStep, c1, c2, if_false]
        rw [hs] at hw ⊢
        exact hsame (tp, []) rfl hw

/-- A tracking-id record on slot `k` leaves the slot not waiting for a long
press. -/
theorem slotStep_tracking_notWaiting (mx my : Int) (k : Nat) (upd b : Bool) (env : Env)
    (ev : InputEvent) (tp : TouchPoint) (h1 : ev.type = EV_ABS)
    (h2 : ev.code = ABS_MT_TRACKING_ID) :
    (slotStep mx my k k upd (Action.record b env ev) tp).1.isCheckingForLongPressStart
      = false := by
  have hne : ¬ (ABS_MT_TRACKING_ID = ABS_MT_SLOT) := by decide
  by_cases h3 : ev.value = -1 <;> simp [slotStep, h1, h2, h3, hne]

/-- Every slot reached from the initial state that waits for its long press
holds the data of the `tapDown` sent in its lifecycle. -/
theorem reach_match (mx my : Int) (k : Nat) (acts : List Action) :
    ∀ tp, (exec mx my LoopState.init acts).localTouches[k]? = some tp →
      MatchHistory k (runSteps mx my LoopState.init acts) tp := by
  induction acts using List.reverseRecOn with
  | nil =>
    intro tp h hw
    exfalso
    have hk : k < MAX_SLOTS := by
      have := (List.getElem?_eq_some_iff.mp h).1
      simpa [exec, LoopState.init] using this
    have : tp = {} := by
      simp only [exec, LoopState.init, List.getElem?_replicate, hk, if_true,
        Option.some.injEq] at h
      exact h.symm
    rw [this] at hw
    simp at hw
  | append_singleton acts a ih =>
    intro tp2 h2 hw
    have hinvAll := reach_flagInv mx my acts k
    have hhistAll := reach_history mx my k acts
    rw [exec_snoc] at h2
    rw [runSteps_snoc]
    generalize hs : exec mx my LoopState.init acts = s at ih h2 hinvAll hhistAll ⊢
    generalize hh : runSteps mx my LoopState.init acts = hist at ih hhistAll ⊢
    cases hk : s.localTouches[k]? with
    | none =>
      rw [(stepAction_slot_none mx my s a k hk).1] at h2
      exact absurd h2 (by simp)
    | some tp =>
      obtain ⟨g1, g2⟩ := stepAction_slot mx my s a k tp hk
      rw [g1, Option.some.injEq] at h2
      have hinv := hinvAll tp hk
      by_cases htr : Step.isTrackingOn k
          { slot := s.currentSlot.toNat, action := a, emits := (stepAction mx my s a).2 } = true
      · obtain ⟨b, env, ev, ha, h1, h3, hslot⟩ := (isTrackingOn_iff k _).mp htr
        simp only at ha hslot
        subst ha
        rw [hslot] at h2
        have := slotStep_tracking_notWaiting mx my k s.touchDataUpdated b env ev tp h1 h3
        rw [h2, hw] at this
        exact absurd this (by simp)
      · simp only [Bool.not_eq_true] at htr
        obtain ⟨c1, c2, _⟩ :=
          slotStep_other mx my k s.currentSlot.toNat s.touchDataUpdated a tp _ htr
        have hm := slotStep_match mx my k s.currentSlot.toNat s.touchDataUpdated a tp _ htr hinv
          (by rw [h2]; exact hw)
        rw [h2] at c1 c2 hm
        have hseg : ∀ (seg : List Step), (∀ st ∈ seg, st.isTrackingOn k = false) →
            ∀ st ∈ seg ++ [{ slot := s.currentSlot.toNat, action := a,
                              emits := (stepAction mx my s a).2 }],
              st.isTrackingOn k = false := by
          intro seg hsg st hst
          rcases List.mem_append.mp hst with h | h
          · exact hsg st h
          · rw [List.mem_singleton] at h
            rw [h]
            exact htr
        rcases hm with ⟨m1, m2, m3, m4⟩ | ⟨m1, m2⟩
        · obtain ⟨pre, d, seg, b, env, ev, e1, e2, e3, e4, e5, e6⟩ := ih tp hk m1
          refine ⟨pre, d,
            seg ++ [{ slot := s.currentSlot.toNat, action := a,
                      emits := (stepAction mx my s a).2 }],
            b, env, ev, by rw [e1]; simp, e2, e3, hseg seg e4, by rw [c2]; exact e5, ?_⟩
          rw [m2, m3, m4, emitsOf_append]
          exact List.mem_append_left _ e6
        · obtain ⟨pre, d, seg, b, env, ev, e1, e2, e3, e4, e5, _⟩ := hhistAll tp hk m1
          refine ⟨pre, d,
            seg ++ [{ slot := s.currentSlot.toNat, action := a,
                      emits := (stepAction mx my s a).2 }],
            b, env, ev, by rw [e1]; simp, e2, e3, hseg seg e4, by rw [c2]; exact e5, ?_⟩
          rw [emitsOf_append]
          apply List.mem_append_right
          simp only [emitsOf, List.flatMap_cons, List.flatMap_nil, List.append_nil]
          have : Emit.tapDown k tp2.downRegionIdentifier tp2.downX tp2.downY ∈
              (stepAction mx my s a).2.filter (Emit.ofSlot k) := by
            rw [g2, m2]
            simp
          exact (List.mem_filter.mp this).1

/-- C20: in every run of the loop from the initial state, a step `fire` that
sends `pressStart(identifier, x, y, ts)` for slot `k` comes after a lifecycle of
the slot that is still open: the log before it ends with a tracking-id record
`d` with a value other than -1 on the slot, whose clock reading is `ts`,
followed by steps `seg` without tracking-id record on the slot, and in `seg`
the `tapDown(identifier, x, y)` of the slot was sent, with the same
identifier and the same coordinates; it is the only `tapDown` of the slot in
the lifecycle.  The `pressStart` thus carries the data recorded at the match,
whatever records, region lists, geometries and clock readings came between
the match and the check. -/
theorem pressStart_carries_tapDown_data (nativeMaxX nativeMaxY : Int)
    (acts : List Action) (k : Nat) (before : List Step) (fire : Step) (after : List Step)
    (identifier : String) (x y ts : Int)
    (hrun : runSteps nativeMaxX nativeMaxY LoopState.init acts = before ++ fire :: after)
    (hmem : Emit.pressStart k identifier x y ts ∈ fire.emits) :
    ∃ (pre : List Step) (d : Step) (seg : List Step) (b : Bool) (env : Env) (ev : InputEvent),
      before = pre ++ d :: seg ∧ d.action = Action.record b env ev ∧ d.isDownOn k = true ∧
      (∀ st ∈ seg, st.isTrackingOn k = false) ∧ env.nowMs = ts ∧
      Emit.tapDown k identifier x y ∈ emitsOf seg ∧
      (emitsOf seg).countP (Emit.isTapDownOf k) = 1 := by
  obtain ⟨as, a, hpre, he⟩ := runSteps_at nativeMaxX nativeMaxY _ acts before fire after hrun
  have hmatch := reach_match nativeMaxX nativeMaxY k as
  generalize hs : exec nativeMaxX nativeMaxY LoopState.init as = s at he hmatch
  have hnt : Step.isTrackingOn k fire = false := by
    by_contra htr
    simp only [Bool.not_eq_false] at htr
    obtain ⟨b, env, ev, ha, h1, h2, _⟩ := (isTrackingOn_iff k fire).mp htr
    rw [he] at ha hmem
    simp only at ha hmem
    subst ha
    obtain ⟨_, _, _, hq⟩ := tracking_emits nativeMaxX nativeMaxY s b env ev h1 h2 _ hmem
    exact absurd hq (by simp)
  have hxf : Emit.pressStart k identifier x y ts ∈ fire.emits.filter (Emit.ofSlot k) := by
    rw [List.mem_filter]
    exact ⟨hmem, by simp [Emit.ofSlot, Emit.slot?]⟩
  rw [he] at hnt hxf
  simp only at hxf
  cases hk : s.localTouches[k]? with
  | none =>
    rw [(stepAction_slot_none nativeMaxX nativeMaxY s a k hk).2] at hxf
    exact absurd hxf (by simp)
  | some tp =>
    rw [(stepAction_slot nativeMaxX nativeMaxY s a k tp hk).2] at hxf
    obtain ⟨_, _, hc⟩ :=
      slotStep_other nativeMaxX nativeMaxY k s.currentSlot.toNat s.touchDataUpdated a tp _ hnt
    rcases hc with ⟨q, _⟩ | ⟨_, _, _, q, _⟩ | ⟨t, ha, q, _⟩
    · rw [q] at hxf
      exact absurd hxf (by simp)
    · rw [q] at hxf
      exact absurd hxf (by simp)
    · subst ha
      have hs2 : slotStep nativeMaxX nativeMaxY k s.currentSlot.toNat s.touchDataUpdated
          (Action.check t) tp = longPressSlot t k tp := rfl
      rw [hs2] at hxf
      obtain ⟨hw, heq⟩ := longPressSlot_fires t k tp _ hxf
      simp only [Emit.pressStart.injEq, true_and] at heq
      obtain ⟨hi, hx, hy, hts⟩ := heq
      obtain ⟨pre, d, seg, b, env, ev, e1, e2, e3, e4, e5, e6⟩ := hmatch tp hk hw
      rw [hpre] at e1
      rw [← hi, ← hx, ← hy] at e6
      refine ⟨pre, d, seg, b, env, ev, e1, e2, e3, e4, by rw [hts]; exact e5, e6, ?_⟩
      have hrun2 : runSteps nativeMaxX nativeMaxY LoopState.init acts
          = pre ++ (d :: seg) ++ (fire :: after) := by
        rw [hrun, e1, List.append_assoc]
      obtain ⟨as2, bs2, _, h2⟩ :=
        runSteps_middle nativeMaxX nativeMaxY _ acts pre (d :: seg) (fire :: after) hrun2
      have hle := (lifecycle_counts nativeMaxX nativeMaxY k _ bs2 d seg h2 e3 e4).1
      rw [emitsOf_cons, List.countP_append] at hle
      have hpos : 0 < (emitsOf seg).countP (Emit.isTapDownOf k) :=
        List.countP_pos_iff.mpr ⟨_, e6, by simp [Emit.isTapDownOf]⟩
      omega

/-- Witness of C20 on the sample run: the `pressStart("btn1", 110, 210, 0)` of
the check at 160 ms carries the data of the `tapDown("btn1", 110, 210)` sent at
the first report boundary of the touch that began at clock reading 0. -/
theorem pressStart_carries_tapDown_data_witness :
    demoSteps = demoSteps.take 5 ++ demoFire :: demoSteps.drop 6 ∧
    Emit.pressStart 0 "btn1" 110 210 0 ∈ demoFire.emits ∧
    (∃ (pre : List Step) (d : Step) (seg : List Step) (b : Bool) (env : Env) (ev : InputEvent),
      demoSteps.take 5 = pre ++ d :: seg ∧ d.action = Action.record b env ev ∧
      d.isDownOn 0 = true ∧ (∀ st ∈ seg, st.isTrackingOn 0 = false) ∧ env.nowMs = 0 ∧
      Emit.tapDown 0 "btn1" 110 210 ∈ emitsOf seg ∧
      (emitsOf seg).countP (Emit.isTapDownOf 0) = 1) :=
  ⟨by decide, by decide,
    pressStart_carries_tapDown_data 1000 1000 demoActs 0 (demoSteps.take 5) demoFire
      (demoSteps.drop 6) "btn1" 110 210 0 (by rfl) (by decide)⟩

end LowLatencyInput
